import Mathlib

/-!
# Healthcare "detective" scoring service (`src/server.js`)

A shallow embedding of the scoring pipeline of `src/server.js`:
feature engineering, the personal-baseline anomaly detector, the two
rule-weighted risk models, the confidence estimator, the contributor
ranker and the decision engine.

Numbers.  JavaScript numbers are modelled by an arbitrary linearly ordered
field `α` with a floor function (exact arithmetic, no rounding error, no
overflow); a value that is `null`, `undefined`, `NaN` or `±Infinity` where a
finite number is expected is `none`.  The definitions are computable for
`α = ℚ`; results that depend on the actual values of `Math.exp`,
`Math.sqrt` or `Math.tanh` are stated for `α = ℝ` with the real functions.
The three `Math` functions, `Number(string)` and number-to-string
conversion are parameters of the definitions that use them.

Rounding.  Where the rounding of IEEE 754 doubles decides a property (the
least-squares slope `slopePerDay`, the strict widening of `ci90`), the function
is embedded a second time over `Double`, a model of binary64 arithmetic with
round-to-nearest, ties to even, overflow to an infinity and `NaN`; the
properties of these functions are proved on that second embedding.
-/

set_option linter.unusedSectionVars false

namespace Detective

variable {α : Type} [LinearOrderedField α] [FloorRing α]

/-! ## Values -/

/-- A JavaScript value as it can appear in a field of a parsed request.
`num x` is a finite number; `obj s` is an array or object whose
conversion to a primitive is the string `s`. -/
inductive JsVal (α : Type) where
  | undefined : JsVal α
  | null : JsVal α
  | bool (b : Bool) : JsVal α
  | num (x : α) : JsVal α
  | nan : JsVal α
  | posInf : JsVal α
  | negInf : JsVal α
  | str (s : String) : JsVal α
  | obj (s : String) : JsVal α

/-- Source: `isNum = (v) => typeof v === "number" && Number.isFinite(v)`,
on a raw value. -/
def JsVal.isNum : JsVal α → Bool
  | .num _ => true
  | _ => false

/-- Truthiness of a value, as used by `!!v`. -/
def JsVal.truthy : JsVal α → Bool
  | .undefined => false
  | .null => false
  | .bool b => b
  | .num x => decide (x ≠ 0)
  | .nan => false
  | .posInf => true
  | .negInf => true
  | .str s => decide (s ≠ "")
  | .obj _ => true

/-- Source: `toNumberOrNull(v)`: `Number(v)` when that is finite, else `null`.
`strNum s` is `Number(s)` for a string `s`, with `none` for a result that is
not finite.  `Number(undefined)` is `NaN`, `Number(null)` is `0`,
`Number(true)` is `1`, `Number(false)` is `0`. -/
def toNumberOrNull (strNum : String → Option α) : JsVal α → Option α
  | .undefined => none
  | .null => some 0
  | .bool b => some (if b then 1 else 0)
  | .num x => some x
  | .nan => none
  | .posInf => none
  | .negInf => none
  | .str s => strNum s
  | .obj s => strNum s

/-! ## Utils -/

/-- Source: `arr.filter(isNum)` on a series of numbers-or-null. -/
def filterNum (arr : List (Option α)) : List α :=
  arr.filterMap id

/-- Source: `mean(arr)`. -/
def mean (arr : List (Option α)) : Option α :=
  let xs := filterNum arr
  if xs.length = 0 then none
  else some (xs.foldl (fun a b => a + b) 0 / (xs.length : α))

/-- Source: `std(arr)`; `sqrtF` is `Math.sqrt`.  The inner `mean(xs)` is a
number because `xs` has at least two elements. -/
def std (sqrtF : α → α) (arr : List (Option α)) : α :=
  let xs := filterNum arr
  if xs.length < 2 then 0
  else
    let m := (mean (xs.map some)).getD 0
    let v := xs.foldl (fun acc x => acc + (x - m) ^ 2) 0 / ((xs.length : α) - 1)
    sqrtF v

/-- Source: `clamp(x, lo, hi) = Math.min(hi, Math.max(lo, x))`. -/
def clamp (x lo hi : α) : α :=
  min hi (max lo x)

/-- Source: `sigmoid(x) = 1 / (1 + Math.exp(-x))`; `expF` is `Math.exp`. -/
def sigmoid (expF : α → α) (x : α) : α :=
  1 / (1 + expF (-x))

/-- Source: `Math.round`, rounding to the nearest integer with halves going
up. -/
def mathRound (x : α) : α :=
  ((⌊x + 1 / 2⌋ : ℤ) : α)

/-- Source: `round1(x) = Math.round(x * 10) / 10`. -/
def round1 (x : α) : α :=
  mathRound (x * 10) / 10

/-- Source: `round2(x) = Math.round(x * 100) / 100`. -/
def round2 (x : α) : α :=
  mathRound (x * 100) / 100

/-- Source: `round3(x) = Math.round(x * 1000) / 1000`. -/
def round3 (x : α) : α :=
  mathRound (x * 1000) / 1000

/-- The loop of `slopePerDay` that collects `[i, v]` for every index `i`
(counted from `i`) whose value is a number. -/
def collectPts (i : Nat) : List (Option α) → List (Nat × α)
  | [] => []
  | none :: vs => collectPts (i + 1) vs
  | some v :: vs => (i, v) :: collectPts (i + 1) vs

/-- Source: `slopePerDay(values)`, the least-squares slope over the valid
points, with the day index as abscissa, in exact arithmetic;
`Double.slopePerDay` is the same function in doubles. -/
def slopePerDay (values : List (Option α)) : α :=
  let pts := collectPts 0 values
  let n := pts.length
  if n < 2 then 0
  else
    let sx : α := pts.foldl (fun a p => a + (p.1 : α)) 0
    let sy : α := pts.foldl (fun a p => a + p.2) 0
    let sxx : α := pts.foldl (fun a p => a + (p.1 : α) * (p.1 : α)) 0
    let sxy : α := pts.foldl (fun a p => a + (p.1 : α) * p.2) 0
    let denom : α := (n : α) * sxx - sx * sx
    if |denom| < 1e-8 then 0
    else ((n : α) * sxy - sx * sy) / denom

/-- Source: `last(arr)`, the last valid value scanning from the end. -/
def last (arr : List (Option α)) : Option α :=
  arr.reverse.findSome? id

/-- Source: `countValid(arr)`. -/
def countValid (arr : List (Option α)) : Nat :=
  (filterNum arr).length

/-- Source: `pctMissing(arr, total)`. -/
def pctMissing (arr : List (Option α)) (total : Nat) : α :=
  let v := countValid arr
  if total = 0 then 1 else 1 - (v : α) / (total : α)

/-! ## Feature engineering -/

/-- Source: `computeBMI(weight_kg, height_cm)`. -/
def computeBMI (weight_kg height_cm : Option α) : Option α :=
  match weight_kg, height_cm with
  | some w, some hc =>
    if hc ≤ 0 then none
    else
      let h := hc / 100
      some (w / (h * h))
  | _, _ => none

/-- The thirteen tracked metrics, in the key order of the `arrays` object of
`engineerFeatures`. -/
inductive Metric where
  | resting_hr | systolic_bp | diastolic_bp | steps | sleep_hours | water_l
  | diet_score | activity_minutes | weight_kg | bmi | mood | stress | hrv
  deriving DecidableEq

/-- One daily record: every field is a raw value, `undefined` when absent. -/
structure DailyRecord (α : Type) where
  resting_hr : JsVal α := .undefined
  systolic_bp : JsVal α := .undefined
  diastolic_bp : JsVal α := .undefined
  steps : JsVal α := .undefined
  sleep_hours : JsVal α := .undefined
  water_l : JsVal α := .undefined
  diet_score : JsVal α := .undefined
  activity_minutes : JsVal α := .undefined
  weight_kg : JsVal α := .undefined
  bmi : JsVal α := .undefined
  mood : JsVal α := .undefined
  stress : JsVal α := .undefined
  hrv : JsVal α := .undefined

/-- The field of a daily record that carries metric `k` (`d[k]`). -/
def DailyRecord.field (d : DailyRecord α) : Metric → JsVal α
  | .resting_hr => d.resting_hr
  | .systolic_bp => d.systolic_bp
  | .diastolic_bp => d.diastolic_bp
  | .steps => d.steps
  | .sleep_hours => d.sleep_hours
  | .water_l => d.water_l
  | .diet_score => d.diet_score
  | .activity_minutes => d.activity_minutes
  | .weight_kg => d.weight_kg
  | .bmi => d.bmi
  | .mood => d.mood
  | .stress => d.stress
  | .hrv => d.hrv

/-- The request's `demographics` object.  `sex` is absent or a string (the
source calls `toUpperCase` on it, which only a string admits). -/
structure Demographics (α : Type) where
  age : JsVal α := .undefined
  sex : Option String := none
  smoker : JsVal α := .undefined
  height_cm : JsVal α := .undefined

/-- The cleaned demographics that `engineerFeatures` returns. -/
structure CleanDemo (α : Type) where
  age : Option α
  sex : String
  smoker : Bool
  height_cm : Option α

/-- The six aggregates of one metric: `agg[key + "_mean"]`, `_std`, `_last`,
`_trend_per_day`, `_trend_per_week`, `_missing_frac`.  The two that the risk
models read behind an `isNum` test are options, so that an aggregate object
with a missing entry is representable. -/
structure MetricAgg (α : Type) where
  mean : Option α
  std : α
  last : Option α
  trend_per_day : α
  trend_per_week : Option α
  missing_frac : α

/-- The aggregate object `agg`. -/
structure Agg (α : Type) where
  metric : Metric → MetricAgg α
  sbp_over_130_rate : α
  dbp_over_80_rate : α
  global_missing_frac : α

/-- The result of `engineerFeatures`. -/
structure Features (α : Type) where
  N : Nat
  arrays : Metric → List (Option α)
  agg : Agg α
  demographics : CleanDemo α

/-- The value that the loop over `days` pushes on the series of metric `k`
for the record `d`. -/
def daySlot (strNum : String → Option α) (height_cm : Option α)
    (d : DailyRecord α) : Metric → Option α
  | .weight_kg => toNumberOrNull strNum d.weight_kg
  | .bmi =>
    let w := toNumberOrNull strNum d.weight_kg
    if d.bmi.isNum then toNumberOrNull strNum d.bmi else computeBMI w height_cm
  | k => toNumberOrNull strNum (d.field k)

/-- The body of the loop over `Object.keys(arrays)`: the aggregates of one
series in a window of `N` days. -/
def aggregate (sqrtF : α → α) (arr : List (Option α)) (N : Nat) : MetricAgg α :=
  let tpd := slopePerDay arr
  { mean := mean arr
    std := std sqrtF arr
    last := last arr
    trend_per_day := tpd
    trend_per_week := some (tpd * 7)
    missing_frac := pctMissing arr N }

/-- Source: `keyFeatures` of `engineerFeatures`. -/
def keyFeatures : List Metric :=
  [.resting_hr, .systolic_bp, .diastolic_bp, .steps, .sleep_hours, .weight_kg,
   .diet_score, .activity_minutes, .bmi, .stress, .mood]

/-- Source: the rate `arr.filter((x) => isNum(x) && x >= t).length / N`, `0`
for an empty window. -/
def overRate (arr : List (Option α)) (t : α) (N : Nat) : α :=
  if N > 0 then
    ((arr.filter (fun x => match x with
      | some v => decide (t ≤ v)
      | none => false)).length : α) / (N : α)
  else 0

/-- Source: `engineerFeatures(days, demographics)`.  Every key of
`keyFeatures` has a numeric `_missing_frac`, so the `?? 1` and the
`typeof x === "number"` filter of the source keep every entry. -/
def engineerFeatures (strNum : String → Option α) (sqrtF : α → α)
    (days : List (DailyRecord α)) (demographics : Demographics α) : Features α :=
  let N := days.length
  let age := toNumberOrNull strNum demographics.age
  let sex := (demographics.sex.getD "").toUpper
  let smoker := demographics.smoker.truthy
  let height_cm := toNumberOrNull strNum demographics.height_cm
  let arrays : Metric → List (Option α) :=
    fun k => days.map (fun d => daySlot strNum height_cm d k)
  let metric : Metric → MetricAgg α := fun k => aggregate sqrtF (arrays k) N
  let missFracs := keyFeatures.map (fun k => (metric k).missing_frac)
  { N := N
    arrays := arrays
    agg :=
      { metric := metric
        sbp_over_130_rate := overRate (arrays .systolic_bp) 130 N
        dbp_over_80_rate := overRate (arrays .diastolic_bp) 80 N
        global_missing_frac :=
          if missFracs.length ≠ 0 then
            missFracs.foldl (fun a b => a + b) 0 / (missFracs.length : α)
          else 1 }
    demographics := { age := age, sex := sex, smoker := smoker, height_cm := height_cm } }

/-! ## Anomaly detection -/

/-- Source: `arr.slice(0, e)` for an integer `e`: a negative `e` counts from
the end of the array. -/
def jsSlice0 {β : Type} (l : List β) (e : Int) : List β :=
  l.take (if e < 0 then ((l.length : Int) + e).toNat else e.toNat)

/-- Source: `keys` of `anomalyFromBaseline`. -/
def anomalyKeys : List Metric :=
  [.resting_hr, .systolic_bp, .sleep_hours, .steps, .weight_kg]

/-- Source: the baseline `{ mean, std }` of one series in
`anomalyFromBaseline`; `N` is the window length. -/
def baselineOf (sqrtF : α → α) (arr : List (Option α)) (baselineDays : Int)
    (N : Nat) : Option α × α :=
  let baseSlice := (jsSlice0 arr (min baselineDays (N : Int))).filter Option.isSome
  let m := mean baseSlice
  let s := std sqrtF baseSlice
  (m, if s > 1e-6 then s else 1e-6)

/-- The inner loop of `anomalyFromBaseline` for day `i`: the pair
`(sumAbsZ, cnt)` after the metrics `ks`, starting from `acc`.  A baseline
`std` is always a number here, so only the baseline mean is tested. -/
def dayAccum (arrays : Metric → List (Option α)) (baselines : Metric → Option α × α)
    (i : Nat) : List Metric → α × Nat → α × Nat
  | [], acc => acc
  | k :: ks, acc =>
    match (arrays k)[i]?.join, (baselines k).1 with
    | some v, some m =>
      let z := |(v - m) / (baselines k).2|
      dayAccum arrays baselines i ks (acc.1 + min z 4, acc.2 + 1)
    | _, _ => dayAccum arrays baselines i ks acc

/-- Source: the entry of `znormsByDay` for day `i`. -/
def znormOfDay (arrays : Metric → List (Option α)) (baselines : Metric → Option α × α)
    (i : Nat) : α :=
  let r := dayAccum arrays baselines i anomalyKeys (0, 0)
  if r.2 ≠ 0 then r.1 / (r.2 : α) else 0

/-- The result of `anomalyFromBaseline`. -/
structure AnomalyResult (α : Type) where
  score : α
  flag : Bool
  dailyAnoms : List α

/-- Source: `anomalyFromBaseline(arrays, baselineDays)`; `sqrtF` is
`Math.sqrt` and `tanhF` is `Math.tanh`. -/
def anomalyFromBaseline (sqrtF tanhF : α → α) (arrays : Metric → List (Option α))
    (baselineDays : Int) : AnomalyResult α :=
  let N := (arrays .resting_hr).length
  let baselines : Metric → Option α × α :=
    fun k => baselineOf sqrtF (arrays k) baselineDays N
  let znormsByDay := (List.range N).map (fun i => znormOfDay arrays baselines i)
  let dailyAnoms := znormsByDay.map (fun z => clamp (tanhF (z / 2.5)) 0 1)
  let score := if dailyAnoms.length ≠ 0 then dailyAnoms.getD (dailyAnoms.length - 1) 0 else 0
  let persist :=
    decide (2 ≤ dailyAnoms.length) &&
    decide (0.75 ≤ dailyAnoms.getD (dailyAnoms.length - 1) 0) &&
    decide (0.75 ≤ dailyAnoms.getD (dailyAnoms.length - 2) 0)
  let flag := persist || decide (0.9 ≤ score)
  { score := round2 score, flag := flag, dailyAnoms := dailyAnoms }

/-! ## Risk models -/

/-- The result of a risk model: the probability and the contribution map,
in key order. -/
structure RiskResult (α : Type) where
  prob : α
  contrib : List (String × α)

/-- Source: `riskT2D(agg, demographics)`; `expF` is `Math.exp`. -/
def riskT2D (expF : α → α) (agg : Agg α) (demographics : CleanDemo α) : RiskResult α :=
  let age : α := demographics.age.getD 40
  let bmi : α := (agg.metric .bmi).mean.getD 26
  let steps : α := (agg.metric .steps).mean.getD 6000
  let stepsBad := clamp ((10000 - steps) / 5000) 0 2
  let dietScore : α := (agg.metric .diet_score).mean.getD 3
  let dietBad := clamp ((3 - dietScore) / 2) (-1.5) 1.5
  let sleep : α := (agg.metric .sleep_hours).mean.getD 7
  let sleepBad := clamp (|sleep - 7| / 3) 0 2
  let stress : α := (agg.metric .stress).mean.getD 3
  let stressNorm := clamp ((stress - 3) / 2) (-1.5) 1.5
  let wtTrendWk : α := (agg.metric .weight_kg).trend_per_week.getD 0
  let wtGain := clamp (max 0 wtTrendWk / 0.5) 0 2
  let z : α :=
    -1.2 + 0.02 * (age - 45) +
    0.35 * ((bmi - 27) / 5) +
    0.25 * wtGain +
    -0.25 * (1 - stepsBad) +
    0.18 * dietBad +
    0.15 * sleepBad +
    0.12 * stressNorm
  let p := clamp (sigmoid expF z) 0.01 0.99
  let contrib : List (String × α) :=
    [("age", 0.02 * (age - 45)),
     ("bmi", 0.35 * ((bmi - 27) / 5)),
     ("weight_trend_wk", 0.25 * wtGain),
     ("steps_mean", -0.25 * (1 - stepsBad)),
     ("diet_score_mean", 0.18 * dietBad),
     ("sleep_hours_mean", 0.15 * sleepBad),
     ("stress_mean", 0.12 * stressNorm)]
  { prob := round2 p, contrib := contrib }

/-- Source: `riskHTN(agg, demographics)`; `expF` is `Math.exp`. -/
def riskHTN (expF : α → α) (agg : Agg α) (demographics : CleanDemo α) : RiskResult α :=
  let age : α := demographics.age.getD 40
  let smoker := demographics.smoker
  let bmi : α := (agg.metric .bmi).mean.getD 26
  let sbp : α := (agg.metric .systolic_bp).mean.getD 118
  let sbpTrendWk : α := (agg.metric .systolic_bp).trend_per_week.getD 0
  let rhr : α := (agg.metric .resting_hr).mean.getD 65
  let stress : α := (agg.metric .stress).mean.getD 3
  let activity : α := (agg.metric .activity_minutes).mean.getD 25
  let sbpNorm := (sbp - 115) / 15
  let sbpTrendNorm := sbpTrendWk / 5
  let bmiNorm := (bmi - 25) / 5
  let rhrNorm := (rhr - 60) / 15
  let stressNorm := (stress - 3) / 2
  let actNorm := (activity - 30) / 60
  let z : α :=
    -1.0 + 0.02 * (age - 40) +
    (if smoker then 0.2 else 0) +
    0.5 * sbpNorm +
    0.25 * sbpTrendNorm +
    0.2 * bmiNorm +
    0.12 * rhrNorm +
    0.12 * stressNorm +
    -0.1 * actNorm
  let p := clamp (sigmoid expF z) 0.01 0.99
  let contrib : List (String × α) :=
    [("age", 0.02 * (age - 40)),
     ("smoker", if smoker then 0.2 else 0),
     ("systolic_bp_mean", 0.5 * sbpNorm),
     ("systolic_bp_trend_wk", 0.25 * sbpTrendNorm),
     ("bmi", 0.2 * bmiNorm),
     ("resting_hr_mean", 0.12 * rhrNorm),
     ("stress_mean", 0.12 * stressNorm),
     ("activity_minutes_mean", -0.1 * actNorm)]
  { prob := round2 p, contrib := contrib }

/-! ## Confidence, explanations, decision -/

/-- Source: `ci90(prob, missingFrac)`, the pair `[lo, hi]`, in exact
arithmetic; `Double.ci90` is the same function in doubles. -/
def ci90 (prob missingFrac : α) : α × α :=
  let base : α := 0.12
  let width := clamp (base + 0.25 * missingFrac) 0.1 0.4
  (round2 (clamp (prob - width) 0 1), round2 (clamp (prob + width) 0 1))

/-- Source: `topContributors(contrib, topK)`.  `Array.prototype.sort` is a
stable sort; with the comparator `b.impact - a.impact` it orders by
descending impact. -/
def topContributors (contrib : List (String × α)) (topK : Int) : List (String × α) :=
  let items := contrib.map (fun e => (e.1, round3 |e.2|))
  let sorted := items.insertionSort (fun a b => b.2 ≤ a.2)
  jsSlice0 sorted topK

/-- One entry of the `risks` object: `{ prob, ci90 }`. -/
structure RiskEntry (α : Type) where
  prob : α
  ci90 : α × α

/-- The `risks` object. -/
structure Risks (α : Type) where
  t2d : RiskEntry α
  htn : RiskEntry α

/-- The result of `computeDecision`. -/
structure Decision where
  notify_client : Bool
  notify_doctor : Bool
  reason : String

/-- Source: the list `reasons` of `computeDecision`; `numStr` renders a
number inside a template literal. -/
def decisionReasons (numStr : α → String) (risks : Risks α) (anomaly : AnomalyResult α)
    (agg : Agg α) : List String :=
  (if anomaly.flag then ["Anomaly persisted for 2 days"] else []) ++
  (if 0.55 ≤ risks.t2d.prob then
    ["Elevated T2D risk (" ++ numStr risks.t2d.prob ++ ")"] else []) ++
  (if 0.55 ≤ risks.htn.prob then
    ["Elevated HTN risk (" ++ numStr risks.htn.prob ++ ")"] else []) ++
  (match (agg.metric .systolic_bp).mean with
    | some m =>
      if 130 ≤ m then
        ["Rising BP trend / high mean SBP (" ++ numStr (round1 m) ++ " mmHg)"] else []
    | none => []) ++
  (match (agg.metric .diastolic_bp).mean with
    | some m =>
      if 80 ≤ m then ["Elevated DBP (" ++ numStr (round1 m) ++ " mmHg)"] else []
    | none => [])

/-- Source: `computeDecision({ risks, anomaly, agg })`. -/
def computeDecision (numStr : α → String) (risks : Risks α) (anomaly : AnomalyResult α)
    (agg : Agg α) : Decision :=
  let notifyClient :=
    anomaly.flag ||
    decide (0.55 ≤ risks.t2d.prob) ||
    decide (0.55 ≤ risks.htn.prob) ||
    (match (agg.metric .systolic_bp).mean with
      | some m => decide (140 ≤ m)
      | none => false) ||
    (match (agg.metric .diastolic_bp).mean with
      | some m => decide (90 ≤ m)
      | none => false)
  let notifyDoctor :=
    decide (0.75 ≤ risks.t2d.prob) ||
    decide (0.75 ≤ risks.htn.prob) ||
    decide (0.5 ≤ agg.sbp_over_130_rate) ||
    decide (0.5 ≤ agg.dbp_over_80_rate)
  let reasons := decisionReasons numStr risks anomaly agg
  let joined := String.intercalate " + " (reasons.take 2)
  { notify_client := notifyClient
    notify_doctor := notifyDoctor
    reason := if joined = "" then "Stable" else joined }

/-! ## The `/predict` handler -/

/-- The `meta` object of the response. -/
structure Meta (α : Type) where
  window_start : Option String
  window_end : Option String
  days : Nat
  missing_frac : α

/-- The response object of `/predict`. -/
structure Response (α : Type) where
  meta : Meta α
  risk : Risks α
  anomaly : α × Bool
  top_contributors : List (String × α) × List (String × α)
  decision : Decision

/-- Source: the `/predict` handler on a request whose `features` is an array
of records: the `400` rejection of a short window, else the response. -/
def predict (strNum : String → Option α) (sqrtF expF tanhF : α → α) (numStr : α → String)
    (features : List (DailyRecord α)) (demographics : Demographics α)
    (window_start window_end : Option String) : Except (Nat × String) (Response α) :=
  if features.length < 14 then
    .error (400, "Need at least 14 days of features (30 preferred) in `features` array")
  else
    let f := engineerFeatures strNum sqrtF features demographics
    let anomaly := anomalyFromBaseline sqrtF tanhF f.arrays 7
    let t2d := riskT2D expF f.agg f.demographics
    let htn := riskHTN expF f.agg f.demographics
    let risks : Risks α :=
      { t2d := { prob := t2d.prob, ci90 := ci90 t2d.prob f.agg.global_missing_frac }
        htn := { prob := htn.prob, ci90 := ci90 htn.prob f.agg.global_missing_frac } }
    let decision := computeDecision numStr risks anomaly f.agg
    .ok
      { meta :=
          { window_start := window_start
            window_end := window_end
            days := f.N
            missing_frac := round2 f.agg.global_missing_frac }
        risk := risks
        anomaly := (anomaly.score, anomaly.flag)
        top_contributors := (topContributors t2d.contrib 5, topContributors htn.contrib 5)
        decision := decision }

/-! ## Scenario inputs -/

/-- Scenario A: one day of the stable window. -/
def scenarioADay : DailyRecord α :=
  { weight_kg := .num 70, systolic_bp := .num 120, diastolic_bp := .num 78,
    steps := .num 8000, sleep_hours := .num 7, diet_score := .num 3,
    activity_minutes := .num 30, stress := .num 3, resting_hr := .num 65 }

/-- Scenario A: the demographics, with only the height given. -/
def scenarioADemo : Demographics α :=
  { height_cm := .num 170 }

/-- Scenario B: a window of 14 days whose resting heart rate is 65 for twelve
days and 105 on the last two, every other metric missing. -/
def scenarioBArrays : Metric → List (Option α)
  | .resting_hr => List.replicate 12 (some 65) ++ [some 105, some 105]
  | _ => List.replicate 14 none

/-- Scenario C: a daily record that carries only `systolic_bp = 150`. -/
def scenarioCDay : DailyRecord α :=
  { systolic_bp := .num 150 }

/-- A window of eight days whose resting heart rate is 65 for seven days and
65.00000001 on the last, every other metric missing. -/
def scenarioDriftArrays : Metric → List (Option α)
  | .resting_hr => List.replicate 7 (some 65) ++ [some 65.00000001]
  | _ => List.replicate 8 none

/-- A window of 14 days whose resting heart rate is 65 for thirteen days and
105 on the last day only, every other metric missing. -/
def scenarioSpikeArrays : Metric → List (Option α)
  | .resting_hr => List.replicate 13 (some 65) ++ [some 105]
  | _ => List.replicate 14 none

/-- A window of 14 days carrying only `diastolic_bp`: 80 on the first seven
days and 60 on the last seven. -/
def scenarioDbpDays : List (DailyRecord α) :=
  List.replicate 7 { diastolic_bp := .num 80 } ++ List.replicate 7 { diastolic_bp := .num 60 }

/-! ## Number rendering -/

/-- The decimal rendering of `h / 100`, as JavaScript renders a number of
magnitude below `1e21`: a leading `-` for a negative number, the integer
digits, and the fractional digits without trailing zeros (none, and no
decimal point, for an integer). -/
def renderHundredths (h : ℤ) : String :=
  let a := h.natAbs
  let ip := toString (a / 100)
  let fp := a % 100
  let body :=
    if fp = 0 then ip
    else if fp % 10 = 0 then ip ++ "." ++ toString (fp / 10)
    else if fp < 10 then ip ++ ".0" ++ toString fp
    else ip ++ "." ++ toString fp
  if h < 0 then "-" ++ body else body

/-- Number-to-string conversion inside a template literal, for a number with
at most two decimals, as `round1` and `round2` return (magnitude below
`1e21`). -/
def jsNumStr (x : α) : String :=
  renderHundredths ⌊x * 100⌋

/-! ## Specification-side definitions -/

/-- Whether a mean is present and at least `t` (`isNum(m) && m >= t`). -/
def meanAtLeast (m : Option α) (t : α) : Bool :=
  match m with
  | some v => decide (t ≤ v)
  | none => false

/-- The five causes of the decision reason in their fixed priority order,
each with the test that makes it applicable and its text. -/
def causeTable (numStr : α → String) (risks : Risks α) (anomaly : AnomalyResult α)
    (agg : Agg α) : List (Bool × String) :=
  [(anomaly.flag, "Anomaly persisted for 2 days"),
   (decide (0.55 ≤ risks.t2d.prob), "Elevated T2D risk (" ++ numStr risks.t2d.prob ++ ")"),
   (decide (0.55 ≤ risks.htn.prob), "Elevated HTN risk (" ++ numStr risks.htn.prob ++ ")"),
   (meanAtLeast (agg.metric .systolic_bp).mean 130,
    "Rising BP trend / high mean SBP (" ++
      numStr (round1 ((agg.metric .systolic_bp).mean.getD 0)) ++ " mmHg)"),
   (meanAtLeast (agg.metric .diastolic_bp).mean 80,
    "Elevated DBP (" ++ numStr (round1 ((agg.metric .diastolic_bp).mean.getD 0)) ++ " mmHg)")]

/-- The reason as the specification words it: the applicable causes in
priority order, the first two joined by `" + "`, or `"Stable"` when none
applies. -/
def specReason (numStr : α → String) (risks : Risks α) (anomaly : AnomalyResult α)
    (agg : Agg α) : String :=
  let applicable := ((causeTable numStr risks anomaly agg).filter (fun c => c.1)).map
    (fun c => c.2)
  if applicable = [] then "Stable" else String.intercalate " + " (applicable.take 2)

/-- The bmi slot of a day as the specification words it: the record's own
`bmi` if it is a finite number; otherwise weight over squared height in
metres when the coerced weight and the coerced height are numbers and the
height is positive; otherwise `null`. -/
def bmiSlotSpec (strNum : String → Option α) (d : DailyRecord α)
    (demographics : Demographics α) : Option α :=
  match d.bmi with
  | .num b => some b
  | _ =>
    match toNumberOrNull strNum d.weight_kg, toNumberOrNull strNum demographics.height_cm with
    | some w, some h => if 0 < h then some (w / (h / 100) ^ 2) else none
    | _, _ => none

/-- The aggregate object `agg` with `bmi_mean` replaced by the number `b`. -/
def withBmiMean (agg : Agg α) (b : α) : Agg α :=
  { agg with
    metric := fun k =>
      if k = Metric.bmi then { agg.metric k with mean := some b } else agg.metric k }

/-- An aggregate object in which every mean and every trend is missing. -/
def allMissingAgg : Agg α :=
  { metric := fun _ =>
      { mean := none, std := 0, last := none, trend_per_day := 0, trend_per_week := none,
        missing_frac := 1 }
    sbp_over_130_rate := 0
    dbp_over_80_rate := 0
    global_missing_frac := 1 }

/-- The ordinary-least-squares slope of a list of `(index, value)` points as
the specification words it: `Σ(xᵢ−x̄)(yᵢ−ȳ) / Σ(xᵢ−x̄)²`. -/
def olsSlope (pts : List (Nat × α)) : α :=
  let n : α := (pts.length : α)
  let xbar := (pts.map (fun p => (p.1 : α))).sum / n
  let ybar := (pts.map (fun p => p.2)).sum / n
  (pts.map (fun p => ((p.1 : α) - xbar) * (p.2 - ybar))).sum /
    (pts.map (fun p => ((p.1 : α) - xbar) ^ 2)).sum

/-- The arithmetic mean of a list of numbers as the specification words it,
`null` for the empty list. -/
def arithMean (xs : List α) : Option α :=
  if xs = [] then none else some (xs.sum / (xs.length : α))

/-- The sample standard deviation (denominator `n − 1`) of a list of numbers as
the specification words it, `0` for fewer than two numbers; `sqrtF` is the
square root. -/
def sampleStd (sqrtF : α → α) (xs : List α) : α :=
  if xs.length < 2 then 0
  else sqrtF ((xs.map (fun x => (x - xs.sum / (xs.length : α)) ^ 2)).sum /
    ((xs.length : α) - 1))

/-! ## The `/predict` handler on a request body -/

/-- A value of the parsed request body, as `Number(v)` treats it: `val v` is a
value that `Number` converts, and `unconvertible` is a value on which
`Number(v)` throws a `TypeError`: an object that has an own property
`toString` (in a parsed JSON body that property is never callable), or an
array that contains such a value.  An unconvertible value is an object: it is
truthy, it is not a string, and `isNum` is false on it. -/
inductive RawVal (α : Type) where
  | val (v : JsVal α) : RawVal α
  | unconvertible : RawVal α

/-- Whether `Number(v)`, and so `toNumberOrNull(v)`, throws. -/
def RawVal.throws : RawVal α → Bool
  | .val _ => false
  | .unconvertible => true

/-- A raw value where no `Number(v)` is applied to an unconvertible one: as
the tests `isNum(v)` and `!!v` see it, an unconvertible value is an object. -/
def RawVal.asValue : RawVal α → JsVal α
  | .val v => v
  | .unconvertible => .obj "[object Object]"

/-- The fields of a daily record that the loop of `engineerFeatures` passes to
`toNumberOrNull`: all but `bmi`, which is converted only behind `isNum(d.bmi)`. -/
def numberFields : List Metric :=
  [.resting_hr, .systolic_bp, .diastolic_bp, .steps, .sleep_hours, .water_l,
   .diet_score, .activity_minutes, .weight_kg, .mood, .stress, .hrv]

/-- One pass of the loop `for (const d of days)` on a record given by its raw
fields: `none` when a `toNumberOrNull(d.field)` throws, else the record. -/
def readRecord (r : Metric → RawVal α) : Option (DailyRecord α) :=
  if numberFields.any (fun k => (r k).throws) then none
  else some
    { resting_hr := (r .resting_hr).asValue
      systolic_bp := (r .systolic_bp).asValue
      diastolic_bp := (r .diastolic_bp).asValue
      steps := (r .steps).asValue
      sleep_hours := (r .sleep_hours).asValue
      water_l := (r .water_l).asValue
      diet_score := (r .diet_score).asValue
      activity_minutes := (r .activity_minutes).asValue
      weight_kg := (r .weight_kg).asValue
      bmi := (r .bmi).asValue
      mood := (r .mood).asValue
      stress := (r .stress).asValue
      hrv := (r .hrv).asValue }

/-- The records of the `features` array as the loop `for (const d of days)`
reads them: an entry is `none` when it is `null` (`d.weight_kg` throws), and
its raw fields otherwise (an entry that is not an object has every field
absent).  The result is `none` when the loop throws. -/
def readEntries : List (Option (Metric → RawVal α)) → Option (List (DailyRecord α))
  | [] => some []
  | none :: _ => none
  | some r :: rest =>
    match readRecord r, readEntries rest with
    | some d, some ds => some (d :: ds)
    | _, _ => none

/-- The `demographics` object of a request body as received
(`body.demographics || {}`). -/
structure RawDemographics (α : Type) where
  age : RawVal α := .val .undefined
  sex : RawVal α := .val .undefined
  smoker : RawVal α := .val .undefined
  height_cm : RawVal α := .val .undefined

/-- Source: `(demographics.sex || "")` as the receiver of `toUpperCase()`:
a string, the empty string for a falsy value, and `none` for a truthy value
that is not a string, on which the call throws. -/
def readSex : RawVal α → Option (Option String)
  | .val (.str s) => some (some s)
  | .val v => if v.truthy then none else some none
  | .unconvertible => none

/-- The first four statements of `engineerFeatures` on the raw demographics:
`none` when `toNumberOrNull(demographics.age)`,
`toNumberOrNull(demographics.height_cm)` or the `toUpperCase()` call
throws. -/
def readDemographics (d : RawDemographics α) : Option (Demographics α) :=
  if d.age.throws || d.height_cm.throws then none
  else
    match readSex d.sex with
    | some sex =>
      some { age := d.age.asValue, sex := sex, smoker := d.smoker.asValue,
             height_cm := d.height_cm.asValue }
    | none => none

/-- The request body `req.body || {}`.  `features` is `none` when
`body.features` is not an array; `window_start` and `window_end` are absent
or strings. -/
structure RequestBody (α : Type) where
  features : Option (List (Option (Metric → RawVal α))) := none
  demographics : RawDemographics α := { }
  window_start : Option String := none
  window_end : Option String := none

/-- Source: the `/predict` handler on a request body: the `400` rejection
when `features` is not an array or has fewer than 14 entries, the `500`
result of the `catch` block when the computation throws, else the response. -/
def predictHandler (strNum : String → Option α) (sqrtF expF tanhF : α → α)
    (numStr : α → String) (body : RequestBody α) : Except (Nat × String) (Response α) :=
  let features := body.features.getD []
  if features.length < 14 then
    .error (400, "Need at least 14 days of features (30 preferred) in `features` array")
  else
    match readDemographics body.demographics, readEntries features with
    | some demographics, some days =>
      predict strNum sqrtF expF tanhF numStr days demographics
        body.window_start body.window_end
    | _, _ => .error (500, "Internal error")

/-! ## Double-precision arithmetic -/

/-- A JavaScript number as an IEEE 754 double: a finite number with its exact
value (every result of an operation is a representable value; the sign of
zero is not modelled), `Infinity` (`inf false`), `-Infinity` (`inf true`) or
`NaN`. -/
inductive Double where
  | fin (q : ℚ) : Double
  | inf (neg : Bool) : Double
  | nan : Double
  deriving DecidableEq

/-- The integer `⌊log₂ n⌋` for `n ≥ 1`, by repeated halving; `fuel` bounds the
number of halvings. -/
def Double.ilog2 : Nat → Nat → Nat
  | 0, _ => 0
  | fuel + 1, n => if n < 2 then 0 else Double.ilog2 fuel (n / 2) + 1

/-- The binary exponent of a non-zero rational: the integer `b` with
`2 ^ b ≤ |q| < 2 ^ (b + 1)`. -/
def Double.binExp (q : ℚ) : ℤ :=
  let e0 : ℤ := (Double.ilog2 q.num.natAbs q.num.natAbs : ℤ) - (Double.ilog2 q.den q.den : ℤ)
  if |q| < (2 : ℚ) ^ e0 then e0 - 1 else e0

/-- The integer nearest to `x`, a tie going to the even one. -/
def Double.roundEven (x : ℚ) : ℤ :=
  let f := ⌊x⌋
  if x - f < 1 / 2 then f
  else if 1 / 2 < x - f then f + 1
  else if f % 2 = 0 then f else f + 1

/-- Rounding of an exact result to binary64, round-to-nearest with ties to
even: 53 significant bits in the normal range (binary exponent at least
`-1022`), multiples of `2 ^ (-1074)` below it, and an infinity when the
rounded magnitude reaches `2 ^ 1024`. -/
def Double.ofRat (q : ℚ) : Double :=
  if q = 0 then .fin 0
  else
    let e := max (Double.binExp q) (-1022) - 52
    let v : ℚ := (Double.roundEven (q / (2 : ℚ) ^ e) : ℚ) * (2 : ℚ) ^ e
    if (2 : ℚ) ^ (1024 : ℤ) ≤ |v| then .inf (decide (q < 0)) else .fin v

/-- Source: unary `-`. -/
def Double.neg : Double → Double
  | .fin a => .fin (-a)
  | .inf s => .inf (!s)
  | .nan => .nan

/-- Source: `a + b` on numbers. -/
def Double.add : Double → Double → Double
  | .fin a, .fin b => Double.ofRat (a + b)
  | .fin _, .inf s => .inf s
  | .inf s, .fin _ => .inf s
  | .inf s, .inf t => if s = t then .inf s else .nan
  | _, _ => .nan

/-- Source: `a - b` on numbers. -/
def Double.sub (a b : Double) : Double :=
  Double.add a (Double.neg b)

/-- Source: `a * b` on numbers. -/
def Double.mul : Double → Double → Double
  | .fin a, .fin b => Double.ofRat (a * b)
  | .fin a, .inf s => if a = 0 then .nan else .inf (xor (decide (a < 0)) s)
  | .inf s, .fin b => if b = 0 then .nan else .inf (xor s (decide (b < 0)))
  | .inf s, .inf t => .inf (xor s t)
  | _, _ => .nan

/-- Source: `a / b` on numbers (a zero divisor counts as `+0`). -/
def Double.div : Double → Double → Double
  | .fin a, .fin b =>
    if b = 0 then (if a = 0 then .nan else .inf (decide (a < 0)))
    else Double.ofRat (a / b)
  | .fin _, .inf _ => .fin 0
  | .inf s, .fin b => .inf (xor s (decide (b < 0)))
  | _, _ => .nan

/-- Source: `Math.abs`. -/
def Double.abs : Double → Double
  | .fin a => .fin |a|
  | .inf _ => .inf false
  | .nan => .nan

/-- Source: `a < b` on numbers; a comparison with `NaN` is false. -/
def Double.lt : Double → Double → Bool
  | .fin a, .fin b => decide (a < b)
  | .fin _, .inf s => !s
  | .inf s, .fin _ => s
  | .inf s, .inf t => s && !t
  | _, _ => false

/-- Source: `Math.max(a, b)`; `NaN` when an argument is `NaN`. -/
def Double.max : Double → Double → Double
  | .nan, _ => .nan
  | _, .nan => .nan
  | a, b => if Double.lt a b then b else a

/-- Source: `Math.min(a, b)`; `NaN` when an argument is `NaN`. -/
def Double.min : Double → Double → Double
  | .nan, _ => .nan
  | _, .nan => .nan
  | a, b => if Double.lt b a then b else a

/-- Source: `clamp(x, lo, hi) = Math.min(hi, Math.max(lo, x))`, in doubles. -/
def Double.clamp (x lo hi : Double) : Double :=
  Double.min hi (Double.max lo x)

/-- Source: `Math.round`, in doubles: the nearest integer, a half going up;
the result is representable because a double of magnitude `2 ^ 52` or more is
an integer. -/
def Double.mathRound : Double → Double
  | .fin a => .fin (⌊a + 1 / 2⌋ : ℤ)
  | .inf s => .inf s
  | .nan => .nan

/-- Source: `round2(x) = Math.round(x * 100) / 100`, in doubles. -/
def Double.round2 (x : Double) : Double :=
  Double.div (Double.mathRound (Double.mul x (.fin 100))) (.fin 100)

/-- Source: `ci90(prob, missingFrac)`, in doubles; a decimal literal is the
double nearest to it. -/
def Double.ci90 (prob missingFrac : Double) : Double × Double :=
  let base := Double.ofRat (12 / 100)
  let width := Double.clamp (Double.add base (Double.mul (Double.ofRat (25 / 100)) missingFrac))
    (Double.ofRat (1 / 10)) (Double.ofRat (4 / 10))
  (Double.round2 (Double.clamp (Double.sub prob width) (.fin 0) (.fin 1)),
   Double.round2 (Double.clamp (Double.add prob width) (.fin 0) (.fin 1)))

/-- A series of numbers-or-null as `isNum` sees it: the finite numbers with
their values, every other entry (`null`, `NaN`, an infinity) as `none`. -/
def Double.finite (values : List (Option Double)) : List (Option ℚ) :=
  values.map (fun v => match v with
    | some (.fin q) => some q
    | _ => none)

/-- Source: the denominator `n * sxx - sx * sx` of `slopePerDay`, in doubles,
on the collected points. -/
def Double.slopeDenom (pts : List (Nat × ℚ)) : Double :=
  let n := pts.length
  let sx := pts.foldl (fun a p => Double.add a (.fin p.1)) (.fin 0)
  let sxx := pts.foldl (fun a p => Double.add a (Double.mul (.fin p.1) (.fin p.1))) (.fin 0)
  Double.sub (Double.mul (.fin n) sxx) (Double.mul sx sx)

/-- Source: `slopePerDay(values)`, in doubles: every sum, product and quotient
is rounded to binary64 as the program does it, in the program's order. -/
def Double.slopePerDay (values : List (Option Double)) : Double :=
  let pts := collectPts 0 (Double.finite values)
  let n := pts.length
  if n < 2 then .fin 0
  else
    let sx := pts.foldl (fun a p => Double.add a (.fin p.1)) (.fin 0)
    let sy := pts.foldl (fun a p => Double.add a (.fin p.2)) (.fin 0)
    let sxy := pts.foldl (fun a p => Double.add a (Double.mul (.fin p.1) (.fin p.2))) (.fin 0)
    let denom := Double.slopeDenom pts
    if Double.lt (Double.abs denom) (Double.ofRat (1 / 100000000)) then .fin 0
    else Double.div (Double.sub (Double.mul (.fin n) sxy) (Double.mul sx sy)) denom

/-- The valid `(index, value)` pairs of a series: the day index of every
entry that is a number, with its value. -/
def validPairs (values : List (Option α)) : List (Nat × α) :=
  values.enum.filterMap (fun p => p.2.map (fun v => (p.1, v)))

/-- The rational `q` is an integer multiple `k * 2 ^ s` of the power of two
`2 ^ s`, with `|k| ≤ M`.  With `M < 2 ^ 53` and `-1074 ≤ s ≤ 970` such a
number is a double. -/
def Double.IsScaled (s : ℤ) (M : ℕ) (q : ℚ) : Prop :=
  ∃ k : ℤ, q = (k : ℚ) * (2 : ℚ) ^ s ∧ |k| ≤ (M : ℤ)

/-! ## Auxiliary sums for the least-squares slope -/

/-- The quantity `n · Σ f g − Σ f · Σ g` over a list of points; numerator
(`f` the index, `g` the value) and denominator (`f = g` the index) of
`slopePerDay` have this shape. -/
def covSum {ι : Type} (f g : ι → α) (l : List ι) : α :=
  (l.length : α) * (l.map (fun p => f p * g p)).sum - (l.map f).sum * (l.map g).sum

/-! ## Rounding and clamping lemmas -/

theorem clamp_ge (x : α) {lo hi : α} (h : lo ≤ hi) : lo ≤ clamp x lo hi :=
  le_min h (le_max_left lo x)

theorem clamp_le (x lo hi : α) : clamp x lo hi ≤ hi :=
  min_le_left hi _

theorem clamp_mono {x y : α} (lo hi : α) (h : x ≤ y) : clamp x lo hi ≤ clamp y lo hi :=
  min_le_min le_rfl (max_le_max le_rfl h)

theorem clamp_of_mem {x lo hi : α} (h1 : lo ≤ x) (h2 : x ≤ hi) : clamp x lo hi = x := by
  unfold clamp
  rw [max_eq_right h1, min_eq_right h2]

theorem mathRound_mono {x y : α} (h : x ≤ y) : mathRound x ≤ mathRound y := by
  unfold mathRound
  exact_mod_cast Int.floor_mono (by linarith)

theorem mathRound_intCast (k : ℤ) : mathRound (k : α) = (k : α) := by
  unfold mathRound
  have : ⌊(k : α) + 1 / 2⌋ = k := by
    rw [Int.floor_eq_iff]
    constructor <;> linarith
  rw [this]

theorem mathRound_le (x : α) : mathRound x ≤ x + 1 / 2 := by
  unfold mathRound
  exact Int.floor_le _

theorem mathRound_gt (x : α) : x - 1 / 2 < mathRound x := by
  unfold mathRound
  have := Int.lt_floor_add_one (x + 1 / 2)
  linarith

theorem mathRound_add_one (x : α) : mathRound (x + 1) = mathRound x + 1 := by
  unfold mathRound
  have : x + 1 + 1 / 2 = x + 1 / 2 + ((1 : ℤ) : α) := by push_cast; ring
  rw [this, Int.floor_add_int]
  push_cast
  ring

theorem round2_mono {x y : α} (h : x ≤ y) : round2 x ≤ round2 y := by
  unfold round2
  have := mathRound_mono (show x * 100 ≤ y * 100 by linarith)
  exact div_le_div_of_nonneg_right this (by norm_num)

theorem round2_hundredth (k : ℤ) : round2 ((k : α) / 100) = (k : α) / 100 := by
  unfold round2
  rw [div_mul_cancel₀ _ (by norm_num : (100 : α) ≠ 0), mathRound_intCast]

theorem round2_le (x : α) : round2 x ≤ x + 0.005 := by
  unfold round2
  have := mathRound_le (x * 100)
  rw [div_le_iff₀ (by norm_num : (0 : α) < 100)]
  norm_num at this ⊢
  linarith

theorem round2_gt (x : α) : x - 0.005 < round2 x := by
  unfold round2
  have := mathRound_gt (x * 100)
  rw [lt_div_iff₀ (by norm_num : (0 : α) < 100)]
  norm_num at this ⊢
  linarith

/-- Rounding to two decimals keeps a value between two hundredths. -/
theorem round2_mem {x : α} (a b : ℤ) (h1 : (a : α) / 100 ≤ x) (h2 : x ≤ (b : α) / 100) :
    (a : α) / 100 ≤ round2 x ∧ round2 x ≤ (b : α) / 100 := by
  constructor
  · rw [← round2_hundredth a]
    exact round2_mono h1
  · rw [← round2_hundredth b]
    exact round2_mono h2

theorem round2_clamp_prob (x : α) :
    0.01 ≤ round2 (clamp x 0.01 0.99) ∧ round2 (clamp x 0.01 0.99) ≤ 0.99 := by
  have h1 : (0.01 : α) ≤ clamp x 0.01 0.99 := clamp_ge x (by norm_num)
  have h2 : clamp x 0.01 0.99 ≤ (0.99 : α) := clamp_le x _ _
  have := round2_mem 1 99 (by norm_num at h1 ⊢; linarith) (by norm_num at h2 ⊢; linarith)
    (x := clamp x (0.01 : α) 0.99)
  constructor
  · have h := this.1
    norm_num at h ⊢
    linarith
  · have h := this.2
    norm_num at h ⊢
    linarith

/-! ## Risk models: range of the probability -/

/-- C1: for every aggregate object and every cleaned demographics object
(each entry a finite number or missing), and whatever `Math.exp` returns, the
`prob` of `riskT2D` and the `prob` of `riskHTN` lie in `[0.01, 0.99]`, the
rounding to two decimals included. -/
theorem riskProb_bounds (expF : α → α) (agg : Agg α) (demographics : CleanDemo α) :
    (0.01 ≤ (riskT2D expF agg demographics).prob ∧
      (riskT2D expF agg demographics).prob ≤ 0.99) ∧
    (0.01 ≤ (riskHTN expF agg demographics).prob ∧
      (riskHTN expF agg demographics).prob ≤ 0.99) :=
  ⟨round2_clamp_prob _, round2_clamp_prob _⟩

/-! ## Confidence estimator -/

theorem round2_zero : round2 (0 : α) = 0 := by
  have h : round2 (((0 : ℤ) : α) / 100) = ((0 : ℤ) : α) / 100 := round2_hundredth 0
  simpa using h

theorem round2_one : round2 (1 : α) = 1 := by
  have h : round2 (((100 : ℤ) : α) / 100) = ((100 : ℤ) : α) / 100 := round2_hundredth 100
  simpa using h

theorem round2_add_hundredth (x : α) : round2 (x + 0.01) = round2 x + 0.01 := by
  unfold round2
  have : (x + 0.01) * 100 = x * 100 + 1 := by norm_num; ring
  rw [this, mathRound_add_one]
  norm_num
  ring

/-- The width used by `ci90`. -/
theorem ci90_width_mem (m : α) :
    0.1 ≤ clamp (0.12 + 0.25 * m) 0.1 0.4 ∧ clamp (0.12 + 0.25 * m) 0.1 0.4 ≤ (0.4 : α) :=
  ⟨clamp_ge _ (by norm_num), clamp_le _ _ _⟩

theorem ci90_lo_le (prob m : α) (h0 : 0 ≤ prob) : (ci90 prob m).1 ≤ prob := by
  obtain ⟨hw, -⟩ := ci90_width_mem m
  show round2 (clamp (prob - clamp (0.12 + 0.25 * m) 0.1 0.4) 0 1) ≤ prob
  set w := clamp (0.12 + 0.25 * m) 0.1 0.4
  have hc : clamp (prob - w) 0 1 ≤ max 0 (prob - 0.1) := by
    unfold clamp
    exact le_trans (min_le_right _ _) (max_le_max le_rfl (by linarith))
  refine le_trans (round2_mono hc) ?_
  rcases le_total (prob - 0.1) 0 with h | h
  · rw [max_eq_left h, round2_zero]
    exact h0
  · rw [max_eq_right h]
    have := round2_le (prob - 0.1)
    norm_num at this ⊢
    linarith

theorem ci90_le_hi (prob m : α) (h1 : prob ≤ 1) : prob ≤ (ci90 prob m).2 := by
  obtain ⟨hw, -⟩ := ci90_width_mem m
  show prob ≤ round2 (clamp (prob + clamp (0.12 + 0.25 * m) 0.1 0.4) 0 1)
  set w := clamp (0.12 + 0.25 * m) 0.1 0.4
  have hc : min 1 (prob + 0.1) ≤ clamp (prob + w) 0 1 := by
    unfold clamp
    exact min_le_min le_rfl (le_trans (by linarith) (le_max_right _ _))
  refine le_trans ?_ (round2_mono hc)
  rcases le_total 1 (prob + 0.1) with h | h
  · rw [min_eq_left h, round2_one]
    exact h1
  · rw [min_eq_right h]
    have := round2_gt (prob + 0.1)
    norm_num at this ⊢
    linarith

theorem ci90_bounds_unit (prob m : α) :
    (0 ≤ (ci90 prob m).1 ∧ (ci90 prob m).1 ≤ 1) ∧
    (0 ≤ (ci90 prob m).2 ∧ (ci90 prob m).2 ≤ 1) := by
  have key : ∀ x : α, 0 ≤ round2 (clamp x 0 1) ∧ round2 (clamp x 0 1) ≤ 1 := by
    intro x
    have h1 : (0 : α) ≤ clamp x 0 1 := clamp_ge x (by norm_num)
    have h2 : clamp x 0 1 ≤ (1 : α) := clamp_le x _ _
    have := round2_mem 0 100 (by simpa using h1) (by simpa using h2) (x := clamp x (0 : α) 1)
    simpa using this
  exact ⟨key _, key _⟩

theorem ci90_mono (prob : α) {m1 m2 : α} (h : m1 ≤ m2) :
    (ci90 prob m2).1 ≤ (ci90 prob m1).1 ∧ (ci90 prob m1).2 ≤ (ci90 prob m2).2 := by
  have hw : clamp (0.12 + 0.25 * m1) 0.1 0.4 ≤ clamp (0.12 + 0.25 * m2) (0.1 : α) 0.4 :=
    clamp_mono _ _ (by nlinarith)
  constructor
  · exact round2_mono (clamp_mono _ _ (by linarith))
  · exact round2_mono (clamp_mono _ _ (by linarith))

/-- C3: for every `prob` in `[0, 1]` and every `missingFrac`, the pair
`[lo, hi]` of `ci90` satisfies `lo ≤ prob ≤ hi`, hence `lo ≤ hi`, and both
bounds lie in `[0, 1]`. -/
theorem ci90_contains_prob (prob missingFrac : α) (h0 : 0 ≤ prob) (h1 : prob ≤ 1) :
    (ci90 prob missingFrac).1 ≤ prob ∧ prob ≤ (ci90 prob missingFrac).2 ∧
    (ci90 prob missingFrac).1 ≤ (ci90 prob missingFrac).2 ∧
    (0 ≤ (ci90 prob missingFrac).1 ∧ (ci90 prob missingFrac).1 ≤ 1) ∧
    (0 ≤ (ci90 prob missingFrac).2 ∧ (ci90 prob missingFrac).2 ≤ 1) :=
  ⟨ci90_lo_le prob missingFrac h0, ci90_le_hi prob missingFrac h1,
    le_trans (ci90_lo_le prob missingFrac h0) (ci90_le_hi prob missingFrac h1),
    (ci90_bounds_unit prob missingFrac).1, (ci90_bounds_unit prob missingFrac).2⟩

/-- Witness of C3 at `prob = 0.5`, `missingFrac = 0.2`. -/
theorem ci90_contains_prob_witness :
    (0 : ℚ) ≤ 0.5 ∧ (0.5 : ℚ) ≤ 1 ∧
    ((ci90 (0.5 : ℚ) 0.2).1 ≤ 0.5 ∧ 0.5 ≤ (ci90 (0.5 : ℚ) 0.2).2 ∧
    (ci90 (0.5 : ℚ) 0.2).1 ≤ (ci90 (0.5 : ℚ) 0.2).2 ∧
    (0 ≤ (ci90 (0.5 : ℚ) 0.2).1 ∧ (ci90 (0.5 : ℚ) 0.2).1 ≤ 1) ∧
    (0 ≤ (ci90 (0.5 : ℚ) 0.2).2 ∧ (ci90 (0.5 : ℚ) 0.2).2 ≤ 1)) :=
  ⟨by norm_num, by norm_num, ci90_contains_prob 0.5 0.2 (by norm_num) (by norm_num)⟩

/-- C4: with `prob` fixed, `ci90` never narrows as missingness grows: for
`m1 ≤ m2` the lower bound at `m2` is at most the lower bound at `m1`, and the
upper bound at `m2` is at least the upper bound at `m1`. -/
theorem ci90_never_narrows (prob m1 m2 : α) (h : m1 ≤ m2) :
    (ci90 prob m2).1 ≤ (ci90 prob m1).1 ∧ (ci90 prob m1).2 ≤ (ci90 prob m2).2 :=
  ci90_mono prob h

/-- Witness of C4 at `prob = 0.5`, `m1 = 0`, `m2 = 1`. -/
theorem ci90_never_narrows_witness :
    (0 : ℚ) ≤ 1 ∧
    ((ci90 (0.5 : ℚ) 1).1 ≤ (ci90 (0.5 : ℚ) 0).1 ∧
      (ci90 (0.5 : ℚ) 0).2 ≤ (ci90 (0.5 : ℚ) 1).2) :=
  ⟨by norm_num, ci90_never_narrows 0.5 0 1 (by norm_num)⟩

/-- In exact arithmetic, at `prob = 0.5` the missing fractions
`0 < 0.01` give the same rounded interval `[0.38, 0.62]`, so the width does
not grow strictly. -/
theorem ci90_strict_widening_fails :
    (0 : ℚ) ≤ 0.5 ∧ (0.5 : ℚ) ≤ 1 ∧ (0 : ℚ) ≤ 0 ∧ (0 : ℚ) < 0.01 ∧ (0.01 : ℚ) ≤ 1 ∧
    ci90 (0.5 : ℚ) 0 = (0.38, 0.62) ∧ ci90 (0.5 : ℚ) 0.01 = (0.38, 0.62) ∧
    ¬ ((ci90 (0.5 : ℚ) 0).2 - (ci90 (0.5 : ℚ) 0).1 <
        (ci90 (0.5 : ℚ) 0.01).2 - (ci90 (0.5 : ℚ) 0.01).1) := by
  have e1 : ci90 (0.5 : ℚ) 0 = (0.38, 0.62) := by
    norm_num [ci90, clamp, round2, mathRound]
  have e2 : ci90 (0.5 : ℚ) 0.01 = (0.38, 0.62) := by
    norm_num [ci90, clamp, round2, mathRound]
  refine ⟨by norm_num, by norm_num, le_rfl, by norm_num, by norm_num, e1, e2, ?_⟩
  rw [e1, e2]
  exact lt_irrefl _

theorem ci90_fst_eq (prob m : α) :
    (ci90 prob m).1 = round2 (clamp (prob - clamp (3 / 25 + 1 / 4 * m) (1 / 10) (2 / 5)) 0 1) := by
  have k1 : (0.12 : α) = 3 / 25 := by norm_num
  have k2 : (0.25 : α) = 1 / 4 := by norm_num
  have k3 : (0.1 : α) = 1 / 10 := by norm_num
  have k4 : (0.4 : α) = 2 / 5 := by norm_num
  simp only [ci90, k1, k2, k3, k4]

theorem ci90_snd_eq (prob m : α) :
    (ci90 prob m).2 = round2 (clamp (prob + clamp (3 / 25 + 1 / 4 * m) (1 / 10) (2 / 5)) 0 1) := by
  have k1 : (0.12 : α) = 3 / 25 := by norm_num
  have k2 : (0.25 : α) = 1 / 4 := by norm_num
  have k3 : (0.1 : α) = 1 / 10 := by norm_num
  have k4 : (0.4 : α) = 2 / 5 := by norm_num
  simp only [ci90, k1, k2, k3, k4]

theorem round2_step {x y : α} (h : x + 1 / 100 ≤ y) : round2 x + 1 / 100 ≤ round2 y := by
  have e := round2_add_hundredth x
  have k : (0.01 : α) = 1 / 100 := by norm_num
  rw [k] at e
  rw [← e]
  exact round2_mono h

theorem ci90_strict_of_gap (prob m1 m2 : α) (h0 : 0 ≤ prob) (h1 : prob ≤ 1)
    (hm1 : 0 ≤ m1) (hm2 : m2 ≤ 1) (hgap : 1 / 25 ≤ m2 - m1) :
    (ci90 prob m1).2 - (ci90 prob m1).1 < (ci90 prob m2).2 - (ci90 prob m2).1 := by
  obtain ⟨hlo, hhi⟩ := ci90_mono prob (show m1 ≤ m2 by linarith)
  have w1 : clamp (3 / 25 + 1 / 4 * m1) (1 / 10) (2 / 5) = 3 / 25 + 1 / 4 * m1 :=
    clamp_of_mem (by linarith) (by linarith)
  have w2 : clamp (3 / 25 + 1 / 4 * m2) (1 / 10) (2 / 5) = 3 / 25 + 1 / 4 * m2 :=
    clamp_of_mem (by linarith) (by linarith)
  rcases le_total prob (1 / 2) with hp | hp
  · -- the upper bound is not clamped
    have a1 : (ci90 prob m1).2 = round2 (prob + (3 / 25 + 1 / 4 * m1)) := by
      rw [ci90_snd_eq, w1, clamp_of_mem (by linarith) (by linarith)]
    have a2 : (ci90 prob m2).2 = round2 (prob + (3 / 25 + 1 / 4 * m2)) := by
      rw [ci90_snd_eq, w2, clamp_of_mem (by linarith) (by linarith)]
    have step : round2 (prob + (3 / 25 + 1 / 4 * m1)) + 1 / 100
        ≤ round2 (prob + (3 / 25 + 1 / 4 * m2)) := round2_step (by linarith)
    rw [a1, a2]
    linarith
  · -- the lower bound is not clamped
    have a1 : (ci90 prob m1).1 = round2 (prob - (3 / 25 + 1 / 4 * m1)) := by
      rw [ci90_fst_eq, w1, clamp_of_mem (by linarith) (by linarith)]
    have a2 : (ci90 prob m2).1 = round2 (prob - (3 / 25 + 1 / 4 * m2)) := by
      rw [ci90_fst_eq, w2, clamp_of_mem (by linarith) (by linarith)]
    have step : round2 (prob - (3 / 25 + 1 / 4 * m2)) + 1 / 100
        ≤ round2 (prob - (3 / 25 + 1 / 4 * m1)) := round2_step (by linarith)
    rw [a1, a2]
    linarith

/-- In exact arithmetic, for `prob` in `[0, 1]` and `0 ≤ m1 < m2 ≤ 1` the width
`hi − lo` of `ci90(prob, m2)` is at least the width of `ci90(prob, m1)`, and
it is strictly greater whenever `m2 − m1 ≥ 0.04`. -/
theorem ci90_widening (prob m1 m2 : α) (h0 : 0 ≤ prob) (h1 : prob ≤ 1)
    (hm1 : 0 ≤ m1) (hlt : m1 < m2) (hm2 : m2 ≤ 1) :
    (ci90 prob m1).2 - (ci90 prob m1).1 ≤ (ci90 prob m2).2 - (ci90 prob m2).1 ∧
    (0.04 ≤ m2 - m1 →
      (ci90 prob m1).2 - (ci90 prob m1).1 < (ci90 prob m2).2 - (ci90 prob m2).1) := by
  obtain ⟨hlo, hhi⟩ := ci90_mono prob hlt.le
  refine ⟨by linarith, fun hgap => ?_⟩
  have k : (0.04 : α) = 1 / 25 := by norm_num
  rw [k] at hgap
  exact ci90_strict_of_gap prob m1 m2 h0 h1 hm1 hm2 hgap

/-- Example of `ci90_widening` at `prob = 0.5`, `m1 = 0`, `m2 = 0.5`. -/
theorem ci90_widening_witness :
    (0 : ℚ) ≤ 0.5 ∧ (0.5 : ℚ) ≤ 1 ∧ (0 : ℚ) ≤ 0 ∧ (0 : ℚ) < 0.5 ∧
    ((ci90 (0.5 : ℚ) 0).2 - (ci90 (0.5 : ℚ) 0).1 ≤
        (ci90 (0.5 : ℚ) 0.5).2 - (ci90 (0.5 : ℚ) 0.5).1 ∧
      ((0.04 : ℚ) ≤ 0.5 - 0 →
        (ci90 (0.5 : ℚ) 0).2 - (ci90 (0.5 : ℚ) 0).1 <
          (ci90 (0.5 : ℚ) 0.5).2 - (ci90 (0.5 : ℚ) 0.5).1)) :=
  ⟨by norm_num, by norm_num, le_rfl, by norm_num,
    ci90_widening 0.5 0 0.5 (by norm_num) (by norm_num) le_rfl (by norm_num) (by norm_num)⟩

/-! ## Missing fraction -/

theorem countValid_nil : countValid ([] : List (Option α)) = 0 := rfl

theorem countValid_cons_none (l : List (Option α)) :
    countValid (none :: l) = countValid l := by
  simp [countValid, filterNum]

theorem countValid_cons_some (x : α) (l : List (Option α)) :
    countValid (some x :: l) = countValid l + 1 := by
  simp [countValid, filterNum]

theorem countValid_le_length (l : List (Option α)) : countValid l ≤ l.length := by
  induction l with
  | nil => simp [countValid_nil]
  | cons x l ih =>
    cases x with
    | none => rw [countValid_cons_none]; simp; omega
    | some v => rw [countValid_cons_some]; simp; omega

/-- Replacing entries of a series by `null` cannot raise the number of valid
entries. -/
theorem countValid_nulled {a b : List (Option α)}
    (h : List.Forall₂ (fun x y => y = none ∨ y = x) a b) : countValid b ≤ countValid a := by
  induction h with
  | nil => exact le_rfl
  | @cons x y l1 l2 hxy _ ih =>
    rcases hxy with rfl | rfl
    · rw [countValid_cons_none]
      cases x with
      | none => rw [countValid_cons_none]; exact ih
      | some v => rw [countValid_cons_some]; omega
    · cases y with
      | none => rw [countValid_cons_none, countValid_cons_none]; exact ih
      | some v => rw [countValid_cons_some, countValid_cons_some]; omega

/-- C6: for a window length `N > 0` and a series `a` of length `N`, if `b` is
`a` with any set of entries replaced by `null`, then
`pctMissing(b, N) ≥ pctMissing(a, N)`; `pctMissing(a, N)` equals
`1 − validCount/N` and lies in `[0, 1]`; and `pctMissing` is `1` when the
window length is `0`. -/
theorem pctMissing_props (a b : List (Option α)) (N : Nat) (hN : 0 < N)
    (hlen : a.length = N)
    (hnull : List.Forall₂ (fun x y => y = none ∨ y = x) a b) :
    pctMissing a N ≤ pctMissing b N ∧
    pctMissing a N = 1 - (countValid a : α) / (N : α) ∧
    (0 ≤ pctMissing a N ∧ pctMissing a N ≤ 1) ∧
    (∀ c : List (Option α), pctMissing c 0 = 1) := by
  have hNpos : (0 : α) < (N : α) := by exact_mod_cast hN
  have hN0 : N ≠ 0 := by omega
  have ha : pctMissing a N = 1 - (countValid a : α) / (N : α) := by
    simp [pctMissing, hN0]
  have hb : pctMissing b N = 1 - (countValid b : α) / (N : α) := by
    simp [pctMissing, hN0]
  have hcnt : (countValid b : α) ≤ (countValid a : α) := by
    exact_mod_cast countValid_nulled hnull
  have hle : (countValid a : α) ≤ (N : α) := by
    have := countValid_le_length a
    rw [hlen] at this
    exact_mod_cast this
  refine ⟨?_, ha, ⟨?_, ?_⟩, ?_⟩
  · rw [ha, hb]
    have := div_le_div_of_nonneg_right hcnt hNpos.le
    linarith
  · rw [ha]
    have : (countValid a : α) / (N : α) ≤ 1 := (div_le_one hNpos).2 hle
    linarith
  · rw [ha]
    have : (0 : α) ≤ (countValid a : α) / (N : α) :=
      div_nonneg (Nat.cast_nonneg _) hNpos.le
    linarith
  · intro c
    simp [pctMissing]

/-- Witness of C6: the series `[70, 71]` and `[70, null]` in a window of two
days. -/
theorem pctMissing_props_witness :
    pctMissing [some (70 : ℚ), some 71] 2 ≤ pctMissing [some (70 : ℚ), none] 2 ∧
    pctMissing [some (70 : ℚ), some 71] 2 =
      1 - (countValid [some (70 : ℚ), some 71] : ℚ) / ((2 : ℕ) : ℚ) ∧
    (0 ≤ pctMissing [some (70 : ℚ), some 71] 2 ∧ pctMissing [some (70 : ℚ), some 71] 2 ≤ 1) ∧
    (∀ c : List (Option ℚ), pctMissing c 0 = 1) :=
  pctMissing_props [some (70 : ℚ), some 71] [some (70 : ℚ), none] 2 (by decide) rfl
    (List.Forall₂.cons (Or.inr rfl) (List.Forall₂.cons (Or.inl rfl) List.Forall₂.nil))

/-! ## Least-squares slope -/

theorem foldl_add_eq_sum {ι : Type} (f : ι → α) (l : List ι) (init : α) :
    l.foldl (fun a p => a + f p) init = init + (l.map f).sum := by
  induction l generalizing init with
  | nil => simp
  | cons p l ih =>
    simp only [List.foldl_cons, List.map_cons, List.sum_cons]
    rw [ih]
    ring

theorem crossSum_eq {ι : Type} (f g : ι → α) (p : ι) (l : List ι) :
    (l.map (fun q => (f q - f p) * (g q - g p))).sum =
      (l.map (fun q => f q * g q)).sum - f p * (l.map g).sum - g p * (l.map f).sum
        + (l.length : α) * (f p * g p) := by
  induction l with
  | nil => simp
  | cons q l ih =>
    simp only [List.map_cons, List.sum_cons, List.length_cons, Nat.cast_add, Nat.cast_one]
    rw [ih]
    ring

theorem covSum_cons {ι : Type} (f g : ι → α) (p : ι) (l : List ι) :
    covSum f g (p :: l) = covSum f g l + (l.map (fun q => (f q - f p) * (g q - g p))).sum := by
  rw [crossSum_eq]
  simp only [covSum, List.map_cons, List.sum_cons, List.length_cons, Nat.cast_add, Nat.cast_one]
  ring

theorem sum_map_nonneg_of_mem {ι : Type} (h : ι → α) (l : List ι) (hh : ∀ q ∈ l, 0 ≤ h q) :
    0 ≤ (l.map h).sum := by
  apply List.sum_nonneg
  intro x hx
  obtain ⟨q, hq, rfl⟩ := List.mem_map.1 hx
  exact hh q hq

theorem sum_map_ge_of_ne_nil {ι : Type} (h : ι → α) (c : α) (hc : 0 ≤ c) (l : List ι)
    (hh : ∀ q ∈ l, c ≤ h q) (hne : l ≠ []) : c ≤ (l.map h).sum := by
  cases l with
  | nil => exact absurd rfl hne
  | cons q l =>
    simp only [List.map_cons, List.sum_cons]
    have h1 := hh q (List.mem_cons_self _ _)
    have h2 := sum_map_nonneg_of_mem h l (fun r hr => le_trans hc (hh r (List.mem_cons_of_mem _ hr)))
    linarith

theorem covSum_nonneg {ι : Type} (f g : ι → α) (l : List ι)
    (hp : l.Pairwise (fun p q => f p ≤ f q ∧ g p ≤ g q)) : 0 ≤ covSum f g l := by
  induction l with
  | nil => simp [covSum]
  | cons p l ih =>
    rw [covSum_cons]
    have hp' := List.pairwise_cons.1 hp
    have := ih hp'.2
    have := sum_map_nonneg_of_mem (fun q => (f q - f p) * (g q - g p)) l (fun q hq =>
      mul_nonneg (sub_nonneg.2 (hp'.1 q hq).1) (sub_nonneg.2 (hp'.1 q hq).2))
    linarith

theorem covSum_pos {ι : Type} (f g : ι → α) (l : List ι)
    (hp : l.Pairwise (fun p q => f p < f q ∧ g p < g q)) (hlen : 2 ≤ l.length) :
    0 < covSum f g l := by
  cases l with
  | nil => simp at hlen
  | cons p l =>
    rw [covSum_cons]
    have hp' := List.pairwise_cons.1 hp
    have h0 := covSum_nonneg f g l (hp'.2.imp (fun h => ⟨h.1.le, h.2.le⟩))
    cases l with
    | nil => simp at hlen
    | cons q l =>
      simp only [List.map_cons, List.sum_cons]
      have h1 : 0 < (f q - f p) * (g q - g p) :=
        mul_pos (sub_pos.2 (hp'.1 q (List.mem_cons_self _ _)).1)
          (sub_pos.2 (hp'.1 q (List.mem_cons_self _ _)).2)
      have h2 := sum_map_nonneg_of_mem (fun r => (f r - f p) * (g r - g p)) l (fun r hr =>
        mul_nonneg (sub_nonneg.2 (hp'.1 r (List.mem_cons_of_mem _ hr)).1.le)
          (sub_nonneg.2 (hp'.1 r (List.mem_cons_of_mem _ hr)).2.le))
      linarith

theorem covSum_self_ge_one {ι : Type} (f : ι → α) (l : List ι)
    (hp : l.Pairwise (fun p q => f p + 1 ≤ f q)) (hlen : 2 ≤ l.length) :
    1 ≤ covSum f f l := by
  cases l with
  | nil => simp at hlen
  | cons p l =>
    rw [covSum_cons]
    have hp' := List.pairwise_cons.1 hp
    have h0 := covSum_nonneg f f l (hp'.2.imp (fun h => ⟨by linarith, by linarith⟩))
    cases l with
    | nil => simp at hlen
    | cons q l =>
      simp only [List.map_cons, List.sum_cons]
      have hq := hp'.1 q (List.mem_cons_self _ _)
      have h1 : 1 ≤ (f q - f p) * (f q - f p) := by nlinarith
      have h2 := sum_map_nonneg_of_mem (fun r => (f r - f p) * (f r - f p)) l (fun r hr =>
        mul_self_nonneg _)
      linarith

theorem sum_map_mul_of_const {ι : Type} (f g : ι → α) (c : α) (l : List ι)
    (hc : ∀ q ∈ l, g q = c) : (l.map (fun p => f p * g p)).sum = c * (l.map f).sum := by
  induction l with
  | nil => simp
  | cons p l ih =>
    simp only [List.map_cons, List.sum_cons]
    rw [ih (fun q hq => hc q (List.mem_cons_of_mem _ hq)), hc p (List.mem_cons_self _ _)]
    ring

theorem sum_map_of_const {ι : Type} (g : ι → α) (c : α) (l : List ι)
    (hc : ∀ q ∈ l, g q = c) : (l.map g).sum = (l.length : α) * c := by
  induction l with
  | nil => simp
  | cons p l ih =>
    simp only [List.map_cons, List.sum_cons, List.length_cons, Nat.cast_add, Nat.cast_one]
    rw [ih (fun q hq => hc q (List.mem_cons_of_mem _ hq)), hc p (List.mem_cons_self _ _)]
    ring

theorem covSum_const {ι : Type} (f g : ι → α) (c : α) (l : List ι)
    (hc : ∀ q ∈ l, g q = c) : covSum f g l = 0 := by
  unfold covSum
  rw [sum_map_mul_of_const f g c l hc, sum_map_of_const g c l hc]
  ring

theorem collectPts_map_snd (k : Nat) (l : List (Option α)) :
    (collectPts k l).map Prod.snd = filterNum l := by
  induction l generalizing k with
  | nil => rfl
  | cons x l ih =>
    cases x with
    | none => simpa [collectPts, filterNum] using ih (k + 1)
    | some v => simpa [collectPts, filterNum] using ih (k + 1)

theorem collectPts_length (k : Nat) (l : List (Option α)) :
    (collectPts k l).length = countValid l := by
  rw [countValid, ← collectPts_map_snd k l, List.length_map]

theorem collectPts_mem {k : Nat} {l : List (Option α)} {p : Nat × α}
    (h : p ∈ collectPts k l) : k ≤ p.1 ∧ l[p.1 - k]? = some (some p.2) := by
  induction l generalizing k with
  | nil => simp [collectPts] at h
  | cons x l ih =>
    cases x with
    | none =>
      simp only [collectPts] at h
      obtain ⟨h1, h2⟩ := ih h
      refine ⟨by omega, ?_⟩
      have : p.1 - k = (p.1 - (k + 1)) + 1 := by omega
      rw [this, List.getElem?_cons_succ]
      exact h2
    | some v =>
      simp only [collectPts, List.mem_cons] at h
      rcases h with rfl | h
      · simp
      · obtain ⟨h1, h2⟩ := ih h
        refine ⟨by omega, ?_⟩
        have : p.1 - k = (p.1 - (k + 1)) + 1 := by omega
        rw [this, List.getElem?_cons_succ]
        exact h2

theorem collectPts_pairwise (k : Nat) (l : List (Option α)) :
    (collectPts k l).Pairwise (fun p q => p.1 < q.1) := by
  induction l generalizing k with
  | nil => simp [collectPts]
  | cons x l ih =>
    cases x with
    | none => simpa [collectPts] using ih (k + 1)
    | some v =>
      simp only [collectPts, List.pairwise_cons]
      refine ⟨fun q hq => ?_, ih (k + 1)⟩
      have := (collectPts_mem hq).1
      show k < q.1
      omega

/-- The slope in terms of the covariance sums. -/
theorem slopePerDay_eq (values : List (Option α)) :
    slopePerDay values =
      if (collectPts 0 values).length < 2 then 0
      else if |covSum (fun p : Nat × α => (p.1 : α)) (fun p => (p.1 : α)) (collectPts 0 values)|
          < 1e-8 then 0
      else covSum (fun p : Nat × α => (p.1 : α)) Prod.snd (collectPts 0 values) /
        covSum (fun p : Nat × α => (p.1 : α)) (fun p => (p.1 : α)) (collectPts 0 values) := by
  simp only [slopePerDay, covSum, foldl_add_eq_sum, zero_add]

theorem collectPts_pairwise_both (values : List (Option α))
    (hinc : (filterNum values).Pairwise (fun x y => x < y)) :
    (collectPts 0 values).Pairwise
      (fun p q => ((p.1 : ℕ) : α) < ((q.1 : ℕ) : α) ∧ p.2 < q.2) := by
  have h1 : (collectPts 0 values).Pairwise (fun p q => ((p.1 : ℕ) : α) < ((q.1 : ℕ) : α)) :=
    (collectPts_pairwise 0 values).imp (fun h => by exact_mod_cast h)
  have h2 : (collectPts 0 values).Pairwise (fun p q => p.2 < q.2) := by
    rw [← collectPts_map_snd 0 values, List.pairwise_map] at hinc
    exact hinc
  exact h1.and h2

theorem slope_denom_ge_one (values : List (Option α)) (h2 : 2 ≤ countValid values) :
    1 ≤ covSum (fun p : Nat × α => (p.1 : α)) (fun p => (p.1 : α)) (collectPts 0 values) := by
  apply covSum_self_ge_one
  · refine (collectPts_pairwise 0 values).imp (fun {p q} h => ?_)
    have : p.1 + 1 ≤ q.1 := h
    exact_mod_cast this
  · rw [collectPts_length]
    exact h2

/-- In exact arithmetic, a series (nulls allowed in any slots) with at least two valid points
whose valid values are strictly increasing in day index has
`slopePerDay > 0`. -/
theorem slopePerDay_pos_of_increasing (values : List (Option α))
    (h2 : 2 ≤ countValid values)
    (hinc : (filterNum values).Pairwise (fun x y => x < y)) :
    0 < slopePerDay values := by
  have hd := slope_denom_ge_one values h2
  have hn : 0 < covSum (fun p : Nat × α => (p.1 : α)) Prod.snd (collectPts 0 values) :=
    covSum_pos _ _ _ (collectPts_pairwise_both values hinc)
      (by rw [collectPts_length]; exact h2)
  have hlen : ¬ (collectPts 0 values).length < 2 := by
    rw [collectPts_length]
    omega
  have hsmall : (1e-8 : α) ≤ 1 := by norm_num
  have habs : ¬ |covSum (fun p : Nat × α => (p.1 : α)) (fun p => (p.1 : α))
      (collectPts 0 values)| < 1e-8 := by
    rw [abs_of_nonneg (by linarith)]
    exact not_lt.2 (le_trans hsmall hd)
  rw [slopePerDay_eq, if_neg hlen, if_neg habs]
  exact div_pos hn (by linarith)

theorem slopePerDay_eq_zero_of_const (values : List (Option α)) (c : α)
    (hc : ∀ x, some x ∈ values → x = c) : slopePerDay values = 0 := by
  have hz : covSum (fun p : Nat × α => (p.1 : α)) Prod.snd (collectPts 0 values) = 0 := by
    apply covSum_const _ _ c
    intro q hq
    have := (collectPts_mem hq).2
    exact hc q.2 (List.getElem?_mem this)
  rw [slopePerDay_eq, hz]
  split_ifs <;> simp


/-- Example of `slopePerDay_pos_of_increasing`: the series `[1, null, 3]`. -/
theorem slopePerDay_pos_of_increasing_witness :
    (0 : ℚ) < slopePerDay [some 1, none, some 3] :=
  slopePerDay_pos_of_increasing [some (1 : ℚ), none, some 3]
    (by simp [countValid, filterNum])
    (by
      show List.Pairwise (fun x y : ℚ => x < y) (List.filterMap id [some 1, none, some 3])
      rw [show List.filterMap id [some (1 : ℚ), none, some 3] = [1, 3] from rfl]
      simp)

/-- In exact arithmetic, a series (nulls allowed in any slots) whose valid values all equal
the same constant `c` has `slopePerDay` exactly `0`, and the trend per week
that `engineerFeatures` derives from it (trend per day times 7) is `0` too. -/
theorem slopePerDay_const (sqrtF : α → α) (values : List (Option α)) (c : α) (N : Nat)
    (hc : ∀ x, some x ∈ values → x = c) :
    slopePerDay values = 0 ∧
    (aggregate sqrtF values N).trend_per_day = 0 ∧
    (aggregate sqrtF values N).trend_per_week = some 0 := by
  have h := slopePerDay_eq_zero_of_const values c hc
  refine ⟨h, h, ?_⟩
  simp [aggregate, h]

/-- Example of `slopePerDay_const`: the series `[70, null, 70, 70]`. -/
theorem slopePerDay_const_witness :
    slopePerDay [some (70 : ℚ), none, some 70, some 70] = 0 ∧
    (aggregate id [some (70 : ℚ), none, some 70, some 70] 4).trend_per_day = 0 ∧
    (aggregate id [some (70 : ℚ), none, some 70, some 70] 4).trend_per_week = some 0 :=
  slopePerDay_const id [some (70 : ℚ), none, some 70, some 70] 70 4 (by simp)

/-! ## Constant series -/

theorem filterNum_replicate_some (n : Nat) (c : α) :
    filterNum (List.replicate n (some c)) = List.replicate n c := by
  induction n with
  | zero => rfl
  | succ n ih =>
    rw [List.replicate_succ, List.replicate_succ]
    simp only [filterNum, List.filterMap_cons, id] at ih ⊢
    rw [ih]

theorem filterNum_replicate_none (n : Nat) :
    filterNum (List.replicate n (none : Option α)) = [] := by
  induction n with
  | zero => rfl
  | succ n ih =>
    rw [List.replicate_succ]
    simp only [filterNum, List.filterMap_cons, id] at ih ⊢
    exact ih

theorem sum_replicate_eq (n : Nat) (c : α) :
    (List.replicate n c).foldl (fun a b => a + b) 0 = (n : α) * c := by
  rw [foldl_add_eq_sum (fun b => b)]
  simp

theorem mean_replicate_some (n : Nat) (c : α) (hn : n ≠ 0) :
    mean (List.replicate n (some c)) = some c := by
  unfold mean
  simp only [filterNum_replicate_some, List.length_replicate, if_neg hn, sum_replicate_eq]
  have : (n : α) ≠ 0 := Nat.cast_ne_zero.2 hn
  rw [mul_div_cancel_left₀ _ this]

theorem mean_replicate_none (n : Nat) :
    mean (List.replicate n (none : Option α)) = none := by
  unfold mean
  simp [filterNum_replicate_none]

theorem std_replicate_some (sqrtF : α → α) (n : Nat) (c : α) (h0 : sqrtF 0 = 0) :
    std sqrtF (List.replicate n (some c)) = 0 := by
  unfold std
  simp only [filterNum_replicate_some, List.length_replicate]
  split_ifs with h
  · rfl
  · have hn : n ≠ 0 := by omega
    have hm : mean (List.map some (List.replicate n c)) = some c := by
      rw [List.map_replicate]
      exact mean_replicate_some n c hn
    rw [hm]
    have hs : (List.replicate n c).foldl (fun acc x => acc + (x - (some c).getD 0) ^ 2) 0 = 0 := by
      rw [foldl_add_eq_sum (fun x => (x - (some c).getD 0) ^ 2)]
      simp
    rw [hs]
    simpa using h0

/-! ## Anomaly detector -/

theorem anomaly_dailyAnoms_eq (sqrtF tanhF : α → α) (arrays : Metric → List (Option α))
    (bd : Int) :
    (anomalyFromBaseline sqrtF tanhF arrays bd).dailyAnoms =
      (List.range (arrays .resting_hr).length).map (fun i =>
        clamp (tanhF (znormOfDay arrays
          (fun k => baselineOf sqrtF (arrays k) bd (arrays .resting_hr).length) i / 2.5)) 0 1) := by
  simp [anomalyFromBaseline, List.map_map, Function.comp_def]

/-- Metrics whose value on the day or whose baseline mean is missing, or whose
value equals the baseline mean, leave the accumulated sum unchanged. -/
theorem dayAccum_fst_of_zero (arrays : Metric → List (Option α))
    (baselines : Metric → Option α × α) (i : Nat) (ks : List Metric) (acc : α × Nat)
    (h : ∀ k ∈ ks, ∀ v m, (arrays k)[i]?.join = some v → (baselines k).1 = some m → v = m) :
    (dayAccum arrays baselines i ks acc).1 = acc.1 := by
  induction ks generalizing acc with
  | nil => rfl
  | cons k ks ih =>
    have ih' := fun acc => ih acc (fun k' hk' => h k' (List.mem_cons_of_mem _ hk'))
    have hk := h k (List.mem_cons_self _ _)
    unfold dayAccum
    split
    · rename_i v m hv hm
      rw [ih']
      have := hk v m hv hm
      simp [this]
    · exact ih' acc

theorem dayAccum_skip (arrays : Metric → List (Option α))
    (baselines : Metric → Option α × α) (i : Nat) (ks : List Metric) (acc : α × Nat)
    (h : ∀ k ∈ ks, (arrays k)[i]?.join = none ∨ (baselines k).1 = none) :
    dayAccum arrays baselines i ks acc = acc := by
  induction ks generalizing acc with
  | nil => rfl
  | cons k ks ih =>
    have ih' := fun acc => ih acc (fun k' hk' => h k' (List.mem_cons_of_mem _ hk'))
    have hk := h k (List.mem_cons_self _ _)
    unfold dayAccum
    split
    · rename_i v m hv hm
      rcases hk with hk | hk
      · rw [hk] at hv; cases hv
      · rw [hk] at hm; cases hm
    · exact ih' acc

theorem znormOfDay_eq_zero (arrays : Metric → List (Option α))
    (baselines : Metric → Option α × α) (i : Nat)
    (h : ∀ k ∈ anomalyKeys, ∀ v m,
      (arrays k)[i]?.join = some v → (baselines k).1 = some m → v = m) :
    znormOfDay arrays baselines i = 0 := by
  unfold znormOfDay
  simp only [dayAccum_fst_of_zero arrays baselines i anomalyKeys (0, 0) h]
  split_ifs <;> simp

theorem anomaly_dailyAnoms_get (sqrtF tanhF : α → α)
    (arrays : Metric → List (Option α)) (bd : Int) (i : Nat)
    (hi : i < (arrays .resting_hr).length) :
    (anomalyFromBaseline sqrtF tanhF arrays bd).dailyAnoms[i]? =
      some (clamp (tanhF (znormOfDay arrays
        (fun k => baselineOf sqrtF (arrays k) bd (arrays .resting_hr).length) i / 2.5)) 0 1) := by
  rw [anomaly_dailyAnoms_eq, List.getElem?_map, List.getElem?_range hi]
  rfl

theorem anomaly_flag_eq (sqrtF tanhF : α → α) (arrays : Metric → List (Option α)) (bd : Int) :
    (anomalyFromBaseline sqrtF tanhF arrays bd).flag =
      ((decide (2 ≤ (anomalyFromBaseline sqrtF tanhF arrays bd).dailyAnoms.length) &&
        decide (0.75 ≤ (anomalyFromBaseline sqrtF tanhF arrays bd).dailyAnoms.getD
          ((anomalyFromBaseline sqrtF tanhF arrays bd).dailyAnoms.length - 1) 0) &&
        decide (0.75 ≤ (anomalyFromBaseline sqrtF tanhF arrays bd).dailyAnoms.getD
          ((anomalyFromBaseline sqrtF tanhF arrays bd).dailyAnoms.length - 2) 0)) ||
        decide (0.9 ≤
          if (anomalyFromBaseline sqrtF tanhF arrays bd).dailyAnoms.length ≠ 0 then
            (anomalyFromBaseline sqrtF tanhF arrays bd).dailyAnoms.getD
              ((anomalyFromBaseline sqrtF tanhF arrays bd).dailyAnoms.length - 1) 0
          else 0)) := rfl

theorem anomaly_score_eq (sqrtF tanhF : α → α) (arrays : Metric → List (Option α)) (bd : Int) :
    (anomalyFromBaseline sqrtF tanhF arrays bd).score =
      round2 (if (anomalyFromBaseline sqrtF tanhF arrays bd).dailyAnoms.length ≠ 0 then
            (anomalyFromBaseline sqrtF tanhF arrays bd).dailyAnoms.getD
              ((anomalyFromBaseline sqrtF tanhF arrays bd).dailyAnoms.length - 1) 0
          else 0) := rfl

/-- C2: for aligned series of length `N` and every `baselineDays`,
`anomalyFromBaseline` returns exactly `N` daily scores, each in `[0, 1]`, and a
day on which no metric has both a valid value and a valid baseline mean scores
exactly `0`. -/
theorem anomaly_daily_scores (arrays : Metric → List (Option ℝ)) (baselineDays : ℤ) (N : ℕ)
    (haligned : ∀ k, (arrays k).length = N) :
    (anomalyFromBaseline Real.sqrt Real.tanh arrays baselineDays).dailyAnoms.length = N ∧
    (∀ x ∈ (anomalyFromBaseline Real.sqrt Real.tanh arrays baselineDays).dailyAnoms,
      0 ≤ x ∧ x ≤ 1) ∧
    (∀ i, i < N →
      (∀ k ∈ anomalyKeys, (arrays k)[i]?.join = none ∨
        (baselineOf Real.sqrt (arrays k) baselineDays N).1 = none) →
      (anomalyFromBaseline Real.sqrt Real.tanh arrays baselineDays).dailyAnoms[i]? = some 0) := by
  have hN : (arrays .resting_hr).length = N := haligned _
  refine ⟨?_, ?_, ?_⟩
  · rw [anomaly_dailyAnoms_eq]
    simp [hN]
  · intro x hx
    rw [anomaly_dailyAnoms_eq] at hx
    obtain ⟨i, -, rfl⟩ := List.mem_map.1 hx
    exact ⟨clamp_ge _ zero_le_one, clamp_le _ _ _⟩
  · intro i hi hmiss
    rw [anomaly_dailyAnoms_get _ _ _ _ _ (by rw [hN]; exact hi), hN]
    have hz : znormOfDay arrays (fun k => baselineOf Real.sqrt (arrays k) baselineDays N) i = 0 := by
      unfold znormOfDay
      rw [dayAccum_skip arrays _ i anomalyKeys (0, 0) hmiss]
      simp
    rw [hz]
    simp [clamp, Real.tanh_zero]


/-- Witness of C2: the window of scenario B, whose fourteen series are
aligned. -/
theorem anomaly_daily_scores_witness :
    (∀ k : Metric, (scenarioBArrays k : List (Option ℝ)).length = 14) ∧
    ((anomalyFromBaseline Real.sqrt Real.tanh scenarioBArrays 7).dailyAnoms.length = 14 ∧
    (∀ x ∈ (anomalyFromBaseline Real.sqrt Real.tanh scenarioBArrays 7).dailyAnoms,
      0 ≤ x ∧ x ≤ 1) ∧
    (∀ i, i < 14 →
      (∀ k ∈ anomalyKeys, (scenarioBArrays k : List (Option ℝ))[i]?.join = none ∨
        (baselineOf Real.sqrt (scenarioBArrays k) 7 14).1 = none) →
      (anomalyFromBaseline Real.sqrt Real.tanh scenarioBArrays 7).dailyAnoms[i]? = some 0)) :=
  ⟨fun k => by cases k <;> rfl,
    anomaly_daily_scores scenarioBArrays 7 14 (fun k => by cases k <;> rfl)⟩

theorem tanh_8_5_ge : (0.75 : ℝ) ≤ Real.tanh (4 / 2.5) := by
  have e : (4 / 2.5 : ℝ) = 4 / 5 + 4 / 5 := by norm_num
  have h1 : (9 / 5 : ℝ) ≤ Real.exp (4 / 5) := by
    have := Real.add_one_le_exp (4 / 5 : ℝ)
    linarith
  have hx : (81 / 25 : ℝ) ≤ Real.exp (4 / 2.5) := by
    rw [e, Real.exp_add]
    nlinarith
  have hy : Real.exp (-(4 / 2.5)) ≤ (25 / 81 : ℝ) := by
    rw [Real.exp_neg]
    have hpos : (0 : ℝ) < Real.exp (4 / 2.5) := Real.exp_pos _
    rw [inv_le_comm₀ hpos (by norm_num)]
    linarith
  have hy0 : 0 < Real.exp (-(4 / 2.5 : ℝ)) := Real.exp_pos _
  rw [Real.tanh_eq_sinh_div_cosh, Real.sinh_eq, Real.cosh_eq]
  rw [le_div_iff₀ (by linarith)]
  norm_num
  linarith

theorem baselineOf_const_prefix (arr : List (Option ℝ)) (c : ℝ) (n : Nat) (hn : n ≠ 0)
    (N : Nat) (hN : n ≤ N)
    (hpre : ∀ i, i < n → arr[i]? = some (some c)) :
    baselineOf Real.sqrt arr (n : ℤ) N = (some c, 1e-6) := by
  have hslice : jsSlice0 arr (min (n : ℤ) (N : ℤ)) = List.replicate n (some c) := by
    have hmin : min (n : ℤ) (N : ℤ) = (n : ℤ) := min_eq_left (by exact_mod_cast hN)
    unfold jsSlice0
    rw [hmin, if_neg (by omega), Int.toNat_ofNat]
    apply List.ext_getElem?
    intro i
    rw [List.getElem?_take]
    by_cases hi : i < n
    · rw [if_pos hi, hpre i hi]
      simp [List.getElem?_replicate, hi]
    · rw [if_neg hi]
      simp [List.getElem?_replicate, hi]
  unfold baselineOf
  rw [hslice]
  have hf : (List.replicate n (some c)).filter Option.isSome = List.replicate n (some c) := by
    rw [List.filter_eq_self]
    intro a ha
    rw [List.eq_of_mem_replicate ha]
    rfl
  simp only [hf, mean_replicate_some n c hn, std_replicate_some Real.sqrt n c Real.sqrt_zero]
  have : ¬ (0 : ℝ) > 1e-6 := by norm_num
  rw [if_neg this]


/-- The daily score of a day on which only `resting_hr` contributes, with a
value 40 beats above a baseline mean of 65 whose standard deviation is at
the floor. -/
theorem znormOfDay_spike (arrays : Metric → List (Option ℝ))
    (baselines : Metric → Option ℝ × ℝ) (i : Nat)
    (hb : baselines .resting_hr = (some 65, 1e-6))
    (hv : (arrays .resting_hr)[i]? = some (some 105))
    (hmiss : ∀ k ∈ [Metric.systolic_bp, Metric.sleep_hours, Metric.steps, Metric.weight_kg],
      (arrays k)[i]?.join = none) :
    znormOfDay arrays baselines i = 4 := by
  have hz : min |((105 : ℝ) - 65) / 1e-6| 4 = 4 := by
    apply min_eq_right
    norm_num [abs_of_nonneg]
  have hj : (arrays .resting_hr)[i]?.join = some 105 := by rw [hv]; rfl
  have hstep : dayAccum arrays baselines i anomalyKeys (0, 0) =
      dayAccum arrays baselines i
        [Metric.systolic_bp, Metric.sleep_hours, Metric.steps, Metric.weight_kg]
        (0 + min |((105 : ℝ) - 65) / 1e-6| 4, 0 + 1) := by
    unfold anomalyKeys
    rw [dayAccum]
    simp only [hj, hb]
  unfold znormOfDay
  rw [hstep, dayAccum_skip arrays baselines i _ _ (fun k hk => Or.inl (hmiss k hk)), hz]
  norm_num

/-- C10 (scenario B): in every window of `N ≥ 9` days whose first seven
`resting_hr` values are 65, whose last two `resting_hr` values are 105, and in
which the other four anomaly metrics are missing on the last two days,
`anomalyFromBaseline` with `baselineDays = 7` gives last two daily scores both
at least `0.75` and `flag = true`. -/
theorem anomaly_spike_persists (arrays : Metric → List (Option ℝ))
    (hN : 9 ≤ (arrays .resting_hr).length)
    (h65 : ∀ i, i < 7 → (arrays .resting_hr)[i]? = some (some 65))
    (hlast : (arrays .resting_hr)[(arrays .resting_hr).length - 1]? = some (some 105))
    (hprev : (arrays .resting_hr)[(arrays .resting_hr).length - 2]? = some (some 105))
    (hmiss : ∀ k ∈ [Metric.systolic_bp, Metric.sleep_hours, Metric.steps, Metric.weight_kg],
      (arrays k)[(arrays .resting_hr).length - 1]?.join = none ∧
      (arrays k)[(arrays .resting_hr).length - 2]?.join = none) :
    ∃ a b,
      (anomalyFromBaseline Real.sqrt Real.tanh arrays 7).dailyAnoms[
        (arrays .resting_hr).length - 2]? = some a ∧
      (anomalyFromBaseline Real.sqrt Real.tanh arrays 7).dailyAnoms[
        (arrays .resting_hr).length - 1]? = some b ∧
      0.75 ≤ a ∧ 0.75 ≤ b ∧
      (anomalyFromBaseline Real.sqrt Real.tanh arrays 7).flag = true := by
  set N := (arrays .resting_hr).length with hNdef
  have hb : baselineOf Real.sqrt (arrays .resting_hr) 7 N = (some 65, 1e-6) :=
    baselineOf_const_prefix (arrays .resting_hr) 65 7 (by decide) N (by omega) h65
  have hz1 := znormOfDay_spike arrays
    (fun k => baselineOf Real.sqrt (arrays k) 7 N) (N - 1) hb hlast
    (fun k hk => (hmiss k hk).1)
  have hz2 := znormOfDay_spike arrays
    (fun k => baselineOf Real.sqrt (arrays k) 7 N) (N - 2) hb hprev
    (fun k hk => (hmiss k hk).2)
  have hd1 := anomaly_dailyAnoms_get Real.sqrt Real.tanh arrays 7 (N - 1)
    (by omega)
  have hd2 := anomaly_dailyAnoms_get Real.sqrt Real.tanh arrays 7 (N - 2)
    (by omega)
  rw [← hNdef, hz1] at hd1
  rw [← hNdef, hz2] at hd2
  have hlen : (anomalyFromBaseline Real.sqrt Real.tanh arrays 7).dailyAnoms.length = N := by
    rw [anomaly_dailyAnoms_eq]
    simp
  have hc : (0.75 : ℝ) ≤ clamp (Real.tanh (4 / 2.5)) 0 1 := by
    unfold clamp
    exact le_min (by norm_num) (le_trans tanh_8_5_ge (le_max_right _ _))
  refine ⟨_, _, hd2, hd1, hc, hc, ?_⟩
  rw [anomaly_flag_eq, hlen, List.getD_eq_getElem?_getD, List.getD_eq_getElem?_getD, hd1, hd2]
  simp [hc, show 2 ≤ N by omega]

/-- Witness of C10: the window of scenario B (`N = 14`). -/
theorem anomaly_spike_persists_witness :
    ∃ a b : ℝ,
      (anomalyFromBaseline Real.sqrt Real.tanh scenarioBArrays 7).dailyAnoms[
        (scenarioBArrays Metric.resting_hr : List (Option ℝ)).length - 2]? = some a ∧
      (anomalyFromBaseline Real.sqrt Real.tanh scenarioBArrays 7).dailyAnoms[
        (scenarioBArrays Metric.resting_hr : List (Option ℝ)).length - 1]? = some b ∧
      0.75 ≤ a ∧ 0.75 ≤ b ∧
      (anomalyFromBaseline Real.sqrt Real.tanh scenarioBArrays 7).flag = true :=
  anomaly_spike_persists scenarioBArrays (by simp [scenarioBArrays])
    (by intro i hi; interval_cases i <;> rfl) rfl rfl
    (by
      intro k hk
      simp only [List.mem_cons, List.mem_singleton, List.not_mem_nil, or_false] at hk
      rcases hk with rfl | rfl | rfl | rfl <;> exact ⟨rfl, rfl⟩)

/-- A window in which every anomaly metric is constant scores `0` on its
last day and raises no flag. -/
theorem anomaly_const_window (arrays : Metric → List (Option ℝ)) (N : Nat) (hN : 7 ≤ N)
    (hlen : (arrays .resting_hr).length = N)
    (hconst : ∀ k ∈ anomalyKeys, ∃ c, arrays k = List.replicate N (some c)) :
    (anomalyFromBaseline Real.sqrt Real.tanh arrays 7).score = 0 ∧
    (anomalyFromBaseline Real.sqrt Real.tanh arrays 7).flag = false := by
  have hz : ∀ i, znormOfDay arrays (fun k => baselineOf Real.sqrt (arrays k) 7 N) i = 0 := by
    intro i
    apply znormOfDay_eq_zero
    intro k hk v m hv hm
    obtain ⟨c, hc⟩ := hconst k hk
    have hb : baselineOf Real.sqrt (arrays k) 7 N = (some c, 1e-6) := by
      apply baselineOf_const_prefix (arrays k) c 7 (by decide) N hN
      intro j hj
      rw [hc, List.getElem?_replicate, if_pos (by omega)]
    simp only [hb] at hm
    rw [hc, List.getElem?_replicate] at hv
    split_ifs at hv
    · simp only [Option.join, Option.some_bind, id, Option.some.injEq] at hv hm
      rw [← hv, ← hm]
    · simp [Option.join] at hv
  have hd : ∀ i, i < N →
      (anomalyFromBaseline Real.sqrt Real.tanh arrays 7).dailyAnoms[i]? = some 0 := by
    intro i hi
    rw [anomaly_dailyAnoms_get _ _ _ _ _ (by rw [hlen]; exact hi), hlen, hz]
    simp [clamp, Real.tanh_zero]
  have hl : (anomalyFromBaseline Real.sqrt Real.tanh arrays 7).dailyAnoms.length = N := by
    rw [anomaly_dailyAnoms_eq]
    simp [hlen]
  constructor
  · rw [anomaly_score_eq, hl, List.getD_eq_getElem?_getD, hd (N - 1) (by omega)]
    simp [round2_zero]
  · rw [anomaly_flag_eq, hl, List.getD_eq_getElem?_getD, List.getD_eq_getElem?_getD,
      hd (N - 1) (by omega), hd (N - 2) (by omega)]
    norm_num

/-! ## Scenario A -/

theorem sigmoid_le_half {z : ℝ} (hz : z ≤ 0) : sigmoid Real.exp z ≤ 1 / 2 := by
  unfold sigmoid
  have h1 : (1 : ℝ) ≤ Real.exp (-z) := Real.one_le_exp (by linarith)
  exact one_div_le_one_div_of_le (by norm_num) (by linarith)

theorem risk_prob_le_half {z : ℝ} (hz : z ≤ 0) :
    round2 (clamp (sigmoid Real.exp z) 0.01 0.99) ≤ 1 / 2 := by
  have h := sigmoid_le_half hz
  have hc : clamp (sigmoid Real.exp z) 0.01 0.99 ≤ (50 : ℤ) / 100 := by
    unfold clamp
    refine le_trans (min_le_right _ _) (max_le ?_ ?_)
    · norm_num
    · norm_num
      linarith
  have := round2_mono hc
  rw [round2_hundredth] at this
  norm_num at this ⊢
  exact this

/-- With no cause applying and both rates under one half, the decision is
"Stable" with no notification. -/
theorem computeDecision_stable (numStr : α → String) (risks : Risks α)
    (anomaly : AnomalyResult α) (agg : Agg α)
    (hflag : anomaly.flag = false)
    (ht : risks.t2d.prob < 0.55) (hh : risks.htn.prob < 0.55)
    (hs : ∀ m, (agg.metric .systolic_bp).mean = some m → m < 130)
    (hd : ∀ m, (agg.metric .diastolic_bp).mean = some m → m < 80)
    (hrs : agg.sbp_over_130_rate < 0.5) (hrd : agg.dbp_over_80_rate < 0.5) :
    computeDecision numStr risks anomaly agg =
      { notify_client := false, notify_doctor := false, reason := "Stable" } := by
  have k1 : (0.55 : α) ≤ 0.75 := by norm_num
  have ht' : ¬ (0.55 : α) ≤ risks.t2d.prob := not_le.2 ht
  have hh' : ¬ (0.55 : α) ≤ risks.htn.prob := not_le.2 hh
  have ht'' : ¬ (0.75 : α) ≤ risks.t2d.prob := fun h => ht' (le_trans k1 h)
  have hh'' : ¬ (0.75 : α) ≤ risks.htn.prob := fun h => hh' (le_trans k1 h)
  have hrs' : ¬ (0.5 : α) ≤ agg.sbp_over_130_rate := not_le.2 hrs
  have hrd' : ¬ (0.5 : α) ≤ agg.dbp_over_80_rate := not_le.2 hrd
  have hreasons : decisionReasons numStr risks anomaly agg = [] := by
    unfold decisionReasons
    rw [hflag, if_neg ht', if_neg hh']
    cases hsm : (agg.metric .systolic_bp).mean with
    | none =>
      cases hdm : (agg.metric .diastolic_bp).mean with
      | none => simp
      | some d => simp [not_le.2 (hd d hdm)]
    | some m =>
      cases hdm : (agg.metric .diastolic_bp).mean with
      | none => simp [not_le.2 (hs m hsm)]
      | some d => simp [not_le.2 (hs m hsm), not_le.2 (hd d hdm)]
  have hstr : String.intercalate " + " ([] : List String) = "" := rfl
  have hs' : ∀ m, (agg.metric .systolic_bp).mean = some m → ¬ 140 ≤ m := by
    intro m hm h
    have := hs m hm
    linarith
  have hd' : ∀ m, (agg.metric .diastolic_bp).mean = some m → ¬ 90 ≤ m := by
    intro m hm h
    have := hd m hm
    linarith
  unfold computeDecision
  rw [hreasons, hflag]
  simp only [ht', hh', ht'', hh'', hrs', hrd', decide_False, Bool.or_self, Bool.false_or,
    List.take_nil, hstr, if_true]
  cases hsm : (agg.metric .systolic_bp).mean with
  | none =>
    cases hdm : (agg.metric .diastolic_bp).mean with
    | none => rfl
    | some d => simp [hd' d hdm]
  | some m =>
    cases hdm : (agg.metric .diastolic_bp).mean with
    | none => simp [hs' m hsm]
    | some d => simp [hs' m hsm, hd' d hdm]


theorem engineerFeatures_arrays_replicate (strNum : String → Option α) (sqrtF : α → α)
    (n : Nat) (d : DailyRecord α) (demographics : Demographics α) (k : Metric) :
    (engineerFeatures strNum sqrtF (List.replicate n d) demographics).arrays k =
      List.replicate n (daySlot strNum (toNumberOrNull strNum demographics.height_cm) d k) := by
  simp [engineerFeatures]

theorem engineerFeatures_metric (strNum : String → Option α) (sqrtF : α → α)
    (days : List (DailyRecord α)) (demographics : Demographics α) (k : Metric) :
    (engineerFeatures strNum sqrtF days demographics).agg.metric k =
      aggregate sqrtF ((engineerFeatures strNum sqrtF days demographics).arrays k)
        days.length := rfl


theorem scenarioA_slots (strNum : String → Option ℝ) :
    daySlot strNum (some 170) scenarioADay .resting_hr = some 65 ∧
    daySlot strNum (some 170) scenarioADay .systolic_bp = some 120 ∧
    daySlot strNum (some 170) scenarioADay .diastolic_bp = some 78 ∧
    daySlot strNum (some 170) scenarioADay .steps = some 8000 ∧
    daySlot strNum (some 170) scenarioADay .sleep_hours = some 7 ∧
    daySlot strNum (some 170) scenarioADay .diet_score = some 3 ∧
    daySlot strNum (some 170) scenarioADay .activity_minutes = some 30 ∧
    daySlot strNum (some 170) scenarioADay .weight_kg = some 70 ∧
    daySlot strNum (some 170) scenarioADay .stress = some 3 ∧
    daySlot strNum (some 170) scenarioADay .bmi = some (70 / (170 / 100 * (170 / 100))) := by
  refine ⟨rfl, rfl, rfl, rfl, rfl, rfl, rfl, rfl, rfl, ?_⟩
  simp [daySlot, scenarioADay, JsVal.isNum, toNumberOrNull, computeBMI]

theorem scenarioA_agg (strNum : String → Option ℝ) (k : Metric) (c : ℝ)
    (h : daySlot strNum (some 170) scenarioADay k = some c) :
    ((engineerFeatures strNum Real.sqrt (List.replicate 14 scenarioADay)
        scenarioADemo).agg.metric k).mean = some c ∧
    ((engineerFeatures strNum Real.sqrt (List.replicate 14 scenarioADay)
        scenarioADemo).agg.metric k).trend_per_week = some 0 := by
  have harr : (engineerFeatures strNum Real.sqrt (List.replicate 14 scenarioADay)
      scenarioADemo).arrays k = List.replicate 14 (some c) := by
    rw [engineerFeatures_arrays_replicate]
    exact congrArg _ h
  rw [engineerFeatures_metric, harr]
  constructor
  · exact mean_replicate_some 14 c (by decide)
  · have := slopePerDay_eq_zero_of_const (List.replicate 14 (some c)) c (by
      intro x hx
      have := List.eq_of_mem_replicate hx
      exact (Option.some.inj this))
    show some (slopePerDay (List.replicate 14 (some c)) * 7) = some 0
    rw [this, zero_mul]

/-- C9 (scenario A): for the window of 14 identical daily records (weight 70,
SBP 120, DBP 78, steps 8000, sleep 7, diet 3, activity 30, stress 3, resting
HR 65) with demographics `{height_cm: 170}`, the `/predict` pipeline returns
`anomaly.score = 0`, `anomaly.flag = false`, `notify_client = false`,
`notify_doctor = false` and `reason = "Stable"`. -/
theorem scenarioA_stable (strNum : String → Option ℝ) (numStr : ℝ → String)
    (window_start window_end : Option String) :
    ∃ r, predict strNum Real.sqrt Real.exp Real.tanh numStr
        (List.replicate 14 scenarioADay) scenarioADemo window_start window_end = .ok r ∧
      r.anomaly.1 = 0 ∧ r.anomaly.2 = false ∧
      r.decision.notify_client = false ∧ r.decision.notify_doctor = false ∧
      r.decision.reason = "Stable" := by
  obtain ⟨s1, s2, s3, s4, s5, s6, s7, s8, s9, s10⟩ := scenarioA_slots strNum
  have harr : ∀ k c, daySlot strNum (some 170) scenarioADay k = some c →
      (engineerFeatures strNum Real.sqrt (List.replicate 14 scenarioADay)
        scenarioADemo).arrays k = List.replicate 14 (some c) := by
    intro k c h
    rw [engineerFeatures_arrays_replicate]
    exact congrArg _ h
  -- anomaly
  have hanom := anomaly_const_window
    (engineerFeatures strNum Real.sqrt (List.replicate 14 scenarioADay) scenarioADemo).arrays
    14 (by decide) (by rw [harr _ _ s1]; simp) (by
      intro k hk
      simp only [anomalyKeys, List.mem_cons, List.mem_singleton, List.not_mem_nil,
        or_false] at hk
      rcases hk with rfl | rfl | rfl | rfl | rfl
      · exact ⟨_, harr _ _ s1⟩
      · exact ⟨_, harr _ _ s2⟩
      · exact ⟨_, harr _ _ s5⟩
      · exact ⟨_, harr _ _ s4⟩
      · exact ⟨_, harr _ _ s8⟩)
  -- risks
  have hage : (engineerFeatures strNum Real.sqrt (List.replicate 14 scenarioADay)
      scenarioADemo).demographics.age = none := rfl
  have hsmoker : (engineerFeatures strNum Real.sqrt (List.replicate 14 scenarioADay)
      scenarioADemo).demographics.smoker = false := rfl
  have ht : (riskT2D Real.exp
      (engineerFeatures strNum Real.sqrt (List.replicate 14 scenarioADay) scenarioADemo).agg
      (engineerFeatures strNum Real.sqrt (List.replicate 14 scenarioADay)
        scenarioADemo).demographics).prob ≤ 1 / 2 := by
    apply risk_prob_le_half
    rw [hage, (scenarioA_agg strNum _ _ s10).1, (scenarioA_agg strNum _ _ s4).1,
      (scenarioA_agg strNum _ _ s6).1, (scenarioA_agg strNum _ _ s5).1,
      (scenarioA_agg strNum _ _ s9).1, (scenarioA_agg strNum _ _ s8).2]
    norm_num [clamp]
  have hh : (riskHTN Real.exp
      (engineerFeatures strNum Real.sqrt (List.replicate 14 scenarioADay) scenarioADemo).agg
      (engineerFeatures strNum Real.sqrt (List.replicate 14 scenarioADay)
        scenarioADemo).demographics).prob ≤ 1 / 2 := by
    apply risk_prob_le_half
    rw [hage, hsmoker, (scenarioA_agg strNum _ _ s10).1, (scenarioA_agg strNum _ _ s2).1,
      (scenarioA_agg strNum _ _ s2).2, (scenarioA_agg strNum _ _ s1).1,
      (scenarioA_agg strNum _ _ s9).1, (scenarioA_agg strNum _ _ s7).1]
    norm_num
  -- thresholds on the blood-pressure aggregates
  have hs : ∀ m, ((engineerFeatures strNum Real.sqrt (List.replicate 14 scenarioADay)
      scenarioADemo).agg.metric .systolic_bp).mean = some m → m < 130 := by
    intro m hm
    rw [(scenarioA_agg strNum _ _ s2).1] at hm
    rw [← Option.some.inj hm]
    norm_num
  have hd : ∀ m, ((engineerFeatures strNum Real.sqrt (List.replicate 14 scenarioADay)
      scenarioADemo).agg.metric .diastolic_bp).mean = some m → m < 80 := by
    intro m hm
    rw [(scenarioA_agg strNum _ _ s3).1] at hm
    rw [← Option.some.inj hm]
    norm_num
  have hrs : (engineerFeatures strNum Real.sqrt (List.replicate 14 scenarioADay)
      scenarioADemo).agg.sbp_over_130_rate < 0.5 := by
    show overRate ((engineerFeatures strNum Real.sqrt (List.replicate 14 scenarioADay)
      scenarioADemo).arrays .systolic_bp) 130 14 < 0.5
    rw [harr _ _ s2]
    norm_num [overRate, List.filter_replicate]
  have hrd : (engineerFeatures strNum Real.sqrt (List.replicate 14 scenarioADay)
      scenarioADemo).agg.dbp_over_80_rate < 0.5 := by
    show overRate ((engineerFeatures strNum Real.sqrt (List.replicate 14 scenarioADay)
      scenarioADemo).arrays .diastolic_bp) 80 14 < 0.5
    rw [harr _ _ s3]
    norm_num [overRate, List.filter_replicate]
  have hlen : ¬ (List.replicate 14 (scenarioADay : DailyRecord ℝ)).length < 14 := by simp
  have hdec := computeDecision_stable numStr
    { t2d :=
        { prob := (riskT2D Real.exp
            (engineerFeatures strNum Real.sqrt (List.replicate 14 scenarioADay)
              scenarioADemo).agg
            (engineerFeatures strNum Real.sqrt (List.replicate 14 scenarioADay)
              scenarioADemo).demographics).prob
          ci90 := ci90 (riskT2D Real.exp
            (engineerFeatures strNum Real.sqrt (List.replicate 14 scenarioADay)
              scenarioADemo).agg
            (engineerFeatures strNum Real.sqrt (List.replicate 14 scenarioADay)
              scenarioADemo).demographics).prob
            (engineerFeatures strNum Real.sqrt (List.replicate 14 scenarioADay)
              scenarioADemo).agg.global_missing_frac }
      htn :=
        { prob := (riskHTN Real.exp
            (engineerFeatures strNum Real.sqrt (List.replicate 14 scenarioADay)
              scenarioADemo).agg
            (engineerFeatures strNum Real.sqrt (List.replicate 14 scenarioADay)
              scenarioADemo).demographics).prob
          ci90 := ci90 (riskHTN Real.exp
            (engineerFeatures strNum Real.sqrt (List.replicate 14 scenarioADay)
              scenarioADemo).agg
            (engineerFeatures strNum Real.sqrt (List.replicate 14 scenarioADay)
              scenarioADemo).demographics).prob
            (engineerFeatures strNum Real.sqrt (List.replicate 14 scenarioADay)
              scenarioADemo).agg.global_missing_frac } }
    (anomalyFromBaseline Real.sqrt Real.tanh
      (engineerFeatures strNum Real.sqrt (List.replicate 14 scenarioADay)
        scenarioADemo).arrays 7)
    (engineerFeatures strNum Real.sqrt (List.replicate 14 scenarioADay) scenarioADemo).agg
    hanom.2 (lt_of_le_of_lt ht (by norm_num)) (lt_of_le_of_lt hh (by norm_num))
    hs hd hrs hrd
  unfold predict
  rw [if_neg hlen]
  refine ⟨_, rfl, hanom.1, hanom.2, ?_⟩
  simp only [hdec]
  exact ⟨trivial, trivial, trivial⟩

/-! ## Decision engine -/

theorem notify_client_iff (numStr : α → String) (risks : Risks α)
    (anomaly : AnomalyResult α) (agg : Agg α) :
    (computeDecision numStr risks anomaly agg).notify_client = true ↔
      (anomaly.flag = true ∨ 0.55 ≤ risks.t2d.prob ∨ 0.55 ≤ risks.htn.prob ∨
        (∃ m, (agg.metric .systolic_bp).mean = some m ∧ 140 ≤ m) ∨
        (∃ m, (agg.metric .diastolic_bp).mean = some m ∧ 90 ≤ m)) := by
  unfold computeDecision
  simp only [Bool.or_eq_true, decide_eq_true_eq]
  cases (agg.metric .systolic_bp).mean <;> cases (agg.metric .diastolic_bp).mean <;>
    simp [or_assoc]

theorem notify_doctor_iff (numStr : α → String) (risks : Risks α)
    (anomaly : AnomalyResult α) (agg : Agg α) :
    (computeDecision numStr risks anomaly agg).notify_doctor = true ↔
      (0.75 ≤ risks.t2d.prob ∨ 0.75 ≤ risks.htn.prob ∨
        0.5 ≤ agg.sbp_over_130_rate ∨ 0.5 ≤ agg.dbp_over_80_rate) := by
  unfold computeDecision
  simp only [Bool.or_eq_true, decide_eq_true_eq, or_assoc]

theorem engineerFeatures_arrays (strNum : String → Option α) (sqrtF : α → α)
    (days : List (DailyRecord α)) (demographics : Demographics α) (k : Metric) :
    (engineerFeatures strNum sqrtF days demographics).arrays k =
      days.map (fun d =>
        daySlot strNum (toNumberOrNull strNum demographics.height_cm) d k) := rfl

theorem engineerFeatures_sbp_rate (strNum : String → Option α) (sqrtF : α → α)
    (days : List (DailyRecord α)) (demographics : Demographics α) :
    (engineerFeatures strNum sqrtF days demographics).agg.sbp_over_130_rate =
      overRate ((engineerFeatures strNum sqrtF days demographics).arrays .systolic_bp) 130
        days.length := rfl

theorem engineerFeatures_dbp_rate (strNum : String → Option α) (sqrtF : α → α)
    (days : List (DailyRecord α)) (demographics : Demographics α) :
    (engineerFeatures strNum sqrtF days demographics).agg.dbp_over_80_rate =
      overRate ((engineerFeatures strNum sqrtF days demographics).arrays .diastolic_bp) 80
        days.length := rfl

theorem overRate_replicate_ge (n : Nat) (c t : α) (hn : 0 < n) (h : t ≤ c) :
    overRate (List.replicate n (some c)) t n = 1 := by
  unfold overRate
  rw [if_pos hn, List.filter_replicate]
  simp only [h, decide_True, if_true, List.length_replicate]
  exact div_self (Nat.cast_ne_zero.2 (by omega))

/-- C11 (scenario C, flags): for every window of `N ≥ 1` days in which
`systolic_bp` is 150 on every day, whatever the other fields and the
demographics, `engineerFeatures` yields `sbp_over_130_rate = 1` and
`systolic_bp_mean = 150`, and `computeDecision` (for any risks and anomaly
result) yields `notify_client = true` and `notify_doctor = true`. -/
theorem scenarioC_flags (strNum : String → Option α) (sqrtF : α → α)
    (days : List (DailyRecord α)) (demographics : Demographics α)
    (hN : 1 ≤ days.length) (h150 : ∀ d ∈ days, d.systolic_bp = .num 150) :
    (engineerFeatures strNum sqrtF days demographics).agg.sbp_over_130_rate = 1 ∧
    ((engineerFeatures strNum sqrtF days demographics).agg.metric .systolic_bp).mean =
      some 150 ∧
    (∀ (numStr : α → String) (risks : Risks α) (anomaly : AnomalyResult α),
      (computeDecision numStr risks anomaly
        (engineerFeatures strNum sqrtF days demographics).agg).notify_client = true ∧
      (computeDecision numStr risks anomaly
        (engineerFeatures strNum sqrtF days demographics).agg).notify_doctor = true) := by
  have harr : (engineerFeatures strNum sqrtF days demographics).arrays .systolic_bp =
      List.replicate days.length (some 150) := by
    rw [engineerFeatures_arrays, List.eq_replicate_iff]
    refine ⟨by simp, ?_⟩
    intro b hb
    obtain ⟨d, hd, rfl⟩ := List.mem_map.1 hb
    show toNumberOrNull strNum d.systolic_bp = some 150
    rw [h150 d hd]
    rfl
  have hrate : (engineerFeatures strNum sqrtF days demographics).agg.sbp_over_130_rate = 1 := by
    rw [engineerFeatures_sbp_rate, harr]
    exact overRate_replicate_ge _ _ _ (by omega) (by norm_num)
  have hmean : ((engineerFeatures strNum sqrtF days demographics).agg.metric
      .systolic_bp).mean = some 150 := by
    rw [engineerFeatures_metric]
    show mean _ = _
    rw [harr]
    exact mean_replicate_some _ _ (by omega)
  refine ⟨hrate, hmean, fun numStr risks anomaly => ⟨?_, ?_⟩⟩
  · rw [notify_client_iff]
    exact Or.inr (Or.inr (Or.inr (Or.inl ⟨150, hmean, by norm_num⟩)))
  · rw [notify_doctor_iff, hrate]
    exact Or.inr (Or.inr (Or.inl (by norm_num)))

/-- Witness of C11: a window of one day carrying only `systolic_bp = 150`. -/
theorem scenarioC_flags_witness :
    (engineerFeatures (fun _ => none) id [(scenarioCDay : DailyRecord ℚ)]
      { }).agg.sbp_over_130_rate = 1 ∧
    ((engineerFeatures (fun _ => none) id [(scenarioCDay : DailyRecord ℚ)]
      { }).agg.metric .systolic_bp).mean = some 150 ∧
    (∀ (numStr : ℚ → String) (risks : Risks ℚ) (anomaly : AnomalyResult ℚ),
      (computeDecision numStr risks anomaly
        (engineerFeatures (fun _ => none) id [(scenarioCDay : DailyRecord ℚ)]
          { }).agg).notify_client = true ∧
      (computeDecision numStr risks anomaly
        (engineerFeatures (fun _ => none) id [(scenarioCDay : DailyRecord ℚ)]
          { }).agg).notify_doctor = true) :=
  scenarioC_flags (fun _ => none) id [scenarioCDay] { } (by decide)
    (by intro d hd; rw [List.mem_singleton.1 hd]; rfl)

/-- C13: for every input, `computeDecision` returns `notify_client` true
exactly when the anomaly flag is set, or a risk probability is at least 0.55,
or the mean SBP is present and at least 140, or the mean DBP is present and at
least 90; and `notify_doctor` true exactly when a risk probability is at
least 0.75 or one of the two blood-pressure rates is at least 0.5.  A missing
mean makes its disjunct false. -/
theorem decision_notify_spec (numStr : α → String) (risks : Risks α)
    (anomaly : AnomalyResult α) (agg : Agg α) :
    ((computeDecision numStr risks anomaly agg).notify_client = true ↔
      (anomaly.flag = true ∨ 0.55 ≤ risks.t2d.prob ∨ 0.55 ≤ risks.htn.prob ∨
        (∃ m, (agg.metric .systolic_bp).mean = some m ∧ 140 ≤ m) ∨
        (∃ m, (agg.metric .diastolic_bp).mean = some m ∧ 90 ≤ m))) ∧
    ((computeDecision numStr risks anomaly agg).notify_doctor = true ↔
      (0.75 ≤ risks.t2d.prob ∨ 0.75 ≤ risks.htn.prob ∨
        0.5 ≤ agg.sbp_over_130_rate ∨ 0.5 ≤ agg.dbp_over_80_rate)) :=
  ⟨notify_client_iff numStr risks anomaly agg, notify_doctor_iff numStr risks anomaly agg⟩

theorem decisionReasons_eq_applicable (numStr : α → String) (risks : Risks α)
    (anomaly : AnomalyResult α) (agg : Agg α) :
    decisionReasons numStr risks anomaly agg =
      ((causeTable numStr risks anomaly agg).filter (fun c => c.1)).map (fun c => c.2) := by
  unfold decisionReasons causeTable meanAtLeast
  cases anomaly.flag <;> by_cases h1 : (0.55 : α) ≤ risks.t2d.prob <;>
    by_cases h2 : (0.55 : α) ≤ risks.htn.prob <;>
    cases hs : (agg.metric .systolic_bp).mean <;>
    cases hd : (agg.metric .diastolic_bp).mean <;>
    simp [h1, h2, List.filter_cons] <;>
    split_ifs <;> simp

/-- The first character of every cause text is `A`, `E` or `R`. -/
theorem decisionReasons_head (numStr : α → String) (risks : Risks α)
    (anomaly : AnomalyResult α) (agg : Agg α) (c : String)
    (hc : c ∈ decisionReasons numStr risks anomaly agg) :
    c.data.head? = some 'A' ∨ c.data.head? = some 'E' ∨ c.data.head? = some 'R' := by
  rw [decisionReasons_eq_applicable] at hc
  simp only [causeTable, List.mem_map, List.mem_filter, List.mem_cons, List.mem_singleton,
    List.not_mem_nil, or_false] at hc
  obtain ⟨p, ⟨hp, -⟩, rfl⟩ := hc
  rcases hp with rfl | rfl | rfl | rfl | rfl
  · exact Or.inl rfl
  · exact Or.inr (Or.inl (by simp [String.data_append]))
  · exact Or.inr (Or.inl (by simp [String.data_append]))
  · exact Or.inr (Or.inr (by simp [String.data_append]))
  · exact Or.inr (Or.inl (by simp [String.data_append]))

theorem joined_head (l : List String) (hne : l ≠ [])
    (h : ∀ c ∈ l, c.data.head? = some 'A' ∨ c.data.head? = some 'E' ∨
      c.data.head? = some 'R') :
    (String.intercalate " + " (l.take 2)).data.head? = some 'A' ∨
    (String.intercalate " + " (l.take 2)).data.head? = some 'E' ∨
    (String.intercalate " + " (l.take 2)).data.head? = some 'R' := by
  match l, hne, h with
  | [x], _, h => exact h x (List.mem_singleton.2 rfl)
  | x :: y :: rest, _, h =>
    have hx := h x (List.mem_cons_self _ _)
    have e : String.intercalate " + " ((x :: y :: rest).take 2) = x ++ " + " ++ y := rfl
    rw [e]
    have hd : (x ++ " + " ++ y).data.head? = x.data.head? := by
      simp only [String.data_append]
      cases hxd : x.data with
      | nil => rw [hxd] at hx; simp at hx
      | cons a t => rfl
    rw [hd]
    exact hx

theorem reason_eq (numStr : α → String) (risks : Risks α)
    (anomaly : AnomalyResult α) (agg : Agg α) :
    (computeDecision numStr risks anomaly agg).reason =
      if String.intercalate " + " ((decisionReasons numStr risks anomaly agg).take 2) = ""
      then "Stable"
      else String.intercalate " + " ((decisionReasons numStr risks anomaly agg).take 2) := rfl

theorem reason_of_nil (numStr : α → String) (risks : Risks α)
    (anomaly : AnomalyResult α) (agg : Agg α)
    (h : decisionReasons numStr risks anomaly agg = []) :
    (computeDecision numStr risks anomaly agg).reason = "Stable" := by
  rw [reason_eq, h]
  rfl

theorem reason_of_ne_nil (numStr : α → String) (risks : Risks α)
    (anomaly : AnomalyResult α) (agg : Agg α)
    (h : decisionReasons numStr risks anomaly agg ≠ []) :
    (computeDecision numStr risks anomaly agg).reason =
      String.intercalate " + " ((decisionReasons numStr risks anomaly agg).take 2) ∧
    (computeDecision numStr risks anomaly agg).reason ≠ "Stable" := by
  have hh := joined_head _ h (decisionReasons_head numStr risks anomaly agg)
  have hne : String.intercalate " + " ((decisionReasons numStr risks anomaly agg).take 2)
      ≠ "" := by
    intro e
    rw [e] at hh
    simp at hh
  rw [reason_eq, if_neg hne]
  refine ⟨rfl, ?_⟩
  intro e
  rw [e] at hh
  revert hh
  decide

theorem decisionReasons_eq_nil_iff (numStr : α → String) (risks : Risks α)
    (anomaly : AnomalyResult α) (agg : Agg α) :
    decisionReasons numStr risks anomaly agg = [] ↔
      (anomaly.flag = false ∧ ¬ 0.55 ≤ risks.t2d.prob ∧ ¬ 0.55 ≤ risks.htn.prob ∧
        (∀ m, (agg.metric .systolic_bp).mean = some m → ¬ 130 ≤ m) ∧
        (∀ m, (agg.metric .diastolic_bp).mean = some m → ¬ 80 ≤ m)) := by
  unfold decisionReasons
  cases anomaly.flag <;> by_cases h1 : (0.55 : α) ≤ risks.t2d.prob <;>
    by_cases h2 : (0.55 : α) ≤ risks.htn.prob <;>
    cases hs : (agg.metric .systolic_bp).mean <;>
    cases hd : (agg.metric .diastolic_bp).mean <;>
    simp [h1, h2]

/-- C14: for every input, the reason of `computeDecision` is the reason as
the specification words it (the applicable causes in the fixed priority order
anomaly, T2D, HTN, mean SBP at least 130, mean DBP at least 80; the first two
joined by `" + "`; `"Stable"` when none applies); it is `"Stable"` if and
only if none of the five causes applies; and it never names more than two
causes. -/
theorem decision_reason_spec (numStr : α → String) (risks : Risks α)
    (anomaly : AnomalyResult α) (agg : Agg α) :
    (computeDecision numStr risks anomaly agg).reason = specReason numStr risks anomaly agg ∧
    ((computeDecision numStr risks anomaly agg).reason = "Stable" ↔
      (anomaly.flag = false ∧ ¬ 0.55 ≤ risks.t2d.prob ∧ ¬ 0.55 ≤ risks.htn.prob ∧
        (∀ m, (agg.metric .systolic_bp).mean = some m → ¬ 130 ≤ m) ∧
        (∀ m, (agg.metric .diastolic_bp).mean = some m → ¬ 80 ≤ m))) ∧
    ((((causeTable numStr risks anomaly agg).filter (fun c => c.1)).map
      (fun c => c.2)).take 2).length ≤ 2 := by
  refine ⟨?_, ?_, List.length_take_le _ _⟩
  · unfold specReason
    simp only [← decisionReasons_eq_applicable]
    by_cases h : decisionReasons numStr risks anomaly agg = []
    · rw [reason_of_nil numStr risks anomaly agg h, if_pos h]
    · rw [(reason_of_ne_nil numStr risks anomaly agg h).1, if_neg h]
  · rw [← decisionReasons_eq_nil_iff numStr]
    constructor
    · intro hr
      by_contra h
      exact (reason_of_ne_nil numStr risks anomaly agg h).2 hr
    · exact reason_of_nil numStr risks anomaly agg

/-! ## Anomaly flag and score -/

theorem anomaly_flag_iff (sqrtF tanhF : α → α) (arrays : Metric → List (Option α))
    (baselineDays : Int) :
    (anomalyFromBaseline sqrtF tanhF arrays baselineDays).flag = true ↔
      ((2 ≤ (anomalyFromBaseline sqrtF tanhF arrays baselineDays).dailyAnoms.length ∧
        ∃ a b,
          (anomalyFromBaseline sqrtF tanhF arrays baselineDays).dailyAnoms[
            (anomalyFromBaseline sqrtF tanhF arrays baselineDays).dailyAnoms.length - 1]?
              = some a ∧
          (anomalyFromBaseline sqrtF tanhF arrays baselineDays).dailyAnoms[
            (anomalyFromBaseline sqrtF tanhF arrays baselineDays).dailyAnoms.length - 2]?
              = some b ∧
          0.75 ≤ a ∧ 0.75 ≤ b) ∨
       ∃ a,
          (anomalyFromBaseline sqrtF tanhF arrays baselineDays).dailyAnoms[
            (anomalyFromBaseline sqrtF tanhF arrays baselineDays).dailyAnoms.length - 1]?
              = some a ∧ 0.9 ≤ a) := by
  rw [anomaly_flag_eq]
  generalize (anomalyFromBaseline sqrtF tanhF arrays baselineDays).dailyAnoms = d
  have h9 : ¬ (0.9 : α) ≤ 0 := by norm_num
  simp only [Bool.or_eq_true, Bool.and_eq_true, decide_eq_true_eq,
    List.getD_eq_getElem?_getD]
  rcases Nat.lt_or_ge d.length 1 with h0 | h1
  · have hd : d = [] := List.length_eq_zero.1 (by omega)
    subst hd
    simp [h9]
  · have hlt1 : d.length - 1 < d.length := by omega
    have hl1 : d[d.length - 1]? = some d[d.length - 1] := List.getElem?_eq_getElem hlt1
    have hne : d.length ≠ 0 := by omega
    rcases Nat.lt_or_ge d.length 2 with h2 | h2
    · have : ¬ 2 ≤ d.length := by omega
      simp [hl1, hne, this]
    · have hlt2 : d.length - 2 < d.length := by omega
      have hl2 : d[d.length - 2]? = some d[d.length - 2] := List.getElem?_eq_getElem hlt2
      simp [hl1, hl2, hne, h2]

theorem anomaly_empty (sqrtF tanhF : α → α) (arrays : Metric → List (Option α))
    (baselineDays : Int) (h0 : (arrays .resting_hr).length = 0) :
    (anomalyFromBaseline sqrtF tanhF arrays baselineDays).score = 0 ∧
    (anomalyFromBaseline sqrtF tanhF arrays baselineDays).flag = false := by
  have hd : (anomalyFromBaseline sqrtF tanhF arrays baselineDays).dailyAnoms = [] := by
    rw [anomaly_dailyAnoms_eq, h0]
    rfl
  have h9 : ¬ (0.9 : α) ≤ 0 := by norm_num
  constructor
  · rw [anomaly_score_eq, hd]
    simp [round2_zero]
  · rw [anomaly_flag_eq, hd]
    simp [h9]

/-- C15: for every input to `anomalyFromBaseline`, the flag is true if and
only if the daily scores have at least two entries whose last two are both at
least 0.75, or the last entry is at least 0.9; for an empty window the score
is `0` and the flag is false. -/
theorem anomaly_flag_spec (sqrtF tanhF : α → α) (arrays : Metric → List (Option α))
    (baselineDays : Int) :
    ((anomalyFromBaseline sqrtF tanhF arrays baselineDays).flag = true ↔
      ((2 ≤ (anomalyFromBaseline sqrtF tanhF arrays baselineDays).dailyAnoms.length ∧
        ∃ a b,
          (anomalyFromBaseline sqrtF tanhF arrays baselineDays).dailyAnoms[
            (anomalyFromBaseline sqrtF tanhF arrays baselineDays).dailyAnoms.length - 1]?
              = some a ∧
          (anomalyFromBaseline sqrtF tanhF arrays baselineDays).dailyAnoms[
            (anomalyFromBaseline sqrtF tanhF arrays baselineDays).dailyAnoms.length - 2]?
              = some b ∧
          0.75 ≤ a ∧ 0.75 ≤ b) ∨
       ∃ a,
          (anomalyFromBaseline sqrtF tanhF arrays baselineDays).dailyAnoms[
            (anomalyFromBaseline sqrtF tanhF arrays baselineDays).dailyAnoms.length - 1]?
              = some a ∧ 0.9 ≤ a)) ∧
    ((arrays .resting_hr).length = 0 →
      (anomalyFromBaseline sqrtF tanhF arrays baselineDays).score = 0 ∧
      (anomalyFromBaseline sqrtF tanhF arrays baselineDays).flag = false) :=
  ⟨anomaly_flag_iff sqrtF tanhF arrays baselineDays,
    anomaly_empty sqrtF tanhF arrays baselineDays⟩

/-- Witness of C15: the empty window. -/
theorem anomaly_flag_spec_witness :
    (anomalyFromBaseline id id (fun _ => ([] : List (Option ℚ))) 7).score = 0 ∧
    (anomalyFromBaseline id id (fun _ => ([] : List (Option ℚ))) 7).flag = false :=
  (anomaly_flag_spec id id (fun _ => ([] : List (Option ℚ))) 7).2 rfl

theorem anomaly_score_round2 (sqrtF tanhF : α → α) (arrays : Metric → List (Option α))
    (baselineDays : Int) (hne : (arrays .resting_hr).length ≠ 0) :
    ∃ a, (anomalyFromBaseline sqrtF tanhF arrays baselineDays).dailyAnoms[
        (arrays .resting_hr).length - 1]? = some a ∧
      (anomalyFromBaseline sqrtF tanhF arrays baselineDays).score = round2 a := by
  have hl : (anomalyFromBaseline sqrtF tanhF arrays baselineDays).dailyAnoms.length =
      (arrays .resting_hr).length := by
    rw [anomaly_dailyAnoms_eq]
    simp
  have hg := anomaly_dailyAnoms_get sqrtF tanhF arrays baselineDays
    ((arrays .resting_hr).length - 1) (by omega)
  refine ⟨_, hg, ?_⟩
  rw [anomaly_score_eq, hl, if_pos hne, List.getD_eq_getElem?_getD, hg]
  rfl

theorem znormOfDay_single (arrays : Metric → List (Option ℝ))
    (baselines : Metric → Option ℝ × ℝ) (i : Nat) (m s v : ℝ)
    (hb : baselines .resting_hr = (some m, s))
    (hv : (arrays .resting_hr)[i]? = some (some v))
    (hmiss : ∀ k ∈ [Metric.systolic_bp, Metric.sleep_hours, Metric.steps, Metric.weight_kg],
      (arrays k)[i]?.join = none) :
    znormOfDay arrays baselines i = min |(v - m) / s| 4 := by
  have hj : (arrays .resting_hr)[i]?.join = some v := by rw [hv]; rfl
  have hstep : dayAccum arrays baselines i anomalyKeys (0, 0) =
      dayAccum arrays baselines i
        [Metric.systolic_bp, Metric.sleep_hours, Metric.steps, Metric.weight_kg]
        (0 + min |(v - m) / s| 4, 0 + 1) := by
    unfold anomalyKeys
    rw [dayAccum]
    simp only [hj, hb]
  unfold znormOfDay
  rw [hstep, dayAccum_skip arrays baselines i _ _ (fun k hk => Or.inl (hmiss k hk))]
  norm_num

theorem tanh_small : 0 < Real.tanh (1 / 250) ∧ Real.tanh (1 / 250) < 1 / 200 := by
  have hpos : (0 : ℝ) < Real.exp (-(1 / 250)) := Real.exp_pos _
  have hlt : Real.exp (-(1 / 250)) < Real.exp (1 / 250) :=
    Real.exp_lt_exp.2 (by norm_num)
  have h1 : (1 - 1 / 125 : ℝ) ≤ Real.exp (-(1 / 125)) := by
    have := Real.add_one_le_exp (-(1 / 125) : ℝ)
    linarith
  have h2 : Real.exp (-(1 / 250)) = Real.exp (1 / 250) * Real.exp (-(1 / 125)) := by
    rw [← Real.exp_add]
    norm_num
  have h3 : (1 - 1 / 125 : ℝ) * Real.exp (1 / 250) ≤ Real.exp (-(1 / 250)) := by
    rw [h2]
    have := Real.exp_pos (1 / 250 : ℝ)
    nlinarith
  rw [Real.tanh_eq_sinh_div_cosh, Real.sinh_eq, Real.cosh_eq]
  constructor
  · apply div_pos <;> linarith
  · rw [div_lt_iff₀ (by linarith)]
    linarith

theorem round2_eq_zero_of_small {x : ℝ} (h0 : 0 ≤ x) (h1 : x < 1 / 200) : round2 x = 0 := by
  unfold round2 mathRound
  have : ⌊x * 100 + 1 / 2⌋ = 0 := by
    rw [Int.floor_eq_iff]
    constructor <;> norm_num <;> linarith
  rw [this]
  simp

/-- Counterexample to C16 as stated: with a resting heart rate of 65 for
seven days and 65.00000001 on the eighth, the last daily score is
`tanh(0.004) > 0` while the returned score is its rounding `0`. -/
theorem anomaly_score_ne_last :
    ∃ a : ℝ, (anomalyFromBaseline Real.sqrt Real.tanh scenarioDriftArrays 7).dailyAnoms[7]?
        = some a ∧
      (anomalyFromBaseline Real.sqrt Real.tanh scenarioDriftArrays 7).score = 0 ∧
      0 < a ∧
      (anomalyFromBaseline Real.sqrt Real.tanh scenarioDriftArrays 7).score ≠ a := by
  have hb : baselineOf Real.sqrt (scenarioDriftArrays .resting_hr) 7 8 = (some 65, 1e-6) :=
    baselineOf_const_prefix (scenarioDriftArrays .resting_hr) 65 7 (by decide) 8 (by decide)
      (by intro i hi; interval_cases i <;> rfl)
  have hz := znormOfDay_single scenarioDriftArrays
    (fun k => baselineOf Real.sqrt (scenarioDriftArrays k) 7 8) 7 65 1e-6 65.00000001 hb rfl
    (by
      intro k hk
      simp only [List.mem_cons, List.mem_singleton, List.not_mem_nil, or_false] at hk
      rcases hk with rfl | rfl | rfl | rfl <;> rfl)
  have hzv : min |((65.00000001 : ℝ) - 65) / 1e-6| 4 = 1 / 100 := by
    have : ((65.00000001 : ℝ) - 65) / 1e-6 = 1 / 100 := by norm_num
    rw [this, abs_of_nonneg (by norm_num)]
    exact min_eq_left (by norm_num)
  rw [hzv] at hz
  have hg := anomaly_dailyAnoms_get Real.sqrt Real.tanh scenarioDriftArrays 7 7
    (by simp [scenarioDriftArrays])
  have hlen : (scenarioDriftArrays Metric.resting_hr : List (Option ℝ)).length = 8 := by
    simp [scenarioDriftArrays]
  rw [hlen, hz] at hg
  have harg : (1 / 100 : ℝ) / 2.5 = 1 / 250 := by norm_num
  rw [harg] at hg
  obtain ⟨tp, tl⟩ := tanh_small
  have hc : clamp (Real.tanh (1 / 250)) 0 1 = Real.tanh (1 / 250) :=
    clamp_of_mem tp.le (by linarith)
  rw [hc] at hg
  obtain ⟨a, ha, hs⟩ := anomaly_score_round2 Real.sqrt Real.tanh scenarioDriftArrays 7
    (by rw [hlen]; decide)
  rw [hlen] at ha
  have hat : a = Real.tanh (1 / 250) := by
    have := ha.symm.trans hg
    exact Option.some.inj this
  have hs0 : (anomalyFromBaseline Real.sqrt Real.tanh scenarioDriftArrays 7).score = 0 := by
    rw [hs, hat]
    exact round2_eq_zero_of_small tp.le tl
  refine ⟨_, hg, hs0, tp, ?_⟩
  rw [hs0]
  exact tp.ne

/-- C16 (amended): for every non-empty window, the score returned by
`anomalyFromBaseline` is the last entry of the daily score sequence rounded to
two decimals (`score = round2(dailyAnoms[N−1])`). -/
theorem anomaly_score_is_rounded_last (sqrtF tanhF : α → α)
    (arrays : Metric → List (Option α)) (baselineDays : Int)
    (hne : (arrays .resting_hr).length ≠ 0) :
    ∃ a, (anomalyFromBaseline sqrtF tanhF arrays baselineDays).dailyAnoms[
        (arrays .resting_hr).length - 1]? = some a ∧
      (anomalyFromBaseline sqrtF tanhF arrays baselineDays).score = round2 a :=
  anomaly_score_round2 sqrtF tanhF arrays baselineDays hne

/-- Witness of the amended C16: the window of scenario B. -/
theorem anomaly_score_is_rounded_last_witness :
    ∃ a : ℝ, (anomalyFromBaseline Real.sqrt Real.tanh scenarioBArrays 7).dailyAnoms[
        (scenarioBArrays Metric.resting_hr : List (Option ℝ)).length - 1]? = some a ∧
      (anomalyFromBaseline Real.sqrt Real.tanh scenarioBArrays 7).score = round2 a :=
  anomaly_score_is_rounded_last Real.sqrt Real.tanh scenarioBArrays 7
    (by simp [scenarioBArrays])

/-! ## Coercion of missing values -/

theorem filterNum_eraseIdx_none (l : List (Option α)) (i : Nat) (h : l[i]? = some none) :
    filterNum (l.eraseIdx i) = filterNum l := by
  induction l generalizing i with
  | nil => simp at h
  | cons x l ih =>
    cases i with
    | zero =>
      simp only [List.getElem?_cons_zero, Option.some.injEq] at h
      subst h
      simp [filterNum]
    | succ i =>
      simp only [List.getElem?_cons_succ] at h
      have := ih i h
      simp only [filterNum] at this ⊢
      cases x <;> simp [List.eraseIdx_cons_succ, this]

theorem daySlot_of_ne_bmi (strNum : String → Option α) (h : Option α) (d : DailyRecord α)
    (k : Metric) (hk : k ≠ Metric.bmi) :
    daySlot strNum h d k = toNumberOrNull strNum (d.field k) := by
  cases k <;> first | rfl | exact absurd rfl hk

theorem engineerFeatures_arrays_get (strNum : String → Option α) (sqrtF : α → α)
    (days : List (DailyRecord α)) (demographics : Demographics α) (k : Metric)
    (i : Nat) (d : DailyRecord α) (hd : days[i]? = some d) :
    ((engineerFeatures strNum sqrtF days demographics).arrays k)[i]? =
      some (daySlot strNum (toNumberOrNull strNum demographics.height_cm) d k) := by
  show (days.map _)[i]? = _
  rw [List.getElem?_map, hd]
  rfl

/-- C17 (amended): for every daily record and every tracked metric other
than `bmi`, if the field is absent (`undefined`), `NaN`, `±Infinity`, or a
string whose `Number(...)` is not finite, then `engineerFeatures` puts `null`
in that day's slot of the metric's series, so the day is not counted as valid
and is excluded from the mean. -/
theorem missing_field_slot (strNum : String → Option α) (sqrtF : α → α)
    (days : List (DailyRecord α)) (demographics : Demographics α)
    (i : Nat) (d : DailyRecord α) (k : Metric)
    (hd : days[i]? = some d) (hk : k ≠ Metric.bmi)
    (hv : d.field k = .undefined ∨ d.field k = .nan ∨ d.field k = .posInf ∨
      d.field k = .negInf ∨ ∃ s, d.field k = .str s ∧ strNum s = none) :
    ((engineerFeatures strNum sqrtF days demographics).arrays k)[i]? = some none ∧
    countValid ((engineerFeatures strNum sqrtF days demographics).arrays k) =
      countValid (((engineerFeatures strNum sqrtF days demographics).arrays k).eraseIdx i) ∧
    mean ((engineerFeatures strNum sqrtF days demographics).arrays k) =
      mean (((engineerFeatures strNum sqrtF days demographics).arrays k).eraseIdx i) := by
  have hslot : ((engineerFeatures strNum sqrtF days demographics).arrays k)[i]? = some none := by
    rw [engineerFeatures_arrays_get strNum sqrtF days demographics k i d hd,
      daySlot_of_ne_bmi _ _ _ _ hk]
    rcases hv with h | h | h | h | ⟨s, h, hs⟩
    · rw [h]; rfl
    · rw [h]; rfl
    · rw [h]; rfl
    · rw [h]; rfl
    · rw [h]
      exact congrArg some hs
  have hf := filterNum_eraseIdx_none _ i hslot
  refine ⟨hslot, ?_, ?_⟩
  · unfold countValid
    rw [hf]
  · unfold mean
    rw [hf]

/-- Witness of the amended C17: a day whose `steps` is the string `"n/a"`. -/
theorem missing_field_slot_witness :
    ((engineerFeatures (fun _ => none) id
        [({ steps := .str "n/a", weight_kg := .num 70 } : DailyRecord ℚ)]
        { }).arrays .steps)[0]? = some none ∧
    countValid ((engineerFeatures (fun _ => none) id
        [({ steps := .str "n/a", weight_kg := .num 70 } : DailyRecord ℚ)]
        { }).arrays .steps) =
      countValid (((engineerFeatures (fun _ => none) id
        [({ steps := .str "n/a", weight_kg := .num 70 } : DailyRecord ℚ)]
        { }).arrays .steps).eraseIdx 0) ∧
    mean ((engineerFeatures (fun _ => none) id
        [({ steps := .str "n/a", weight_kg := .num 70 } : DailyRecord ℚ)]
        { }).arrays .steps) =
      mean (((engineerFeatures (fun _ => none) id
        [({ steps := .str "n/a", weight_kg := .num 70 } : DailyRecord ℚ)]
        { }).arrays .steps).eraseIdx 0) :=
  missing_field_slot (fun _ => none) id _ _ 0 _ Metric.steps rfl (by decide)
    (Or.inr (Or.inr (Or.inr (Or.inr ⟨"n/a", rfl, rfl⟩))))

/-- Counterexample to C17 as stated: a `null` field is coerced to `0`
(`Number(null)` is `0`), and an absent `bmi` field gets the BMI derived from
weight and height. -/
theorem missing_field_counter :
    ({ systolic_bp := .null, weight_kg := .num 70 } : DailyRecord ℚ).field .systolic_bp
      = .null ∧
    ({ systolic_bp := .null, weight_kg := .num 70 } : DailyRecord ℚ).field .bmi
      = .undefined ∧
    (engineerFeatures (fun _ => none) id
        [({ systolic_bp := .null, weight_kg := .num 70 } : DailyRecord ℚ)]
        { height_cm := .num 170 }).arrays .systolic_bp = [some 0] ∧
    (engineerFeatures (fun _ => none) id
        [({ systolic_bp := .null, weight_kg := .num 70 } : DailyRecord ℚ)]
        { height_cm := .num 170 }).arrays .bmi = [some (7000 / 289)] := by
  refine ⟨rfl, rfl, rfl, ?_⟩
  show [daySlot _ _ _ Metric.bmi] = _
  norm_num [daySlot, JsVal.isNum, toNumberOrNull, computeBMI]

/-- C18 (the code at the failing input): a `null` age is cleaned to `0`, not
to `null`, so the risk models score with age `0` instead of the default 40:
the age contribution is `0.02·(0−45)` in T2D and `0.02·(0−40)` in HTN. -/
theorem null_age_coerced (strNum : String → Option α) (sqrtF expF : α → α)
    (days : List (DailyRecord α)) (demographics : Demographics α) :
    (engineerFeatures strNum sqrtF days { demographics with age := .null }).demographics.age
      = some 0 ∧
    ("age", 0.02 * ((0 : α) - 45)) ∈
      (riskT2D expF (engineerFeatures strNum sqrtF days { demographics with age := .null }).agg
        (engineerFeatures strNum sqrtF days
          { demographics with age := .null }).demographics).contrib ∧
    ("age", 0.02 * ((0 : α) - 40)) ∈
      (riskHTN expF (engineerFeatures strNum sqrtF days { demographics with age := .null }).agg
        (engineerFeatures strNum sqrtF days
          { demographics with age := .null }).demographics).contrib := by
  have h : (engineerFeatures strNum sqrtF days
      { demographics with age := .null }).demographics.age = some 0 := rfl
  refine ⟨h, ?_, ?_⟩
  · unfold riskT2D
    rw [h]
    exact List.mem_cons_self _ _
  · unfold riskHTN
    rw [h]
    exact List.mem_cons_self _ _

/-- C19: for every daily record and demographics, the day's slot in the bmi
series is the record's own `bmi` if it is a finite number; otherwise
`weight_kg / (height_cm/100)²` if the coerced weight and the coerced height
are both finite and the height is positive; otherwise `null`. -/
theorem bmi_slot_spec (strNum : String → Option α) (sqrtF : α → α)
    (days : List (DailyRecord α)) (demographics : Demographics α)
    (i : Nat) (d : DailyRecord α) (hd : days[i]? = some d) :
    ((engineerFeatures strNum sqrtF days demographics).arrays .bmi)[i]? =
      some (bmiSlotSpec strNum d demographics) := by
  rw [engineerFeatures_arrays_get strNum sqrtF days demographics _ i d hd]
  congr 1
  unfold bmiSlotSpec
  show (if d.bmi.isNum then toNumberOrNull strNum d.bmi else computeBMI _ _) = _
  generalize toNumberOrNull strNum d.weight_kg = w
  generalize toNumberOrNull strNum demographics.height_cm = h
  cases hb : d.bmi <;> cases w <;> cases h <;>
    simp only [JsVal.isNum, toNumberOrNull, computeBMI, pow_two, if_true, Bool.false_eq_true,
      if_false] <;>
    split_ifs with h1 h2 h2 <;>
    first | rfl | exact absurd h2 (not_lt.2 h1) | exact absurd (lt_of_not_le h1) h2

/-- Witness of C19: a day with weight 70 and height 170. -/
theorem bmi_slot_spec_witness :
    ((engineerFeatures (fun _ => none) id
        [({ weight_kg := .num 70 } : DailyRecord ℚ)] { height_cm := .num 170 }).arrays
          .bmi)[0]? =
      some (bmiSlotSpec (fun _ => none) ({ weight_kg := .num 70 } : DailyRecord ℚ)
        { height_cm := .num 170 }) :=
  bmi_slot_spec (fun _ => none) id _ _ 0 _ rfl

/-! ## Default BMI of the risk models -/

/-- C20 (amended): when `bmi_mean` is missing, both `riskT2D` and `riskHTN`
score with BMI 26, so the HTN bmi contribution is `0.2·(26−25)/5`. -/
theorem risk_default_bmi (expF : α → α) (agg : Agg α) (demographics : CleanDemo α)
    (hmiss : (agg.metric .bmi).mean = none) :
    riskT2D expF agg demographics = riskT2D expF (withBmiMean agg 26) demographics ∧
    riskHTN expF agg demographics = riskHTN expF (withBmiMean agg 26) demographics ∧
    ("bmi", 0.2 * (((26 : α) - 25) / 5)) ∈ (riskHTN expF agg demographics).contrib := by
  refine ⟨?_, ?_, ?_⟩
  · simp [riskT2D, withBmiMean, hmiss]
  · simp [riskHTN, withBmiMean, hmiss]
  · simp [riskHTN, hmiss]

/-- Witness of the amended C20: the aggregate object with every mean
missing. -/
theorem risk_default_bmi_witness :
    riskT2D id (allMissingAgg : Agg ℚ) ⟨none, "", false, none⟩ =
      riskT2D id (withBmiMean allMissingAgg 26) ⟨none, "", false, none⟩ ∧
    riskHTN id (allMissingAgg : Agg ℚ) ⟨none, "", false, none⟩ =
      riskHTN id (withBmiMean allMissingAgg 26) ⟨none, "", false, none⟩ ∧
    ("bmi", 0.2 * (((26 : ℚ) - 25) / 5)) ∈
      (riskHTN id (allMissingAgg : Agg ℚ) ⟨none, "", false, none⟩).contrib :=
  risk_default_bmi id allMissingAgg ⟨none, "", false, none⟩ rfl

/-- Counterexample to C20 as stated: with `bmi_mean` missing the HTN bmi
contribution is `0.04`, not `0`; `riskHTN` does not score as with BMI 25. -/
theorem htn_default_bmi_not_25 :
    ((allMissingAgg : Agg ℝ).metric .bmi).mean = none ∧
    (riskHTN Real.exp (allMissingAgg : Agg ℝ) ⟨none, "", false, none⟩).contrib[4]?
      = some ("bmi", 1 / 25) ∧
    (riskHTN Real.exp (withBmiMean (allMissingAgg : Agg ℝ) 25)
      ⟨none, "", false, none⟩).contrib[4]? = some ("bmi", 0) ∧
    riskHTN Real.exp (allMissingAgg : Agg ℝ) ⟨none, "", false, none⟩ ≠
      riskHTN Real.exp (withBmiMean (allMissingAgg : Agg ℝ) 25) ⟨none, "", false, none⟩ := by
  have h1 : (riskHTN Real.exp (allMissingAgg : Agg ℝ)
      ⟨none, "", false, none⟩).contrib[4]? = some ("bmi", 1 / 25) := by
    simp only [riskHTN, allMissingAgg, Option.getD_none]
    norm_num
  have h2 : (riskHTN Real.exp (withBmiMean (allMissingAgg : Agg ℝ) 25)
      ⟨none, "", false, none⟩).contrib[4]? = some ("bmi", 0) := by
    simp only [riskHTN, allMissingAgg, withBmiMean, Option.getD_none]
    norm_num
  refine ⟨rfl, h1, h2, ?_⟩
  intro h
  rw [h, h2] at h1
  norm_num at h1

/-! ## Scenario C: the reason text -/

theorem jsNumStr_hundredths (k : ℤ) : jsNumStr ((k : α) / 100) = renderHundredths k := by
  unfold jsNumStr
  rw [div_mul_cancel₀ _ (by norm_num : (100 : α) ≠ 0), Int.floor_intCast]

theorem round2_eq_of_mem {x : α} (k : ℤ) (h1 : (k : α) / 100 - 1 / 200 ≤ x)
    (h2 : x < (k : α) / 100 + 1 / 200) : round2 x = (k : α) / 100 := by
  unfold round2 mathRound
  have : ⌊x * 100 + 1 / 2⌋ = k := by
    rw [Int.floor_eq_iff]
    constructor <;> linarith
  rw [this]

theorem round1_intCast (k : ℤ) : round1 (k : α) = (k : α) := by
  unfold round1
  have : (k : α) * 10 = ((k * 10 : ℤ) : α) := by push_cast; ring
  rw [this, mathRound_intCast]
  push_cast
  field_simp

theorem sigmoid_51_200 :
    (111 / 200 : ℝ) ≤ sigmoid Real.exp (51 / 200) ∧ sigmoid Real.exp (51 / 200) < 113 / 200 := by
  have hpos : (0 : ℝ) < Real.exp (-(51 / 200)) := Real.exp_pos _
  -- upper bound on exp(-z)
  have hup : Real.exp (-(51 / 200)) ≤ (200 / 251 : ℝ) := by
    rw [Real.exp_neg]
    have h := Real.add_one_le_exp (51 / 200 : ℝ)
    rw [inv_le_comm₀ (Real.exp_pos _) (by norm_num)]
    norm_num at h ⊢
    linarith
  -- lower bound on exp(-z) through the eighth power
  have hlow : (77 / 100 : ℝ) < Real.exp (-(51 / 200)) := by
    have e : (-(51 / 200) : ℝ) = (8 : ℕ) * (-(51 / 1600)) := by norm_num
    rw [e, Real.exp_nat_mul]
    have h := Real.add_one_le_exp (-(51 / 1600) : ℝ)
    have hb : (1549 / 1600 : ℝ) ≤ Real.exp (-(51 / 1600)) := by linarith
    have hp : (1549 / 1600 : ℝ) ^ 8 ≤ Real.exp (-(51 / 1600)) ^ 8 :=
      pow_le_pow_left₀ (by norm_num) hb 8
    have hn : (77 / 100 : ℝ) < (1549 / 1600 : ℝ) ^ 8 := by norm_num
    linarith
  unfold sigmoid
  constructor
  · rw [le_div_iff₀ (by linarith)]
    linarith
  · rw [div_lt_iff₀ (by linarith)]
    linarith

theorem slopePerDay_replicate (n : Nat) (x : Option α) :
    slopePerDay (List.replicate n x) = 0 := by
  apply slopePerDay_eq_zero_of_const _ (x.getD 0)
  intro y hy
  rw [← List.eq_of_mem_replicate hy]
  rfl

theorem aggregate_replicate_some (sqrtF : α → α) (n N : Nat) (c : α) (hn : n ≠ 0) :
    (aggregate sqrtF (List.replicate n (some c)) N).mean = some c ∧
    (aggregate sqrtF (List.replicate n (some c)) N).trend_per_week = some 0 := by
  constructor
  · exact mean_replicate_some n c hn
  · show some (slopePerDay (List.replicate n (some c)) * 7) = some 0
    rw [slopePerDay_replicate, zero_mul]

theorem aggregate_replicate_none (sqrtF : α → α) (n N : Nat) :
    (aggregate sqrtF (List.replicate n (none : Option α)) N).mean = none ∧
    (aggregate sqrtF (List.replicate n (none : Option α)) N).trend_per_week = some 0 := by
  constructor
  · exact mean_replicate_none n
  · show some (slopePerDay (List.replicate n (none : Option α)) * 7) = some 0
    rw [slopePerDay_replicate, zero_mul]

/-- A window in which every anomaly metric is constant or entirely missing
scores `0` on its last day and raises no flag. -/
theorem anomaly_const_or_missing (arrays : Metric → List (Option ℝ)) (N : Nat) (hN : 7 ≤ N)
    (hlen : (arrays .resting_hr).length = N)
    (hconst : ∀ k ∈ anomalyKeys, ∃ x : Option ℝ, arrays k = List.replicate N x) :
    (anomalyFromBaseline Real.sqrt Real.tanh arrays 7).score = 0 ∧
    (anomalyFromBaseline Real.sqrt Real.tanh arrays 7).flag = false := by
  have hz : ∀ i, znormOfDay arrays (fun k => baselineOf Real.sqrt (arrays k) 7 N) i = 0 := by
    intro i
    apply znormOfDay_eq_zero
    intro k hk v m hv hm
    obtain ⟨x, hc⟩ := hconst k hk
    cases x with
    | none =>
      rw [hc, List.getElem?_replicate] at hv
      split_ifs at hv <;> simp [Option.join] at hv
    | some c =>
      have hb : baselineOf Real.sqrt (arrays k) 7 N = (some c, 1e-6) := by
        apply baselineOf_const_prefix (arrays k) c 7 (by decide) N hN
        intro j hj
        rw [hc, List.getElem?_replicate, if_pos (by omega)]
      simp only [hb] at hm
      rw [hc, List.getElem?_replicate] at hv
      split_ifs at hv
      · simp only [Option.join, Option.some_bind, id, Option.some.injEq] at hv hm
        rw [← hv, ← hm]
      · simp [Option.join] at hv
  have hd : ∀ i, i < N →
      (anomalyFromBaseline Real.sqrt Real.tanh arrays 7).dailyAnoms[i]? = some 0 := by
    intro i hi
    rw [anomaly_dailyAnoms_get _ _ _ _ _ (by rw [hlen]; exact hi), hlen, hz]
    simp [clamp, Real.tanh_zero]
  have hl : (anomalyFromBaseline Real.sqrt Real.tanh arrays 7).dailyAnoms.length = N := by
    rw [anomaly_dailyAnoms_eq]
    simp [hlen]
  constructor
  · rw [anomaly_score_eq, hl, List.getD_eq_getElem?_getD, hd (N - 1) (by omega)]
    simp [round2_zero]
  · rw [anomaly_flag_eq, hl, List.getD_eq_getElem?_getD, List.getD_eq_getElem?_getD,
      hd (N - 1) (by omega), hd (N - 2) (by omega)]
    norm_num

theorem risk_prob_of_z {z : ℝ} (hz : z = 51 / 200) :
    round2 (clamp (sigmoid Real.exp z) 0.01 0.99) = 0.56 := by
  obtain ⟨h1, h2⟩ := sigmoid_51_200
  rw [hz, clamp_of_mem (by norm_num; linarith) (by norm_num; linarith)]
  have := round2_eq_of_mem (x := sigmoid Real.exp (51 / 200)) 56
    (by norm_num; linarith) (by norm_num; linarith)
  rw [this]
  norm_num

/-- The reason when the flag is off, the T2D risk is low, the HTN risk is
elevated and the mean SBP is at least 130. -/
theorem reason_htn_sbp (numStr : α → String) (risks : Risks α)
    (anomaly : AnomalyResult α) (agg : Agg α) (m : α)
    (hflag : anomaly.flag = false) (ht : risks.t2d.prob < 0.55)
    (hh : 0.55 ≤ risks.htn.prob)
    (hs : (agg.metric .systolic_bp).mean = some m) (hm : 130 ≤ m) :
    (computeDecision numStr risks anomaly agg).reason =
      "Elevated HTN risk (" ++ numStr risks.htn.prob ++ ")" ++ " + " ++
        ("Rising BP trend / high mean SBP (" ++ numStr (round1 m) ++ " mmHg)") := by
  have hr : (decisionReasons numStr risks anomaly agg).take 2 =
      ["Elevated HTN risk (" ++ numStr risks.htn.prob ++ ")",
       "Rising BP trend / high mean SBP (" ++ numStr (round1 m) ++ " mmHg)"] := by
    unfold decisionReasons
    rw [hflag, if_neg (not_le.2 ht), if_pos hh, hs]
    simp [hm]
  have hne : decisionReasons numStr risks anomaly agg ≠ [] := by
    intro h
    rw [h] at hr
    simp at hr
  rw [(reason_of_ne_nil numStr risks anomaly agg hne).1, hr]
  rfl

theorem scenarioC_slots (strNum : String → Option ℝ) (k : Metric) :
    daySlot strNum none scenarioCDay k =
      if k = Metric.systolic_bp then some 150 else none := by
  cases k <;> rfl

theorem scenarioC_agg (strNum : String → Option ℝ) (k : Metric) :
    ((engineerFeatures strNum Real.sqrt (List.replicate 14 scenarioCDay) { }).agg.metric
        k).mean = (if k = Metric.systolic_bp then some 150 else none) ∧
    ((engineerFeatures strNum Real.sqrt (List.replicate 14 scenarioCDay) { }).agg.metric
        k).trend_per_week = some 0 := by
  have harr : (engineerFeatures strNum Real.sqrt (List.replicate 14 scenarioCDay)
      { }).arrays k = List.replicate 14 (if k = Metric.systolic_bp then some 150 else none) := by
    rw [engineerFeatures_arrays_replicate]
    exact congrArg _ (scenarioC_slots strNum k)
  rw [engineerFeatures_metric, harr, List.length_replicate]
  by_cases hk : k = Metric.systolic_bp
  · simp only [hk, if_true]
    exact aggregate_replicate_some Real.sqrt 14 14 150 (by decide)
  · simp only [hk, if_false]
    exact aggregate_replicate_none Real.sqrt 14 14

theorem scenarioC_reason (strNum : String → Option ℝ)
    (window_start window_end : Option String) :
    ∃ r, predict strNum Real.sqrt Real.exp Real.tanh jsNumStr
        (List.replicate 14 scenarioCDay) { } window_start window_end = .ok r ∧
      r.decision.reason =
        "Elevated HTN risk (0.56) + Rising BP trend / high mean SBP (150 mmHg)" := by
  have harr : ∀ k, (engineerFeatures strNum Real.sqrt (List.replicate 14 scenarioCDay)
      { }).arrays k = List.replicate 14 (if k = Metric.systolic_bp then some 150 else none) := by
    intro k
    rw [engineerFeatures_arrays_replicate]
    exact congrArg _ (scenarioC_slots strNum k)
  have hanom := anomaly_const_or_missing
    (engineerFeatures strNum Real.sqrt (List.replicate 14 scenarioCDay) { }).arrays
    14 (by decide) (by rw [harr]; simp) (fun k _ => ⟨_, harr k⟩)
  have hage : (engineerFeatures strNum Real.sqrt (List.replicate 14 scenarioCDay)
      { }).demographics.age = none := rfl
  have hsmoker : (engineerFeatures strNum Real.sqrt (List.replicate 14 scenarioCDay)
      { }).demographics.smoker = false := rfl
  have hmean : ∀ k, k ≠ Metric.systolic_bp →
      ((engineerFeatures strNum Real.sqrt (List.replicate 14 scenarioCDay) { }).agg.metric
        k).mean = none := by
    intro k hk
    rw [(scenarioC_agg strNum k).1, if_neg hk]
  have hsbp : ((engineerFeatures strNum Real.sqrt (List.replicate 14 scenarioCDay)
      { }).agg.metric .systolic_bp).mean = some 150 := by
    rw [(scenarioC_agg strNum _).1, if_pos rfl]
  have ht : (riskT2D Real.exp
      (engineerFeatures strNum Real.sqrt (List.replicate 14 scenarioCDay) { }).agg
      (engineerFeatures strNum Real.sqrt (List.replicate 14 scenarioCDay)
        { }).demographics).prob ≤ 1 / 2 := by
    apply risk_prob_le_half
    rw [hage, hmean Metric.bmi (by decide), hmean Metric.steps (by decide),
      hmean Metric.diet_score (by decide), hmean Metric.sleep_hours (by decide),
      hmean Metric.stress (by decide), (scenarioC_agg strNum Metric.weight_kg).2]
    norm_num [clamp]
  have hh : (riskHTN Real.exp
      (engineerFeatures strNum Real.sqrt (List.replicate 14 scenarioCDay) { }).agg
      (engineerFeatures strNum Real.sqrt (List.replicate 14 scenarioCDay)
        { }).demographics).prob = 0.56 := by
    apply risk_prob_of_z
    rw [hage, hsmoker, hmean Metric.bmi (by decide), hsbp,
      (scenarioC_agg strNum Metric.systolic_bp).2, hmean Metric.resting_hr (by decide),
      hmean Metric.stress (by decide), hmean Metric.activity_minutes (by decide)]
    norm_num
  have hlen : ¬ (List.replicate 14 (scenarioCDay : DailyRecord ℝ)).length < 14 := by simp
  have hreason := reason_htn_sbp jsNumStr
    { t2d :=
        { prob := (riskT2D Real.exp
            (engineerFeatures strNum Real.sqrt (List.replicate 14 scenarioCDay) { }).agg
            (engineerFeatures strNum Real.sqrt (List.replicate 14 scenarioCDay)
              { }).demographics).prob
          ci90 := ci90 (riskT2D Real.exp
            (engineerFeatures strNum Real.sqrt (List.replicate 14 scenarioCDay) { }).agg
            (engineerFeatures strNum Real.sqrt (List.replicate 14 scenarioCDay)
              { }).demographics).prob
            (engineerFeatures strNum Real.sqrt (List.replicate 14 scenarioCDay)
              { }).agg.global_missing_frac }
      htn :=
        { prob := (riskHTN Real.exp
            (engineerFeatures strNum Real.sqrt (List.replicate 14 scenarioCDay) { }).agg
            (engineerFeatures strNum Real.sqrt (List.replicate 14 scenarioCDay)
              { }).demographics).prob
          ci90 := ci90 (riskHTN Real.exp
            (engineerFeatures strNum Real.sqrt (List.replicate 14 scenarioCDay) { }).agg
            (engineerFeatures strNum Real.sqrt (List.replicate 14 scenarioCDay)
              { }).demographics).prob
            (engineerFeatures strNum Real.sqrt (List.replicate 14 scenarioCDay)
              { }).agg.global_missing_frac } }
    (anomalyFromBaseline Real.sqrt Real.tanh
      (engineerFeatures strNum Real.sqrt (List.replicate 14 scenarioCDay) { }).arrays 7)
    (engineerFeatures strNum Real.sqrt (List.replicate 14 scenarioCDay) { }).agg 150
    hanom.2 (lt_of_le_of_lt ht (by norm_num))
    (le_of_le_of_eq (by norm_num : (0.55 : ℝ) ≤ 0.56) hh.symm) hsbp (by norm_num)
  have hn1 : jsNumStr (0.56 : ℝ) = "0.56" := by
    have e : (0.56 : ℝ) = ((56 : ℤ) : ℝ) / 100 := by norm_num
    rw [e, jsNumStr_hundredths]
    decide
  have hn2 : jsNumStr (round1 (150 : ℝ)) = "150" := by
    have e1 : round1 (150 : ℝ) = 150 := by
      have h : round1 (((150 : ℤ) : ℝ)) = ((150 : ℤ) : ℝ) := round1_intCast 150
      exact_mod_cast h
    have e2 : (150 : ℝ) = ((15000 : ℤ) : ℝ) / 100 := by norm_num
    rw [e1, e2, jsNumStr_hundredths]
    decide
  unfold predict
  rw [if_neg hlen]
  refine ⟨_, rfl, ?_⟩
  simp only [hreason]
  rw [hh, hn1, hn2]
  decide

/-- Counterexample to C12 as stated: for the window of 14 records carrying
only `systolic_bp = 150` and empty demographics, the reason is
`"Elevated HTN risk (0.56) + Rising BP trend / high mean SBP (150 mmHg)"`,
which does not contain `"150.0"`. -/
theorem scenarioC_reason_lacks_decimal :
    ∃ r, predict (fun _ => none) Real.sqrt Real.exp Real.tanh jsNumStr
        (List.replicate 14 scenarioCDay) { } none none = .ok r ∧
      r.decision.reason =
        "Elevated HTN risk (0.56) + Rising BP trend / high mean SBP (150 mmHg)" ∧
      ¬ ("150.0".toList <:+: r.decision.reason.toList) := by
  obtain ⟨r, hr, hreason⟩ := scenarioC_reason (fun _ => none) none none
  refine ⟨r, hr, hreason, ?_⟩
  rw [hreason]
  decide

/-- C12 (amended, scenario C): for the window of 14 daily records each
carrying only `systolic_bp = 150`, with empty demographics, the decision
reason contains the high-mean-SBP phrase with the mean rounded to one decimal
and rendered without a trailing zero:
`"Rising BP trend / high mean SBP (150 mmHg)"`. -/
theorem scenarioC_reason_phrase (strNum : String → Option ℝ)
    (window_start window_end : Option String) :
    ∃ r, predict strNum Real.sqrt Real.exp Real.tanh jsNumStr
        (List.replicate 14 scenarioCDay) { } window_start window_end = .ok r ∧
      "Rising BP trend / high mean SBP (150 mmHg)".toList <:+: r.decision.reason.toList := by
  obtain ⟨r, hr, hreason⟩ := scenarioC_reason strNum window_start window_end
  refine ⟨r, hr, ?_⟩
  rw [hreason]
  decide

/-! ## Contributor ranker -/

theorem topContributors_eq (contrib : List (String × α)) (K : Nat) :
    topContributors contrib (K : Int) =
      ((contrib.map (fun e => (e.1, round3 |e.2|))).insertionSort
        (fun a b => b.2 ≤ a.2)).take K := by
  have h : ¬ ((K : Int) < 0) := by omega
  simp only [topContributors, jsSlice0, if_neg h, Int.toNat_ofNat]

theorem mathRound_nonneg {x : α} (h : 0 ≤ x) : 0 ≤ mathRound x := by
  have := mathRound_mono (show (0 : α) ≤ x from h) 
  have h0 : mathRound (0 : α) = 0 := by
    have h : mathRound (((0 : ℤ) : α)) = ((0 : ℤ) : α) := mathRound_intCast 0
    simpa using h
  rw [h0] at this
  exact this

theorem round3_abs_nonneg (x : α) : 0 ≤ round3 |x| := by
  unfold round3
  exact div_nonneg (mathRound_nonneg (mul_nonneg (abs_nonneg x) (by norm_num))) (by norm_num)

theorem filter_orderedInsert (p : String × α → Bool) (a : String × α)
    (l : List (String × α))
    (hp : p a = true → ∀ b ∈ l, ¬ (b.2 ≤ a.2) → p b = false) :
    (l.orderedInsert (fun a b => b.2 ≤ a.2) a).filter p = (a :: l).filter p := by
  induction l with
  | nil => simp
  | cons b l ih =>
    have ih' := ih (fun ha c hc => hp ha c (List.mem_cons_of_mem _ hc))
    by_cases h : b.2 ≤ a.2
    · simp [List.orderedInsert, h]
    · simp only [List.orderedInsert, h, if_false]
      by_cases ha : p a = true
      · have hb : p b = false := hp ha b (List.mem_cons_self _ _) h
        simp only [List.filter_cons, hb, ha, if_true] at ih' ⊢
        simpa using ih'
      · simp only [List.filter_cons, ha] at ih' ⊢
        by_cases hb : p b = true <;> simp [hb, ih']

/-- The sort of `topContributors` is stable: the entries of any given impact
keep their original relative order. -/
theorem insertionSort_stable (l : List (String × α)) (v : α) :
    (l.insertionSort (fun a b => b.2 ≤ a.2)).filter (fun e => decide (e.2 = v)) =
      l.filter (fun e => decide (e.2 = v)) := by
  induction l with
  | nil => rfl
  | cons a l ih =>
    rw [List.insertionSort, filter_orderedInsert]
    · simp only [List.filter_cons, ih]
    · intro ha b _ hb
      simp only [decide_eq_true_eq] at ha
      simp only [decide_eq_false_iff_not]
      intro hbv
      exact hb (by rw [ha, hbv])

theorem sorted_insertionSort_impact (l : List (String × α)) :
    (l.insertionSort (fun a b => b.2 ≤ a.2)).Sorted (fun a b => b.2 ≤ a.2) := by
  haveI : IsTotal (String × α) (fun a b => b.2 ≤ a.2) := ⟨fun a b => le_total _ _⟩
  haveI : IsTrans (String × α) (fun a b => b.2 ≤ a.2) := ⟨fun a b c h1 h2 => le_trans h2 h1⟩
  exact List.sorted_insertionSort _ l

/-- C21: for every contribution map with `n` entries and every non-negative
integer `K`, `topContributors` returns the first `K` items of the stable
descending sort by impact of the items `(feature, round3 |contribution|)`:
exactly `min(K, n)` entries, each a feature of the map with its non-negative
rounded impact, in non-increasing order of impact, entries of equal impact
keeping the map's order. -/
theorem topContributors_spec (contrib : List (String × α)) (K : Nat) :
    ∃ sorted : List (String × α),
      sorted.Perm (contrib.map (fun e => (e.1, round3 |e.2|))) ∧
      sorted.Sorted (fun a b => b.2 ≤ a.2) ∧
      (∀ v, sorted.filter (fun e => decide (e.2 = v)) =
        (contrib.map (fun e => (e.1, round3 |e.2|))).filter (fun e => decide (e.2 = v))) ∧
      topContributors contrib (K : Int) = sorted.take K ∧
      (topContributors contrib (K : Int)).length = min K contrib.length ∧
      (∀ e ∈ topContributors contrib (K : Int),
        0 ≤ e.2 ∧ ∃ c ∈ contrib, e = (c.1, round3 |c.2|)) ∧
      (topContributors contrib (K : Int)).Sorted (fun a b => b.2 ≤ a.2) := by
  refine ⟨_, List.perm_insertionSort _ _, sorted_insertionSort_impact _,
    insertionSort_stable _, topContributors_eq contrib K, ?_, ?_, ?_⟩
  · rw [topContributors_eq]
    simp
  · intro e he
    rw [topContributors_eq] at he
    have hm := (List.mem_insertionSort _).1 (List.mem_of_mem_take he)
    obtain ⟨c, hc, rfl⟩ := List.mem_map.1 hm
    exact ⟨round3_abs_nonneg _, c, hc, rfl⟩
  · rw [topContributors_eq]
    exact (sorted_insertionSort_impact _).sublist (List.take_sublist _ _)

theorem round3_le (x : α) : round3 x ≤ x + 1 / 2000 := by
  unfold round3
  have := mathRound_le (x * 1000)
  rw [div_le_iff₀ (by norm_num : (0 : α) < 1000)]
  linarith

theorem round3_gt (x : α) : x - 1 / 2000 < round3 x := by
  unfold round3
  have := mathRound_gt (x * 1000)
  rw [lt_div_iff₀ (by norm_num : (0 : α) < 1000)]
  linarith

theorem map_insertionSort_impact (l : List (String × α)) :
    (l.insertionSort (fun a b => round3 |b.2| ≤ round3 |a.2|)).map
        (fun e => (e.1, round3 |e.2|)) =
      (l.map (fun e => (e.1, round3 |e.2|))).insertionSort (fun a b => b.2 ≤ a.2) := by
  apply List.map_insertionSort
  intro a _ b _
  exact Iff.rfl

theorem topContributors_eq_map (contrib : List (String × α)) (K : Nat) :
    topContributors contrib (K : Int) =
      ((contrib.insertionSort (fun a b => round3 |b.2| ≤ round3 |a.2|)).take K).map
        (fun e => (e.1, round3 |e.2|)) := by
  rw [topContributors_eq, List.map_take, map_insertionSort_impact]

theorem sorted_insertionSort_rounded (l : List (String × α)) :
    (l.insertionSort (fun a b => round3 |b.2| ≤ round3 |a.2|)).Sorted
      (fun a b => round3 |b.2| ≤ round3 |a.2|) := by
  haveI : IsTotal (String × α) (fun a b => round3 |b.2| ≤ round3 |a.2|) :=
    ⟨fun a b => le_total _ _⟩
  haveI : IsTrans (String × α) (fun a b => round3 |b.2| ≤ round3 |a.2|) :=
    ⟨fun a b c h1 h2 => le_trans h2 h1⟩
  exact List.sorted_insertionSort _ l

theorem abs_lt_of_round3_le {x y : α} (h : round3 x ≤ round3 y) : x < y + 0.001 := by
  have h1 := round3_gt x
  have h2 := round3_le y
  have e : (0.001 : α) = 1 / 1000 := by norm_num
  rw [e]
  linarith

theorem take_drop_of_sorted {β : Type} (r : β → β → Prop) (l : List β) (K : Nat)
    (hs : l.Sorted r) : ∀ k ∈ l.take K, ∀ d ∈ l.drop K, r k d := by
  have h : (l.take K ++ l.drop K).Pairwise r := by
    rw [List.take_append_drop]
    exact hs
  exact (List.pairwise_append.1 h).2.2

/-- C26 (amended): for every contribution map and every `K`, the entries of
the map split into the returned ones and the omitted ones so that every
omitted entry has a rounded impact `round3 |c|` at most that of every returned
entry; its unrounded magnitude is therefore below that of every returned entry
plus `0.001`. -/
theorem topContributors_rounded_order (contrib : List (String × α)) (K : Nat) :
    ∃ kept dropped : List (String × α),
      (kept ++ dropped).Perm contrib ∧
      topContributors contrib (K : Int) = kept.map (fun c => (c.1, round3 |c.2|)) ∧
      ∀ k ∈ kept, ∀ d ∈ dropped,
        round3 |d.2| ≤ round3 |k.2| ∧ |d.2| < |k.2| + 0.001 := by
  have h1 := topContributors_eq_map contrib K
  have h2 : ((contrib.insertionSort (fun a b => round3 |b.2| ≤ round3 |a.2|)).take K ++
      (contrib.insertionSort (fun a b => round3 |b.2| ≤ round3 |a.2|)).drop K).Perm contrib := by
    rw [List.take_append_drop]
    exact List.perm_insertionSort _ _
  have h3 := take_drop_of_sorted _ _ K (sorted_insertionSort_rounded contrib)
  exact ⟨_, _, h2, h1, fun k hk d hd => ⟨h3 k hk d hd, abs_lt_of_round3_le (h3 k hk d hd)⟩⟩

/-- Counterexample to C26 as stated: for the map `{age: 0.0001, bmi: 0.0004}`
and `K = 1` both impacts round to `0`, the stable sort keeps `age` first, and
the omitted `bmi` has the larger unrounded magnitude. -/
theorem topContributors_omits_larger :
    topContributors [("age", (0.0001 : ℚ)), ("bmi", 0.0004)] 1 = [("age", 0)] ∧
    |(0.0001 : ℚ)| < |(0.0004 : ℚ)| := by
  have h1 : round3 |(0.0001 : ℚ)| = 0 := by norm_num [round3, mathRound, abs_div]
  have h2 : round3 |(0.0004 : ℚ)| = 0 := by norm_num [round3, mathRound, abs_div]
  constructor
  · simp only [topContributors, jsSlice0, List.map, h1, h2]
    simp [List.insertionSort, List.orderedInsert]
  · norm_num [abs_div]

/-! ## Least-squares slope as the specification words it -/

theorem sum_centered {ι : Type} (f g : ι → α) (a b : α) (l : List ι) :
    (l.map (fun q => (f q - a) * (g q - b))).sum =
      (l.map (fun q => f q * g q)).sum - a * (l.map g).sum - b * (l.map f).sum
        + (l.length : α) * (a * b) := by
  induction l with
  | nil => simp
  | cons q l ih =>
    simp only [List.map_cons, List.sum_cons, List.length_cons, Nat.cast_add, Nat.cast_one]
    rw [ih]
    ring

theorem sum_centered_mean {ι : Type} (f g : ι → α) (l : List ι) (hn : l.length ≠ 0) :
    (l.map (fun q => (f q - (l.map f).sum / (l.length : α)) *
        (g q - (l.map g).sum / (l.length : α)))).sum =
      covSum f g l / (l.length : α) := by
  have hne : (l.length : α) ≠ 0 := Nat.cast_ne_zero.2 hn
  rw [sum_centered, covSum]
  field_simp
  ring

theorem olsSlope_eq (pts : List (Nat × α)) (hn : pts.length ≠ 0) :
    olsSlope pts =
      covSum (fun p : Nat × α => (p.1 : α)) Prod.snd pts /
        covSum (fun p : Nat × α => (p.1 : α)) (fun p => (p.1 : α)) pts := by
  have hne : (pts.length : α) ≠ 0 := Nat.cast_ne_zero.2 hn
  unfold olsSlope
  simp only [pow_two]
  rw [sum_centered_mean (fun p : Nat × α => (p.1 : α)) Prod.snd pts hn,
    sum_centered_mean (fun p : Nat × α => (p.1 : α)) (fun p => (p.1 : α)) pts hn]
  rw [div_div_div_cancel_right₀ hne]

/-- In exact arithmetic, for every series, `slopePerDay` returns `0` when fewer than two
points are valid, and otherwise exactly the ordinary-least-squares slope
`Σ(xᵢ−x̄)(yᵢ−ȳ) / Σ(xᵢ−x̄)²` over the valid `(index, value)` pairs; the
denominator `n·Σx² − (Σx)²` is then at least `1`, so the guard on a
denominator below `1e-8` never changes the result. -/
theorem slopePerDay_ols (values : List (Option α)) :
    (countValid values < 2 → slopePerDay values = 0) ∧
    (2 ≤ countValid values →
      slopePerDay values = olsSlope (collectPts 0 values) ∧
      1 ≤ ((collectPts 0 values).length : α) *
          ((collectPts 0 values).map (fun p => (p.1 : α) * (p.1 : α))).sum -
        ((collectPts 0 values).map (fun p => (p.1 : α))).sum *
          ((collectPts 0 values).map (fun p => (p.1 : α))).sum) := by
  constructor
  · intro h
    rw [slopePerDay_eq, if_pos (by rw [collectPts_length]; exact h)]
  · intro h2
    have hd := slope_denom_ge_one values h2
    have hlen : ¬ (collectPts 0 values).length < 2 := by
      rw [collectPts_length]
      omega
    have hsmall : (1e-8 : α) ≤ 1 := by norm_num
    have habs : ¬ |covSum (fun p : Nat × α => (p.1 : α)) (fun p => (p.1 : α))
        (collectPts 0 values)| < 1e-8 := by
      rw [abs_of_nonneg (by linarith)]
      exact not_lt.2 (le_trans hsmall hd)
    refine ⟨?_, hd⟩
    rw [slopePerDay_eq, if_neg hlen, if_neg habs, olsSlope_eq _ (by omega)]

/-- Example of `slopePerDay_ols`: the series `[1, null, 3]`. -/
theorem slopePerDay_ols_witness :
    slopePerDay [some (1 : ℚ), none, some 3] = olsSlope (collectPts 0 [some (1 : ℚ), none, some 3]) ∧
      1 ≤ ((collectPts 0 [some (1 : ℚ), none, some 3]).length : ℚ) *
          ((collectPts 0 [some (1 : ℚ), none, some 3]).map
            (fun p => (p.1 : ℚ) * (p.1 : ℚ))).sum -
        ((collectPts 0 [some (1 : ℚ), none, some 3]).map (fun p => (p.1 : ℚ))).sum *
          ((collectPts 0 [some (1 : ℚ), none, some 3]).map (fun p => (p.1 : ℚ))).sum :=
  (slopePerDay_ols [some (1 : ℚ), none, some 3]).2 (by simp [countValid, filterNum])

/-! ## Contribution maps -/

/-- C25: for every input, the contribution map of `riskT2D` has 7 entries and
its `prob` is `round2(clamp(sigmoid(−1.2 + their sum), 0.01, 0.99))`; the
contribution map of `riskHTN` has 8 entries and its `prob` is
`round2(clamp(sigmoid(−1.0 + their sum), 0.01, 0.99))`. -/
theorem risk_prob_from_contrib (expF : α → α) (agg : Agg α) (demographics : CleanDemo α) :
    ((riskT2D expF agg demographics).contrib.length = 7 ∧
      (riskT2D expF agg demographics).prob =
        round2 (clamp (sigmoid expF
          (-1.2 + ((riskT2D expF agg demographics).contrib.map Prod.snd).sum)) 0.01 0.99)) ∧
    ((riskHTN expF agg demographics).contrib.length = 8 ∧
      (riskHTN expF agg demographics).prob =
        round2 (clamp (sigmoid expF
          (-1.0 + ((riskHTN expF agg demographics).contrib.map Prod.snd).sum)) 0.01 0.99)) := by
  refine ⟨⟨rfl, ?_⟩, ⟨rfl, ?_⟩⟩
  · simp only [riskT2D, List.map_cons, List.map_nil, List.sum_cons, List.sum_nil]
    congr 3
    ring
  · simp only [riskHTN, List.map_cons, List.map_nil, List.sum_cons, List.sum_nil]
    congr 3
    ring

/-! ## Baseline of the anomaly detector -/

theorem filterNum_filter_isSome (l : List (Option α)) :
    filterNum (l.filter Option.isSome) = filterNum l := by
  induction l with
  | nil => rfl
  | cons x l ih =>
    cases x with
    | none => simp [filterNum] at ih ⊢; exact ih
    | some v => simp [filterNum] at ih ⊢; exact ih

theorem filterNum_map_some (xs : List α) : filterNum (xs.map some) = xs := by
  induction xs with
  | nil => rfl
  | cons x xs ih => simp [filterNum]

theorem mean_eq_arithMean (l : List (Option α)) : mean l = arithMean (filterNum l) := by
  have h := foldl_add_eq_sum (fun b : α => b) (filterNum l) 0
  simp only [List.map_id', zero_add] at h
  simp only [mean, arithMean, h, List.length_eq_zero]

theorem std_eq_sampleStd (sqrtF : α → α) (l : List (Option α)) :
    std sqrtF l = sampleStd sqrtF (filterNum l) := by
  by_cases h : (filterNum l).length < 2
  · simp only [std, sampleStd, if_pos h]
  · have hne : filterNum l ≠ [] := by
      intro e
      rw [e] at h
      simp at h
    have hm : mean (List.map some (filterNum l)) =
        some ((filterNum l).sum / ((filterNum l).length : α)) := by
      rw [mean_eq_arithMean, filterNum_map_some, arithMean, if_neg hne]
    have hs := foldl_add_eq_sum
      (fun x : α => (x - (filterNum l).sum / ((filterNum l).length : α)) ^ 2) (filterNum l) 0
    simp only [zero_add] at hs
    simp only [std, sampleStd, if_neg h, hm, Option.getD_some, hs]

theorem jsSlice0_natCast {β : Type} (l : List β) (n : Nat) :
    jsSlice0 l (n : Int) = l.take n := by
  unfold jsSlice0
  rw [if_neg (by omega), Int.toNat_ofNat]

theorem baselineOf_eq (sqrtF : α → α) (arr : List (Option α)) (baselineDays N : Nat) :
    baselineOf sqrtF arr (baselineDays : Int) N =
      (arithMean (filterNum (arr.take (min baselineDays N))),
       max (sampleStd sqrtF (filterNum (arr.take (min baselineDays N)))) 1e-6) := by
  have hmin : min (baselineDays : Int) (N : Int) = ((min baselineDays N : Nat) : Int) := by
    rw [Nat.cast_min]
  unfold baselineOf
  simp only [hmin, jsSlice0_natCast, mean_eq_arithMean, std_eq_sampleStd,
    filterNum_filter_isSome]
  congr 1
  split_ifs with h
  · exact (max_eq_left h.le).symm
  · exact (max_eq_right (not_lt.1 h)).symm

/-- Counterexample to C24 as stated: for the series `[null, 60, 70]` and
`baselineDays = 2` the baseline mean is `60` (the valid values among the first
two days), while the first two valid values have mean `65`; and for a negative
`baselineDays` the slice counts from the end of the series. -/
theorem baseline_not_first_valid :
    (baselineOf Real.sqrt [none, some 60, some 70] 2 3).1 = some 60 ∧
    arithMean ((filterNum [none, some (60 : ℝ), some 70]).take (min 2 3)) = some 65 ∧
    (baselineOf Real.sqrt [some 60, some 70, some 80] (-1) 3).1 = some 65 := by
  have e1 : filterNum (List.take (min 2 3) [none, some (60 : ℝ), some 70]) = [60] := rfl
  have e2 : (filterNum [none, some (60 : ℝ), some 70]).take (min 2 3) = [60, 70] := rfl
  have e3 : (jsSlice0 [some (60 : ℝ), some 70, some 80] (min (-1 : ℤ) ((3 : ℕ) : ℤ))).filter
      Option.isSome = [some 60, some 70] := rfl
  have e4 : filterNum [some (60 : ℝ), some 70] = [60, 70] := rfl
  refine ⟨?_, ?_, ?_⟩
  · have h := baselineOf_eq Real.sqrt [none, some 60, some 70] 2 3
    simp only [Nat.cast_ofNat] at h
    rw [h, e1, arithMean, if_neg (List.cons_ne_nil _ _)]
    norm_num
  · rw [e2, arithMean, if_neg (List.cons_ne_nil _ _)]
    norm_num
  · show mean ((jsSlice0 [some (60 : ℝ), some 70, some 80]
      (min (-1 : ℤ) ((3 : ℕ) : ℤ))).filter Option.isSome) = some 65
    rw [e3, mean_eq_arithMean, e4, arithMean, if_neg (List.cons_ne_nil _ _)]
    norm_num

/-- C24 (amended): for every series and every non-negative integer
`baselineDays`, the baseline mean and standard deviation of a metric are the
mean and the sample standard deviation of the valid values among the first
`min(baselineDays, N)` days of the series, the standard deviation floored at
`1e-6`. -/
theorem baseline_spec (sqrtF : α → α) (arr : List (Option α)) (baselineDays N : Nat) :
    baselineOf sqrtF arr (baselineDays : Int) N =
      (arithMean (filterNum (arr.take (min baselineDays N))),
       max (sampleStd sqrtF (filterNum (arr.take (min baselineDays N)))) 1e-6) :=
  baselineOf_eq sqrtF arr baselineDays N

/-! ## The `/predict` boundary -/

theorem predict_ok (strNum : String → Option α) (sqrtF expF tanhF : α → α)
    (numStr : α → String) (days : List (DailyRecord α)) (demographics : Demographics α)
    (ws we : Option String) (h : 14 ≤ days.length) :
    ∃ r, predict strNum sqrtF expF tanhF numStr days demographics ws we = .ok r ∧
      r.meta.days = days.length ∧
      r.meta.missing_frac =
        round2 (engineerFeatures strNum sqrtF days demographics).agg.global_missing_frac := by
  unfold predict
  rw [if_neg (by omega)]
  exact ⟨_, rfl, rfl, rfl⟩

theorem mem_numberFields (k : Metric) (h : k ≠ .bmi) : k ∈ numberFields := by
  cases k <;> first | exact absurd rfl h | decide

theorem readRecord_clean (r : Metric → RawVal α)
    (h : ∀ k, k ≠ Metric.bmi → r k ≠ .unconvertible) : ∃ d, readRecord r = some d := by
  unfold readRecord
  rw [if_neg]
  · exact ⟨_, rfl⟩
  · rw [Bool.not_eq_true, List.any_eq_false]
    intro k hk
    have hb : k ≠ Metric.bmi := by
      rintro rfl
      revert hk
      decide
    have := h k hb
    cases hr : r k with
    | val v => simp [RawVal.throws]
    | unconvertible => exact absurd hr this

theorem readRecord_throws (r : Metric → RawVal α) (k : Metric) (hk : k ≠ .bmi)
    (h : r k = .unconvertible) : readRecord r = none := by
  unfold readRecord
  rw [if_pos]
  rw [List.any_eq_true]
  exact ⟨k, mem_numberFields k hk, by rw [h]; rfl⟩

theorem readEntries_clean (l : List (Option (Metric → RawVal α)))
    (h : ∀ e ∈ l, ∃ r, e = some r ∧ ∀ k, k ≠ Metric.bmi → r k ≠ .unconvertible) :
    ∃ days, readEntries l = some days ∧ days.length = l.length := by
  induction l with
  | nil => exact ⟨[], rfl, rfl⟩
  | cons e l ih =>
    obtain ⟨r, rfl, hr⟩ := h e (List.mem_cons_self _ _)
    obtain ⟨d, hd⟩ := readRecord_clean r hr
    obtain ⟨ds, hds, hlen⟩ := ih (fun e he => h e (List.mem_cons_of_mem _ he))
    refine ⟨d :: ds, ?_, by simp [hlen]⟩
    rw [readEntries, hd, hds]

theorem readEntries_throws (l : List (Option (Metric → RawVal α)))
    (h : ∃ e ∈ l, e = none ∨ ∃ r k, e = some r ∧ k ≠ Metric.bmi ∧ r k = .unconvertible) :
    readEntries l = none := by
  induction l with
  | nil =>
    obtain ⟨e, he, -⟩ := h
    simp at he
  | cons x l ih =>
    obtain ⟨e, he, hcase⟩ := h
    cases x with
    | none => rfl
    | some r =>
      rw [readEntries]
      rcases List.mem_cons.1 he with rfl | hmem
      · rcases hcase with hn | ⟨r', k, hr, hk, hu⟩
        · cases hn
        · cases hr
          rw [readRecord_throws r k hk hu]
      · rw [ih ⟨e, hmem, hcase⟩]
        cases readRecord r <;> rfl

theorem readDemographics_clean (d : RawDemographics α)
    (ha : d.age ≠ .unconvertible) (hh : d.height_cm ≠ .unconvertible)
    (hs : ∃ v, d.sex = .val v ∧ ((∃ s, v = .str s) ∨ v.truthy = false)) :
    ∃ demo, readDemographics d = some demo := by
  have h1 : d.age.throws = false := by
    cases h : d.age with
    | val v => rfl
    | unconvertible => exact absurd h ha
  have h2 : d.height_cm.throws = false := by
    cases h : d.height_cm with
    | val v => rfl
    | unconvertible => exact absurd h hh
  obtain ⟨v, hv, hcase⟩ := hs
  have h3 : ∃ sex, readSex d.sex = some sex := by
    rw [hv]
    rcases hcase with ⟨s, rfl⟩ | hf
    · exact ⟨some s, rfl⟩
    · cases v with
      | str s => exact ⟨some s, rfl⟩
      | undefined => exact ⟨none, rfl⟩
      | null => exact ⟨none, rfl⟩
      | bool b => exact ⟨none, by simp [readSex, hf]⟩
      | num x => exact ⟨none, by simp [readSex, hf]⟩
      | nan => exact ⟨none, rfl⟩
      | posInf => simp [JsVal.truthy] at hf
      | negInf => simp [JsVal.truthy] at hf
      | obj s => simp [JsVal.truthy] at hf
  obtain ⟨sex, hsex⟩ := h3
  unfold readDemographics
  rw [h1, h2, hsex]
  exact ⟨_, rfl⟩

theorem readDemographics_throws (d : RawDemographics α)
    (h : d.age = .unconvertible ∨ d.height_cm = .unconvertible ∨ d.sex = .unconvertible ∨
      ∃ v, d.sex = .val v ∧ (∀ s, v ≠ .str s) ∧ v.truthy = true) :
    readDemographics d = none := by
  unfold readDemographics
  rcases h with h | h | h | ⟨v, hv, hns, ht⟩
  · rw [h]
    rfl
  · rw [h]
    simp [RawVal.throws]
  · rw [h]
    split_ifs <;> rfl
  · have : readSex d.sex = none := by
      rw [hv]
      cases v with
      | str s => exact absurd rfl (hns s)
      | undefined => simp [JsVal.truthy] at ht
      | null => simp [JsVal.truthy] at ht
      | bool b => simp [readSex, ht]
      | num x => simp [readSex, ht]
      | nan => simp [JsVal.truthy] at ht
      | posInf => rfl
      | negInf => rfl
      | obj s => rfl
    rw [this]
    split_ifs <;> rfl

theorem predictHandler_short (strNum : String → Option α) (sqrtF expF tanhF : α → α)
    (numStr : α → String) (body : RequestBody α)
    (h : body.features = none ∨ ∃ l, body.features = some l ∧ l.length < 14) :
    predictHandler strNum sqrtF expF tanhF numStr body =
      .error (400, "Need at least 14 days of features (30 preferred) in `features` array") := by
  unfold predictHandler
  rcases h with h | ⟨l, h, hl⟩
  · rw [h]
    rfl
  · rw [h]
    simp only [Option.getD_some, if_pos hl]

theorem predictHandler_ok (strNum : String → Option α) (sqrtF expF tanhF : α → α)
    (numStr : α → String) (body : RequestBody α)
    (l : List (Option (Metric → RawVal α))) (days : List (DailyRecord α))
    (demo : Demographics α)
    (hf : body.features = some l) (hl : 14 ≤ l.length)
    (hd : readEntries l = some days) (hlen : days.length = l.length)
    (hs : readDemographics body.demographics = some demo) :
    ∃ r, predictHandler strNum sqrtF expF tanhF numStr body = .ok r ∧
      r.meta.days = l.length ∧
      r.meta.missing_frac =
        round2 (engineerFeatures strNum sqrtF days demo).agg.global_missing_frac := by
  obtain ⟨r, hr, h1, h2⟩ := predict_ok strNum sqrtF expF tanhF numStr days demo
    body.window_start body.window_end (by omega)
  refine ⟨r, ?_, by rw [h1, hlen], h2⟩
  unfold predictHandler
  rw [hf]
  simp only [Option.getD_some, if_neg (not_lt.2 hl), hd, hs]
  exact hr

theorem predictHandler_fault (strNum : String → Option α) (sqrtF expF tanhF : α → α)
    (numStr : α → String) (body : RequestBody α) (l : List (Option (Metric → RawVal α)))
    (hf : body.features = some l) (hl : 14 ≤ l.length)
    (h : readEntries l = none ∨ readDemographics body.demographics = none) :
    predictHandler strNum sqrtF expF tanhF numStr body = .error (500, "Internal error") := by
  unfold predictHandler
  rw [hf]
  simp only [Option.getD_some, if_neg (not_lt.2 hl)]
  rcases h with h | h
  · rw [h]
    cases readDemographics body.demographics <;> rfl
  · rw [h]

/-- Counterexample to C22 as stated: a body whose `features` array has 14
entries, the first of them `null`, gets the `500` result, not the response
object; so does a body of 14 records whose first record has for `weight_kg`
an object with an own `toString` property, on which `Number` throws. -/
theorem predictHandler_throwing_entry :
    (none :: List.replicate 13
      (some (fun _ => RawVal.val JsVal.undefined : Metric → RawVal ℝ))).length = 14 ∧
    predictHandler (fun _ => none) Real.sqrt Real.exp Real.tanh jsNumStr
      { features := some (none :: List.replicate 13
          (some (fun _ => RawVal.val JsVal.undefined : Metric → RawVal ℝ))) } =
      .error (500, "Internal error") ∧
    (some (fun k => if k = Metric.weight_kg then RawVal.unconvertible
        else RawVal.val JsVal.undefined : Metric → RawVal ℝ) ::
      List.replicate 13
        (some (fun _ => RawVal.val JsVal.undefined : Metric → RawVal ℝ))).length = 14 ∧
    predictHandler (fun _ => none) Real.sqrt Real.exp Real.tanh jsNumStr
      { features := some (some (fun k => if k = Metric.weight_kg then RawVal.unconvertible
          else RawVal.val JsVal.undefined : Metric → RawVal ℝ) ::
        List.replicate 13
          (some (fun _ => RawVal.val JsVal.undefined : Metric → RawVal ℝ))) } =
      .error (500, "Internal error") := by
  refine ⟨rfl, ?_, rfl, ?_⟩
  · exact predictHandler_fault _ _ _ _ _ _ _ rfl (by simp)
      (Or.inl (readEntries_throws _ ⟨none, List.mem_cons_self _ _, Or.inl rfl⟩))
  · exact predictHandler_fault _ _ _ _ _ _ _ rfl (by simp)
      (Or.inl (readEntries_throws _ ⟨_, List.mem_cons_self _ _,
        Or.inr ⟨_, Metric.weight_kg, rfl, by decide, rfl⟩⟩))

/-- C22 (amended): for every request body (`window_start` and `window_end`
absent or strings) whose `features` is not an array or has fewer than 14
entries the handler returns the `400` error result; for every body with at
least 14 entries, none of them `null`, in which no value passed to `Number`
(a field other than `bmi` of an entry, `demographics.age`,
`demographics.height_cm`) is one on which `Number` throws, and whose
`demographics.sex` is absent, falsy or a string, it returns the response
object with `meta.days` the number of entries and `meta.missing_frac` the
global missing fraction rounded to two decimals; and a body with at least 14
entries in which an entry is `null`, or such a value is one on which `Number`
throws, or `demographics.sex` is truthy and not a string, gets the `500`
result of the `catch` block. -/
theorem predictHandler_spec (strNum : String → Option α) (sqrtF expF tanhF : α → α)
    (numStr : α → String) (body : RequestBody α) :
    ((body.features = none ∨ ∃ l, body.features = some l ∧ l.length < 14) →
      predictHandler strNum sqrtF expF tanhF numStr body =
        .error (400, "Need at least 14 days of features (30 preferred) in `features` array")) ∧
    (∀ l : List (Option (Metric → RawVal α)),
      body.features = some l → 14 ≤ l.length →
      (∀ e ∈ l, ∃ r, e = some r ∧ ∀ k, k ≠ Metric.bmi → r k ≠ .unconvertible) →
      body.demographics.age ≠ .unconvertible →
      body.demographics.height_cm ≠ .unconvertible →
      (∃ v, body.demographics.sex = .val v ∧ ((∃ s, v = .str s) ∨ v.truthy = false)) →
      ∃ r days demo, predictHandler strNum sqrtF expF tanhF numStr body = .ok r ∧
        readEntries l = some days ∧ readDemographics body.demographics = some demo ∧
        r.meta.days = l.length ∧
        r.meta.missing_frac =
          round2 (engineerFeatures strNum sqrtF days demo).agg.global_missing_frac) ∧
    (∀ l : List (Option (Metric → RawVal α)),
      body.features = some l → 14 ≤ l.length →
      ((∃ e ∈ l, e = none ∨ ∃ r k, e = some r ∧ k ≠ Metric.bmi ∧ r k = .unconvertible) ∨
        body.demographics.age = .unconvertible ∨
        body.demographics.height_cm = .unconvertible ∨
        body.demographics.sex = .unconvertible ∨
        ∃ v, body.demographics.sex = .val v ∧ (∀ s, v ≠ .str s) ∧ v.truthy = true) →
      predictHandler strNum sqrtF expF tanhF numStr body = .error (500, "Internal error")) := by
  refine ⟨predictHandler_short strNum sqrtF expF tanhF numStr body, ?_, ?_⟩
  · intro l hf hl he ha hh hs
    obtain ⟨days, hd, hlen⟩ := readEntries_clean l he
    obtain ⟨demo, hdemo⟩ := readDemographics_clean body.demographics ha hh hs
    obtain ⟨r, hr, h1, h2⟩ :=
      predictHandler_ok strNum sqrtF expF tanhF numStr body l days demo hf hl hd hlen hdemo
    exact ⟨r, days, demo, hr, hd, hdemo, h1, h2⟩
  · intro l hf hl h
    apply predictHandler_fault strNum sqrtF expF tanhF numStr body l hf hl
    rcases h with h | h
    · exact Or.inl (readEntries_throws l h)
    · exact Or.inr (readDemographics_throws body.demographics h)

/-- Witness of the amended C22: a body of 14 empty records and no
demographics gets the response object with `meta.days = 14`. -/
theorem predictHandler_spec_witness :
    ∃ r days demo,
      predictHandler (fun _ => none) Real.sqrt Real.exp Real.tanh jsNumStr
        ({ features := some (List.replicate 14
            (some (fun _ => RawVal.val JsVal.undefined : Metric → RawVal ℝ))) } :
          RequestBody ℝ) = .ok r ∧
      readEntries (List.replicate 14
        (some (fun _ => RawVal.val JsVal.undefined : Metric → RawVal ℝ))) = some days ∧
      readDemographics ({ } : RawDemographics ℝ) = some demo ∧
      r.meta.days = (List.replicate 14
        (some (fun _ => RawVal.val JsVal.undefined : Metric → RawVal ℝ))).length ∧
      r.meta.missing_frac =
        round2 (engineerFeatures (fun _ => none) Real.sqrt days demo).agg.global_missing_frac :=
  (predictHandler_spec (fun _ => none) Real.sqrt Real.exp Real.tanh jsNumStr
    ({ features := some (List.replicate 14
        (some (fun _ => RawVal.val JsVal.undefined : Metric → RawVal ℝ))) } :
      RequestBody ℝ)).2.1 _ rfl (by simp)
    (by
      intro e he
      rw [List.eq_of_mem_replicate he]
      exact ⟨_, rfl, fun k _ => by simp⟩)
    (by simp) (by simp) ⟨JsVal.undefined, rfl, Or.inr rfl⟩

/-! ## Reason and notification -/

/-- C28: for every input to `computeDecision`, if `notify_client` is true
then the reason is not `"Stable"`. -/
theorem client_implies_reason (numStr : α → String) (risks : Risks α)
    (anomaly : AnomalyResult α) (agg : Agg α)
    (h : (computeDecision numStr risks anomaly agg).notify_client = true) :
    (computeDecision numStr risks anomaly agg).reason ≠ "Stable" := by
  apply (reason_of_ne_nil numStr risks anomaly agg _).2
  intro hnil
  obtain ⟨h1, h2, h3, h4, h5⟩ := (decisionReasons_eq_nil_iff numStr risks anomaly agg).1 hnil
  rcases (notify_client_iff numStr risks anomaly agg).1 h with hc | hc | hc | ⟨m, hm, hc⟩ |
    ⟨m, hm, hc⟩
  · rw [h1] at hc
    exact Bool.false_ne_true hc
  · exact h2 hc
  · exact h3 hc
  · exact h4 m hm (le_trans (by norm_num) hc)
  · exact h5 m hm (le_trans (by norm_num) hc)

/-- Witness of C28: a flagged anomaly with low risks and no blood-pressure
means. -/
theorem client_implies_reason_witness :
    (computeDecision jsNumStr
      ({ t2d := { prob := 0.2, ci90 := (0.1, 0.3) },
         htn := { prob := 0.3, ci90 := (0.2, 0.4) } } : Risks ℚ)
      ({ score := 0.92, flag := true, dailyAnoms := [0.92] } : AnomalyResult ℚ)
      (allMissingAgg : Agg ℚ)).reason ≠ "Stable" :=
  client_implies_reason jsNumStr _ _ _ rfl

theorem tanh_8_5_ge_spike : (0.9 : ℝ) ≤ Real.tanh (4 / 2.5) := by
  have e : (4 / 2.5 : ℝ) = 4 / 5 + 4 / 5 := by norm_num
  have h1 : (53 / 25 : ℝ) ≤ Real.exp (4 / 5) := by
    have := Real.quadratic_le_exp_of_nonneg (show (0 : ℝ) ≤ 4 / 5 by norm_num)
    norm_num at this ⊢
    linarith
  have hx2 : (449 / 100 : ℝ) ≤ Real.exp (4 / 2.5) := by
    rw [e, Real.exp_add]
    nlinarith
  have hy : Real.exp (-(4 / 2.5)) ≤ (100 / 449 : ℝ) := by
    rw [Real.exp_neg]
    have hpos : (0 : ℝ) < Real.exp (4 / 2.5) := Real.exp_pos _
    rw [inv_le_comm₀ hpos (by norm_num)]
    norm_num
    linarith
  have hy0 : 0 < Real.exp (-(4 / 2.5 : ℝ)) := Real.exp_pos _
  rw [Real.tanh_eq_sinh_div_cosh, Real.sinh_eq, Real.cosh_eq]
  rw [le_div_iff₀ (by linarith)]
  norm_num
  linarith

/-- With the flag set, the reason starts with the anomaly cause. -/
theorem reason_prefix_of_flag (numStr : α → String) (risks : Risks α)
    (anomaly : AnomalyResult α) (agg : Agg α) (hflag : anomaly.flag = true) :
    "Anomaly persisted for 2 days".toList <+: 
      (computeDecision numStr risks anomaly agg).reason.toList := by
  obtain ⟨rest, hrest⟩ : ∃ rest, decisionReasons numStr risks anomaly agg =
      "Anomaly persisted for 2 days" :: rest := by
    unfold decisionReasons
    rw [hflag, if_pos rfl]
    simp only [List.append_assoc, List.singleton_append]
    exact ⟨_, rfl⟩
  have hne : decisionReasons numStr risks anomaly agg ≠ [] := by
    rw [hrest]
    exact List.cons_ne_nil _ _
  rw [(reason_of_ne_nil numStr risks anomaly agg hne).1, hrest]
  cases rest with
  | nil => exact List.prefix_refl _
  | cons y ys =>
    have e : String.intercalate " + "
        (("Anomaly persisted for 2 days" :: y :: ys).take 2) =
        "Anomaly persisted for 2 days" ++ " + " ++ y := rfl
    rw [e]
    show "Anomaly persisted for 2 days".data <+:
      ("Anomaly persisted for 2 days" ++ " + " ++ y).data
    rw [String.data_append, String.data_append, List.append_assoc]
    exact List.prefix_append _ _

/-- C27 (the code at the failing input): with a resting heart rate of 65 for
thirteen days and 105 on the last day only, the reason starts with
"Anomaly persisted for 2 days" although the score of the day before the last
is `0`, so that the last two scores are not both at least `0.75`. -/
theorem spike_only_flag (numStr : ℝ → String) (risks : Risks ℝ) (agg : Agg ℝ) :
    "Anomaly persisted for 2 days".toList <+:
      (computeDecision numStr risks
        (anomalyFromBaseline Real.sqrt Real.tanh scenarioSpikeArrays 7) agg).reason.toList ∧
    (anomalyFromBaseline Real.sqrt Real.tanh scenarioSpikeArrays 7).dailyAnoms.length = 14 ∧
    (anomalyFromBaseline Real.sqrt Real.tanh scenarioSpikeArrays 7).dailyAnoms[12]? = some 0 ∧
    ¬ ∃ a b : ℝ,
      (anomalyFromBaseline Real.sqrt Real.tanh scenarioSpikeArrays 7).dailyAnoms[13]? = some a ∧
      (anomalyFromBaseline Real.sqrt Real.tanh scenarioSpikeArrays 7).dailyAnoms[12]? = some b ∧
      0.75 ≤ a ∧ 0.75 ≤ b := by
  have hlen : (scenarioSpikeArrays Metric.resting_hr : List (Option ℝ)).length = 14 := by
    simp [scenarioSpikeArrays]
  have hb : baselineOf Real.sqrt (scenarioSpikeArrays .resting_hr) 7 14 = (some 65, 1e-6) :=
    baselineOf_const_prefix (scenarioSpikeArrays .resting_hr) 65 7 (by decide) 14 (by decide)
      (by intro i hi; interval_cases i <;> rfl)
  have hmiss : ∀ i : ℕ, ∀ k ∈ [Metric.systolic_bp, Metric.sleep_hours, Metric.steps,
      Metric.weight_kg], ((scenarioSpikeArrays k : List (Option ℝ))[i]?).join = none := by
    intro i k hk
    simp only [List.mem_cons, List.mem_singleton, List.not_mem_nil, or_false] at hk
    rcases hk with rfl | rfl | rfl | rfl <;>
      (show ((List.replicate 14 (none : Option ℝ))[i]?).join = none
       rw [List.getElem?_replicate]
       split_ifs <;> rfl)
  have hz13 := znormOfDay_single scenarioSpikeArrays
    (fun k => baselineOf Real.sqrt (scenarioSpikeArrays k) 7 14) 13 65 1e-6 105 hb rfl
    (hmiss 13)
  have hz12 := znormOfDay_single scenarioSpikeArrays
    (fun k => baselineOf Real.sqrt (scenarioSpikeArrays k) 7 14) 12 65 1e-6 65 hb rfl
    (hmiss 12)
  have hv13 : min |((105 : ℝ) - 65) / 1e-6| 4 = 4 := by
    apply min_eq_right
    norm_num [abs_of_nonneg]
  have hv12 : min |((65 : ℝ) - 65) / 1e-6| 4 = 0 := by
    norm_num
  rw [hv13] at hz13
  rw [hv12] at hz12
  have hg13 := anomaly_dailyAnoms_get Real.sqrt Real.tanh scenarioSpikeArrays 7 13
    (by rw [hlen]; decide)
  have hg12 := anomaly_dailyAnoms_get Real.sqrt Real.tanh scenarioSpikeArrays 7 12
    (by rw [hlen]; decide)
  rw [hlen, hz13] at hg13
  rw [hlen, hz12] at hg12
  have hl : (anomalyFromBaseline Real.sqrt Real.tanh scenarioSpikeArrays 7).dailyAnoms.length
      = 14 := by
    rw [anomaly_dailyAnoms_eq, List.length_map, List.length_range, hlen]
  have hc : (0.9 : ℝ) ≤ clamp (Real.tanh (4 / 2.5)) 0 1 := by
    unfold clamp
    exact le_min (by norm_num) (le_trans tanh_8_5_ge_spike (le_max_right _ _))
  have hflag : (anomalyFromBaseline Real.sqrt Real.tanh scenarioSpikeArrays 7).flag = true := by
    rw [anomaly_flag_iff]
    right
    exact ⟨_, by rw [hl]; exact hg13, hc⟩
  have h12 : (anomalyFromBaseline Real.sqrt Real.tanh scenarioSpikeArrays 7).dailyAnoms[12]?
      = some 0 := by
    rw [hg12]
    simp [clamp, Real.tanh_zero]
  refine ⟨reason_prefix_of_flag numStr risks _ agg hflag, hl, h12, ?_⟩
  rintro ⟨a, b, -, hb12, -, hb⟩
  rw [h12] at hb12
  have hb0 : (0 : ℝ) = b := Option.some.inj hb12
  rw [← hb0] at hb
  norm_num at hb

theorem scenarioDbp_arrays (strNum : String → Option ℝ) (k : Metric) :
    (engineerFeatures strNum Real.sqrt scenarioDbpDays { }).arrays k =
      if k = Metric.diastolic_bp then
        List.replicate 7 (some 80) ++ List.replicate 7 (some 60)
      else List.replicate 14 none := by
  rw [engineerFeatures_arrays]
  unfold scenarioDbpDays
  rw [List.map_append, List.map_replicate, List.map_replicate]
  cases k <;> rfl

theorem scenarioDbp_agg (strNum : String → Option ℝ) (k : Metric)
    (hk : k ≠ Metric.diastolic_bp) :
    ((engineerFeatures strNum Real.sqrt scenarioDbpDays { }).agg.metric k).mean = none ∧
    ((engineerFeatures strNum Real.sqrt scenarioDbpDays { }).agg.metric k).trend_per_week
      = some 0 := by
  rw [engineerFeatures_metric, scenarioDbp_arrays, if_neg hk]
  exact aggregate_replicate_none Real.sqrt 14 _

theorem scenarioDbp_mean (strNum : String → Option ℝ) :
    ((engineerFeatures strNum Real.sqrt scenarioDbpDays { }).agg.metric
      .diastolic_bp).mean = some 70 := by
  rw [engineerFeatures_metric, scenarioDbp_arrays, if_pos rfl]
  show mean (List.replicate 7 (some (80 : ℝ)) ++ List.replicate 7 (some 60)) = some 70
  have e : filterNum (List.replicate 7 (some (80 : ℝ)) ++ List.replicate 7 (some 60)) =
      [80, 80, 80, 80, 80, 80, 80, 60, 60, 60, 60, 60, 60, 60] := rfl
  rw [mean, e]
  norm_num

theorem scenarioDbp_rates (strNum : String → Option ℝ) :
    (engineerFeatures strNum Real.sqrt scenarioDbpDays { }).agg.dbp_over_80_rate = 1 / 2 ∧
    (engineerFeatures strNum Real.sqrt scenarioDbpDays { }).agg.sbp_over_130_rate = 0 := by
  constructor
  · rw [engineerFeatures_dbp_rate, scenarioDbp_arrays, if_pos rfl]
    have hl : (scenarioDbpDays : List (DailyRecord ℝ)).length = 14 := rfl
    rw [hl]
    unfold overRate
    rw [if_pos (by decide), List.filter_append, List.filter_replicate, List.filter_replicate]
    norm_num
  · rw [engineerFeatures_sbp_rate, scenarioDbp_arrays, if_neg (by decide)]
    have hl : (scenarioDbpDays : List (DailyRecord ℝ)).length = 14 := rfl
    rw [hl]
    unfold overRate
    rw [if_pos (by decide), List.filter_replicate]
    norm_num

/-- With no cause applying, the client is not notified and the reason is
"Stable", whatever the blood-pressure rates. -/
theorem computeDecision_no_cause (numStr : α → String) (risks : Risks α)
    (anomaly : AnomalyResult α) (agg : Agg α)
    (hflag : anomaly.flag = false)
    (ht : risks.t2d.prob < 0.55) (hh : risks.htn.prob < 0.55)
    (hs : ∀ m, (agg.metric .systolic_bp).mean = some m → m < 130)
    (hd : ∀ m, (agg.metric .diastolic_bp).mean = some m → m < 80) :
    (computeDecision numStr risks anomaly agg).notify_client = false ∧
    (computeDecision numStr risks anomaly agg).reason = "Stable" := by
  constructor
  · rw [← Bool.not_eq_true, notify_client_iff]
    rintro (h | h | h | ⟨m, hm, h⟩ | ⟨m, hm, h⟩)
    · rw [hflag] at h
      exact Bool.false_ne_true h
    · exact absurd h (not_le.2 ht)
    · exact absurd h (not_le.2 hh)
    · have := hs m hm
      linarith
    · have := hd m hm
      linarith
  · apply reason_of_nil
    rw [decisionReasons_eq_nil_iff]
    exact ⟨hflag, not_le.2 ht, not_le.2 hh, fun m hm => not_le.2 (hs m hm),
      fun m hm => not_le.2 (hd m hm)⟩

/-- C29: for the window of 14 days carrying only `diastolic_bp`, 80 on seven
days and 60 on the other seven, with empty demographics, the `/predict`
pipeline yields `notify_doctor = true` together with `notify_client = false`
and `reason = "Stable"`. -/
theorem scenarioDbp_decision (strNum : String → Option ℝ) (numStr : ℝ → String)
    (window_start window_end : Option String) :
    ∃ r, predict strNum Real.sqrt Real.exp Real.tanh numStr scenarioDbpDays { }
        window_start window_end = .ok r ∧
      r.decision.notify_doctor = true ∧ r.decision.notify_client = false ∧
      r.decision.reason = "Stable" := by
  have hanom := anomaly_const_or_missing
    (engineerFeatures strNum Real.sqrt scenarioDbpDays { }).arrays
    14 (by decide) (by rw [scenarioDbp_arrays, if_neg (by decide)]; simp)
    (fun k hk => ⟨none, by
      rw [scenarioDbp_arrays, if_neg]
      intro e
      rw [e] at hk
      revert hk
      decide⟩)
  have hage : (engineerFeatures strNum Real.sqrt scenarioDbpDays
      { }).demographics.age = none := rfl
  have hsmoker : (engineerFeatures strNum Real.sqrt scenarioDbpDays
      { }).demographics.smoker = false := rfl
  have ht : (riskT2D Real.exp (engineerFeatures strNum Real.sqrt scenarioDbpDays { }).agg
      (engineerFeatures strNum Real.sqrt scenarioDbpDays { }).demographics).prob ≤ 1 / 2 := by
    apply risk_prob_le_half
    rw [hage, (scenarioDbp_agg strNum Metric.bmi (by decide)).1,
      (scenarioDbp_agg strNum Metric.steps (by decide)).1,
      (scenarioDbp_agg strNum Metric.diet_score (by decide)).1,
      (scenarioDbp_agg strNum Metric.sleep_hours (by decide)).1,
      (scenarioDbp_agg strNum Metric.stress (by decide)).1,
      (scenarioDbp_agg strNum Metric.weight_kg (by decide)).2]
    norm_num [clamp]
  have hh : (riskHTN Real.exp (engineerFeatures strNum Real.sqrt scenarioDbpDays { }).agg
      (engineerFeatures strNum Real.sqrt scenarioDbpDays { }).demographics).prob ≤ 1 / 2 := by
    apply risk_prob_le_half
    rw [hage, hsmoker, (scenarioDbp_agg strNum Metric.bmi (by decide)).1,
      (scenarioDbp_agg strNum Metric.systolic_bp (by decide)).1,
      (scenarioDbp_agg strNum Metric.systolic_bp (by decide)).2,
      (scenarioDbp_agg strNum Metric.resting_hr (by decide)).1,
      (scenarioDbp_agg strNum Metric.stress (by decide)).1,
      (scenarioDbp_agg strNum Metric.activity_minutes (by decide)).1]
    norm_num
  have hs : ∀ m, ((engineerFeatures strNum Real.sqrt scenarioDbpDays { }).agg.metric
      .systolic_bp).mean = some m → m < 130 := by
    intro m hm
    rw [(scenarioDbp_agg strNum Metric.systolic_bp (by decide)).1] at hm
    cases hm
  have hd : ∀ m, ((engineerFeatures strNum Real.sqrt scenarioDbpDays { }).agg.metric
      .diastolic_bp).mean = some m → m < 80 := by
    intro m hm
    rw [scenarioDbp_mean] at hm
    rw [← Option.some.inj hm]
    norm_num
  have hlen : ¬ (scenarioDbpDays : List (DailyRecord ℝ)).length < 14 := by decide
  have hdec := computeDecision_no_cause numStr
    { t2d :=
        { prob := (riskT2D Real.exp
            (engineerFeatures strNum Real.sqrt scenarioDbpDays { }).agg
            (engineerFeatures strNum Real.sqrt scenarioDbpDays { }).demographics).prob
          ci90 := ci90 (riskT2D Real.exp
            (engineerFeatures strNum Real.sqrt scenarioDbpDays { }).agg
            (engineerFeatures strNum Real.sqrt scenarioDbpDays { }).demographics).prob
            (engineerFeatures strNum Real.sqrt scenarioDbpDays { }).agg.global_missing_frac }
      htn :=
        { prob := (riskHTN Real.exp
            (engineerFeatures strNum Real.sqrt scenarioDbpDays { }).agg
            (engineerFeatures strNum Real.sqrt scenarioDbpDays { }).demographics).prob
          ci90 := ci90 (riskHTN Real.exp
            (engineerFeatures strNum Real.sqrt scenarioDbpDays { }).agg
            (engineerFeatures strNum Real.sqrt scenarioDbpDays { }).demographics).prob
            (engineerFeatures strNum Real.sqrt scenarioDbpDays { }).agg.global_missing_frac } }
    (anomalyFromBaseline Real.sqrt Real.tanh
      (engineerFeatures strNum Real.sqrt scenarioDbpDays { }).arrays 7)
    (engineerFeatures strNum Real.sqrt scenarioDbpDays { }).agg
    hanom.2 (lt_of_le_of_lt ht (by norm_num)) (lt_of_le_of_lt hh (by norm_num)) hs hd
  unfold predict
  rw [if_neg hlen]
  refine ⟨_, rfl, ?_, hdec.1, hdec.2⟩
  show (computeDecision numStr _ _ _).notify_doctor = true
  rw [notify_doctor_iff, (scenarioDbp_rates strNum).1]
  exact Or.inr (Or.inr (Or.inr (by norm_num)))

/-! ## Double precision: rounding to binary64 -/

theorem double_ilog2_spec (fuel n : Nat) (hn : 1 ≤ n) (hf : n ≤ fuel) :
    2 ^ Double.ilog2 fuel n ≤ n ∧ n < 2 ^ (Double.ilog2 fuel n + 1) := by
  induction fuel generalizing n with
  | zero => omega
  | succ fuel ih =>
    unfold Double.ilog2
    by_cases h : n < 2
    · rw [if_pos h]
      constructor
      · simpa using hn
      · simpa using h
    · rw [if_neg h]
      have h1 : 1 ≤ n / 2 := by omega
      have h2 : n / 2 ≤ fuel := by omega
      obtain ⟨a, b⟩ := ih (n / 2) h1 h2
      constructor
      · rw [pow_succ]
        omega
      · rw [pow_succ]
        omega

theorem double_binExp_spec (q : ℚ) (hq : q ≠ 0) :
    (2 : ℚ) ^ Double.binExp q ≤ |q| ∧ |q| < (2 : ℚ) ^ (Double.binExp q + 1) := by
  have hnum : q.num ≠ 0 := Rat.num_ne_zero.2 hq
  have ha1 : 1 ≤ q.num.natAbs := Nat.one_le_iff_ne_zero.2 (Int.natAbs_ne_zero.2 hnum)
  have hd1 : 1 ≤ q.den := q.den_pos
  obtain ⟨a1, a2⟩ := double_ilog2_spec q.num.natAbs q.num.natAbs ha1 le_rfl
  obtain ⟨d1, d2⟩ := double_ilog2_spec q.den q.den hd1 le_rfl
  have habs : |q| = (q.num.natAbs : ℚ) / (q.den : ℚ) := by
    conv_lhs => rw [← Rat.num_div_den q]
    rw [abs_div, Nat.abs_cast, Nat.cast_natAbs, Int.cast_abs]
  set la := Double.ilog2 q.num.natAbs q.num.natAbs with hla
  set ld := Double.ilog2 q.den q.den with hld
  have a1q : (2 : ℚ) ^ la ≤ (q.num.natAbs : ℚ) := by exact_mod_cast a1
  have a2q : (q.num.natAbs : ℚ) < (2 : ℚ) ^ (la + 1) := by exact_mod_cast a2
  have d1q : (2 : ℚ) ^ ld ≤ (q.den : ℚ) := by exact_mod_cast d1
  have d2q : (q.den : ℚ) < (2 : ℚ) ^ (ld + 1) := by exact_mod_cast d2
  have hdpos : (0 : ℚ) < (q.den : ℚ) := by exact_mod_cast q.den_pos
  have p1 : (0 : ℚ) < (2 : ℚ) ^ ld := by positivity
  have p2 : (0 : ℚ) < (2 : ℚ) ^ la := by positivity
  have e0 : (2 : ℚ) ^ ((la : ℤ) - (ld : ℤ)) = (2 : ℚ) ^ la / (2 : ℚ) ^ ld := by
    rw [zpow_sub₀ (by norm_num), zpow_natCast, zpow_natCast]
  have eup : (2 : ℚ) ^ ((la : ℤ) - (ld : ℤ) + 1) = (2 : ℚ) ^ (la + 1) / (2 : ℚ) ^ ld := by
    rw [zpow_add₀ (by norm_num), e0, zpow_one, pow_succ]
    ring
  have edn : (2 : ℚ) ^ ((la : ℤ) - (ld : ℤ) - 1) = (2 : ℚ) ^ la / (2 : ℚ) ^ (ld + 1) := by
    rw [zpow_sub₀ (by norm_num), e0, zpow_one, pow_succ]
    field_simp
  have hup : |q| < (2 : ℚ) ^ ((la : ℤ) - (ld : ℤ) + 1) := by
    rw [habs, eup, div_lt_div_iff₀ hdpos p1]
    calc (q.num.natAbs : ℚ) * (2 : ℚ) ^ ld < (2 : ℚ) ^ (la + 1) * (2 : ℚ) ^ ld := by
          apply mul_lt_mul_of_pos_right a2q p1
      _ ≤ (2 : ℚ) ^ (la + 1) * (q.den : ℚ) := by
          apply mul_le_mul_of_nonneg_left d1q (by positivity)
  have hdn : (2 : ℚ) ^ ((la : ℤ) - (ld : ℤ) - 1) ≤ |q| := by
    rw [habs, edn, div_le_div_iff₀ (by positivity) hdpos]
    calc (2 : ℚ) ^ la * (q.den : ℚ) ≤ (2 : ℚ) ^ la * (2 : ℚ) ^ (ld + 1) := by
          apply mul_le_mul_of_nonneg_left d2q.le (by positivity)
      _ ≤ (q.num.natAbs : ℚ) * (2 : ℚ) ^ (ld + 1) := by
          apply mul_le_mul_of_nonneg_right a1q (by positivity)
  unfold Double.binExp
  simp only [← hla, ← hld]
  by_cases h : |q| < (2 : ℚ) ^ ((la : ℤ) - (ld : ℤ))
  · rw [if_pos h]
    refine ⟨hdn, ?_⟩
    rw [sub_add_cancel]
    exact h
  · rw [if_neg h]
    exact ⟨not_lt.1 h, hup⟩

theorem double_roundEven_le (x : ℚ) : (Double.roundEven x : ℚ) ≤ x + 1 / 2 := by
  have h1 := Int.floor_le x
  have h2 := Int.lt_floor_add_one x
  unfold Double.roundEven
  simp only
  split_ifs with a b c
  · linarith
  · push_cast; linarith
  · linarith
  · push_cast; linarith

theorem double_roundEven_ge (x : ℚ) : x - 1 / 2 ≤ (Double.roundEven x : ℚ) := by
  have h1 := Int.floor_le x
  have h2 := Int.lt_floor_add_one x
  unfold Double.roundEven
  simp only
  split_ifs with a b c
  · linarith
  · push_cast; linarith
  · linarith
  · push_cast; linarith

theorem double_roundEven_intCast (k : ℤ) : Double.roundEven (k : ℚ) = k := by
  unfold Double.roundEven
  simp

theorem double_roundEven_ge_of_le (x : ℚ) (k : ℤ) (h : (k : ℚ) ≤ x) : k ≤ Double.roundEven x := by
  have h1 := double_roundEven_ge x
  have : ((k : ℚ) - 1) < (Double.roundEven x : ℚ) := by linarith
  have : k - 1 < Double.roundEven x := by exact_mod_cast this
  omega

theorem double_roundEven_le_of_le (x : ℚ) (k : ℤ) (h : x ≤ (k : ℚ)) : Double.roundEven x ≤ k := by
  have h1 := double_roundEven_le x
  have : (Double.roundEven x : ℚ) < (k : ℚ) + 1 := by linarith
  have : Double.roundEven x < k + 1 := by exact_mod_cast this
  omega


theorem double_ofRat_zero : Double.ofRat 0 = .fin 0 := by
  simp [Double.ofRat]

theorem double_abs_roundEven_mul (x : ℚ) (e : ℤ) :
    |(Double.roundEven (x / (2 : ℚ) ^ e) : ℚ) * (2 : ℚ) ^ e - x| ≤ (2 : ℚ) ^ (e - 1) := by
  have hp : (0 : ℚ) < (2 : ℚ) ^ e := by positivity
  have h1 := double_roundEven_le (x / (2 : ℚ) ^ e)
  have h2 := double_roundEven_ge (x / (2 : ℚ) ^ e)
  have e1 : (2 : ℚ) ^ (e - 1) = (2 : ℚ) ^ e / 2 := by
    rw [zpow_sub₀ (by norm_num), zpow_one]
  have hx : x = x / (2 : ℚ) ^ e * (2 : ℚ) ^ e := by field_simp
  rw [e1, abs_le]
  constructor
  · have := mul_le_mul_of_nonneg_right h2 hp.le
    nlinarith
  · have := mul_le_mul_of_nonneg_right h1 hp.le
    nlinarith

/-- Below `2 ^ 1023` in magnitude the rounding does not overflow. -/
theorem double_ofRat_fin (q : ℚ) (hq : q ≠ 0) (hlt : |q| < (2 : ℚ) ^ (1023 : ℤ)) :
    Double.ofRat q = .fin ((Double.roundEven
        (q / (2 : ℚ) ^ (max (Double.binExp q) (-1022) - 52)) : ℚ) *
      (2 : ℚ) ^ (max (Double.binExp q) (-1022) - 52)) := by
  obtain ⟨b1, b2⟩ := double_binExp_spec q hq
  have hb : Double.binExp q < 1023 := by
    have := lt_of_le_of_lt b1 hlt
    exact (zpow_lt_zpow_iff_right₀ (by norm_num : (1 : ℚ) < 2)).1 this
  have he : max (Double.binExp q) (-1022) - 52 - 1 ≤ 969 := by
    have : max (Double.binExp q) (-1022) ≤ 1022 := max_le (by omega) (by norm_num)
    omega
  have herr := double_abs_roundEven_mul q (max (Double.binExp q) (-1022) - 52)
  have hpow : (2 : ℚ) ^ (max (Double.binExp q) (-1022) - 52 - 1) ≤ (2 : ℚ) ^ (969 : ℤ) :=
    zpow_le_zpow_right₀ (by norm_num) he
  unfold Double.ofRat
  rw [if_neg hq]
  simp only
  rw [if_neg]
  rw [not_le]
  set v := (Double.roundEven (q / (2 : ℚ) ^ (max (Double.binExp q) (-1022) - 52)) : ℚ) *
      (2 : ℚ) ^ (max (Double.binExp q) (-1022) - 52) with hv
  have h3 : |v| ≤ |v - q| + |q| := by
    have := abs_add (v - q) q
    simpa using this
  have h4 : (2 : ℚ) ^ (969 : ℤ) + (2 : ℚ) ^ (1023 : ℤ) < (2 : ℚ) ^ (1024 : ℤ) := by
    norm_num
  linarith

theorem double_ofRat_exact (k s : ℤ) (hk : |k| < 2 ^ 53) (hs : -1074 ≤ s) (hs2 : s ≤ 970) :
    Double.ofRat ((k : ℚ) * (2 : ℚ) ^ s) = .fin ((k : ℚ) * (2 : ℚ) ^ s) := by
  by_cases hk0 : k = 0
  · subst hk0
    simp [double_ofRat_zero]
  have hp : (0 : ℚ) < (2 : ℚ) ^ s := by positivity
  have hq : (k : ℚ) * (2 : ℚ) ^ s ≠ 0 := mul_ne_zero (by exact_mod_cast hk0) hp.ne'
  have habs : |(k : ℚ) * (2 : ℚ) ^ s| = |(k : ℚ)| * (2 : ℚ) ^ s := by
    rw [abs_mul, abs_of_pos hp]
  have hkq : |(k : ℚ)| < (2 : ℚ) ^ (53 : ℤ) := by
    have h53 : (2 : ℚ) ^ (53 : ℤ) = ((2 ^ 53 : ℤ) : ℚ) := by norm_num
    have : ((|k| : ℤ) : ℚ) < ((2 ^ 53 : ℤ) : ℚ) := by exact_mod_cast hk
    rw [Int.cast_abs] at this
    rw [h53]
    exact this
  have hlt : |(k : ℚ) * (2 : ℚ) ^ s| < (2 : ℚ) ^ (53 + s) := by
    rw [habs, zpow_add₀ (by norm_num)]
    exact mul_lt_mul_of_pos_right hkq hp
  obtain ⟨b1, b2⟩ := double_binExp_spec _ hq
  have hb : Double.binExp ((k : ℚ) * (2 : ℚ) ^ s) < 53 + s :=
    (zpow_lt_zpow_iff_right₀ (by norm_num : (1 : ℚ) < 2)).1 (lt_of_le_of_lt b1 hlt)
  have hlt2 : |(k : ℚ) * (2 : ℚ) ^ s| < (2 : ℚ) ^ (1023 : ℤ) :=
    lt_of_lt_of_le hlt (zpow_le_zpow_right₀ (by norm_num) (by omega))
  rw [double_ofRat_fin _ hq hlt2]
  set e := max (Double.binExp ((k : ℚ) * (2 : ℚ) ^ s)) (-1022) - 52 with he
  have hes : e ≤ s := by
    have : max (Double.binExp ((k : ℚ) * (2 : ℚ) ^ s)) (-1022) ≤ s + 52 :=
      max_le (by omega) (by omega)
    omega
  obtain ⟨n, hn⟩ := Int.eq_ofNat_of_zero_le (sub_nonneg.2 hes)
  have hdiv : (k : ℚ) * (2 : ℚ) ^ s / (2 : ℚ) ^ e = ((k * 2 ^ n : ℤ) : ℚ) := by
    have : s = (n : ℤ) + e := by omega
    rw [this, zpow_add₀ (by norm_num), zpow_natCast]
    push_cast
    field_simp
    ring
  rw [hdiv, double_roundEven_intCast]
  congr 1
  have : s = (n : ℤ) + e := by omega
  rw [this, zpow_add₀ (by norm_num), zpow_natCast]
  push_cast
  ring

theorem double_ofRat_intCast (k : ℤ) (hk : |k| < 2 ^ 53) :
    Double.ofRat (k : ℚ) = .fin (k : ℚ) := by
  have := double_ofRat_exact k 0 hk (by norm_num) (by norm_num)
  simpa using this

theorem double_ofRat_err (q : ℚ) (k : ℤ) (hk : -1022 ≤ k) (hk2 : k ≤ 1022)
    (hq : |q| ≤ (2 : ℚ) ^ k) :
    ∃ v, Double.ofRat q = .fin v ∧ |v - q| ≤ (2 : ℚ) ^ (k - 53) ∧ (0 ≤ q → 0 ≤ v) := by
  by_cases h0 : q = 0
  · subst h0
    exact ⟨0, double_ofRat_zero, by simp; positivity, fun _ => le_rfl⟩
  obtain ⟨b1, b2⟩ := double_binExp_spec q h0
  have hbk : Double.binExp q ≤ k :=
    (zpow_le_zpow_iff_right₀ (by norm_num : (1 : ℚ) < 2)).1 (le_trans b1 hq)
  have hlt : |q| < (2 : ℚ) ^ (1023 : ℤ) :=
    lt_of_le_of_lt hq (zpow_lt_zpow_right₀ (by norm_num) (by omega))
  refine ⟨_, double_ofRat_fin q h0 hlt, ?_, ?_⟩
  · refine le_trans (double_abs_roundEven_mul q _) ?_
    apply zpow_le_zpow_right₀ (by norm_num)
    have : max (Double.binExp q) (-1022) ≤ k := max_le hbk hk
    omega
  · intro hq0
    apply mul_nonneg _ (by positivity)
    have : (0 : ℤ) ≤ Double.roundEven (q / (2 : ℚ) ^ (max (Double.binExp q) (-1022) - 52)) :=
      double_roundEven_ge_of_le _ 0 (by simp; positivity)
    exact_mod_cast this

theorem double_ofRat_pos (q : ℚ) (h1 : (2 : ℚ) ^ (-1074 : ℤ) ≤ q)
    (h2 : q < (2 : ℚ) ^ (1023 : ℤ)) :
    ∃ v, Double.ofRat q = .fin v ∧ 0 < v := by
  have hpos : 0 < q := lt_of_lt_of_le (by positivity) h1
  have h0 : q ≠ 0 := hpos.ne'
  obtain ⟨b1, b2⟩ := double_binExp_spec q h0
  rw [abs_of_pos hpos] at b1 b2
  refine ⟨_, double_ofRat_fin q h0 (by rw [abs_of_pos hpos]; exact h2), ?_⟩
  apply mul_pos _ (by positivity)
  have hle : (2 : ℚ) ^ (max (Double.binExp q) (-1022) - 52) ≤ q := by
    rcases le_total (Double.binExp q) (-1022) with h | h
    · rw [max_eq_right h]
      exact h1
    · rw [max_eq_left h]
      refine le_trans (zpow_le_zpow_right₀ (by norm_num) (by omega)) b1
  have : (1 : ℤ) ≤ Double.roundEven (q / (2 : ℚ) ^ (max (Double.binExp q) (-1022) - 52)) := by
    apply double_roundEven_ge_of_le
    rw [Int.cast_one, le_div_iff₀ (by positivity), one_mul]
    exact hle
  have : (1 : ℚ) ≤ (Double.roundEven (q / (2 : ℚ) ^ (max (Double.binExp q) (-1022) - 52)) : ℚ) := by
    exact_mod_cast this
  linarith

/-! ## Double precision: computations without rounding error -/

theorem double_scaled_mono {s : ℤ} {M M' : ℕ} {q : ℚ} (h : Double.IsScaled s M q)
    (hM : M ≤ M') : Double.IsScaled s M' q := by
  obtain ⟨k, hk, hb⟩ := h
  exact ⟨k, hk, le_trans hb (by exact_mod_cast hM)⟩

theorem double_scaled_zero (s : ℤ) (M : ℕ) : Double.IsScaled s M 0 :=
  ⟨0, by simp, by simp⟩

theorem double_scaled_natCast (n M : ℕ) (h : n ≤ M) : Double.IsScaled 0 M (n : ℚ) :=
  ⟨n, by simp, by simpa using h⟩

theorem double_scaled_add {s : ℤ} {M M' : ℕ} {a b : ℚ} (ha : Double.IsScaled s M a)
    (hb : Double.IsScaled s M' b) : Double.IsScaled s (M + M') (a + b) := by
  obtain ⟨k, hk, hkb⟩ := ha
  obtain ⟨j, hj, hjb⟩ := hb
  refine ⟨k + j, by rw [hk, hj]; push_cast; ring, ?_⟩
  have := abs_add k j
  push_cast
  omega

theorem double_scaled_neg {s : ℤ} {M : ℕ} {a : ℚ} (ha : Double.IsScaled s M a) :
    Double.IsScaled s M (-a) := by
  obtain ⟨k, hk, hkb⟩ := ha
  exact ⟨-k, by rw [hk]; push_cast; ring, by rwa [abs_neg]⟩

theorem double_scaled_mul {s : ℤ} {M M' : ℕ} {a b : ℚ} (ha : Double.IsScaled 0 M a)
    (hb : Double.IsScaled s M' b) : Double.IsScaled s (M * M') (a * b) := by
  obtain ⟨k, hk, hkb⟩ := ha
  obtain ⟨j, hj, hjb⟩ := hb
  refine ⟨k * j, by rw [hk, hj]; push_cast; simp; ring, ?_⟩
  rw [abs_mul]
  push_cast
  exact mul_le_mul hkb hjb (abs_nonneg _) (by positivity)

theorem double_ofRat_scaled {s : ℤ} {M : ℕ} {q : ℚ} (h : Double.IsScaled s M q)
    (hM : M < 2 ^ 53) (hs : -1074 ≤ s) (hs2 : s ≤ 970) : Double.ofRat q = .fin q := by
  obtain ⟨k, hk, hkb⟩ := h
  rw [hk]
  apply double_ofRat_exact k s _ hs hs2
  have : (M : ℤ) < 2 ^ 53 := by exact_mod_cast hM
  omega

theorem double_foldl_add (s : ℤ) (hs : -1074 ≤ s) (hs2 : s ≤ 970) (M : ℕ) {β : Type}
    (l : List β) (f : β → Double) (g : β → ℚ)
    (hf : ∀ p ∈ l, f p = .fin (g p) ∧ Double.IsScaled s M (g p))
    (a : ℚ) (A : ℕ) (ha : Double.IsScaled s A a) (hb : A + l.length * M < 2 ^ 53) :
    l.foldl (fun acc p => Double.add acc (f p)) (.fin a) = .fin (a + (l.map g).sum) ∧
      Double.IsScaled s (A + l.length * M) (a + (l.map g).sum) := by
  induction l generalizing a A with
  | nil => simpa using ha
  | cons p l ih =>
    obtain ⟨hfp, hgp⟩ := hf p (List.mem_cons_self _ _)
    have hsum := double_scaled_add ha hgp
    have hlen : (p :: l).length = l.length + 1 := rfl
    rw [hlen] at hb ⊢
    have hb2 : A + M + l.length * M < 2 ^ 53 := by
      have : (l.length + 1) * M = l.length * M + M := by ring
      omega
    have hstep : Double.add (.fin a) (f p) = .fin (a + g p) := by
      rw [hfp]
      show Double.ofRat (a + g p) = _
      exact double_ofRat_scaled hsum (by omega) hs hs2
    obtain ⟨h1, h2⟩ := ih (fun q hq => hf q (List.mem_cons_of_mem _ hq)) (a + g p) (A + M) hsum hb2
    rw [List.foldl_cons, hstep, h1, List.map_cons, List.sum_cons]
    have e : a + g p + (l.map g).sum = a + (g p + (l.map g).sum) := by ring
    have e2 : A + M + l.length * M = A + (l.length + 1) * M := by ring
    rw [e] at h2 ⊢
    rw [e2] at h2
    exact ⟨rfl, h2⟩

theorem double_mul_scaled {s : ℤ} {M M' : ℕ} {a b : ℚ} (ha : Double.IsScaled 0 M a)
    (hb : Double.IsScaled s M' b) (hM : M * M' < 2 ^ 53) (hs : -1074 ≤ s) (hs2 : s ≤ 970) :
    Double.mul (.fin a) (.fin b) = .fin (a * b) :=
  double_ofRat_scaled (double_scaled_mul ha hb) hM hs hs2

theorem double_sub_scaled {s : ℤ} {M M' : ℕ} {a b : ℚ} (ha : Double.IsScaled s M a)
    (hb : Double.IsScaled s M' b) (hM : M + M' < 2 ^ 53) (hs : -1074 ≤ s) (hs2 : s ≤ 970) :
    Double.sub (.fin a) (.fin b) = .fin (a - b) := by
  show Double.ofRat (a + -b) = _
  rw [← sub_eq_add_neg]
  have := double_scaled_add ha (double_scaled_neg hb)
  rw [← sub_eq_add_neg] at this
  exact double_ofRat_scaled this hM hs hs2

theorem double_lit_1e8 : Double.ofRat (1 / 100000000) =
    .fin (3022314549036573 / 302231454903657293676544) := by
  decide!

theorem double_finite_length (values : List (Option Double)) :
    (Double.finite values).length = values.length := by
  simp [Double.finite]

theorem double_pts_bound (fv : List (Option ℚ)) (p : Nat × ℚ) (hp : p ∈ collectPts 0 fv) :
    p.1 < fv.length ∧ p.2 ∈ filterNum fv := by
  constructor
  · have h := (collectPts_mem hp).2
    rw [Nat.sub_zero] at h
    exact (List.getElem?_eq_some_iff.1 h).1
  · rw [← collectPts_map_snd 0 fv]
    exact List.mem_map_of_mem _ hp

/-- The four sums, the denominator and the numerator of `slopePerDay` are
computed without rounding error on a series whose valid values are multiples
of `2 ^ s` with multipliers bounded by `B`. -/
theorem double_slope_sums (fv : List (Option ℚ)) (s : ℤ) (B : ℕ)
    (hs : -1074 ≤ s) (hs2 : s ≤ 970)
    (hN : fv.length ^ 4 < 2 ^ 52) (hB : B * fv.length ^ 3 < 2 ^ 52)
    (hv : ∀ v ∈ filterNum fv, Double.IsScaled s B v)
    (h2 : 2 ≤ (collectPts 0 fv).length) :
    Double.slopeDenom (collectPts 0 fv) =
        .fin (covSum (fun p : Nat × ℚ => (p.1 : ℚ)) (fun p => (p.1 : ℚ)) (collectPts 0 fv)) ∧
    Double.sub
        (Double.mul (.fin ((collectPts 0 fv).length : ℚ))
          ((collectPts 0 fv).foldl
            (fun a p => Double.add a (Double.mul (.fin p.1) (.fin p.2))) (.fin 0)))
        (Double.mul
          ((collectPts 0 fv).foldl (fun a p => Double.add a (.fin p.1)) (.fin 0))
          ((collectPts 0 fv).foldl (fun a p => Double.add a (.fin p.2)) (.fin 0))) =
      .fin (covSum (fun p : Nat × ℚ => (p.1 : ℚ)) Prod.snd (collectPts 0 fv)) ∧
    Double.IsScaled s (2 * (B * fv.length ^ 3))
      (covSum (fun p : Nat × ℚ => (p.1 : ℚ)) Prod.snd (collectPts 0 fv)) ∧
    Double.IsScaled 0 (fv.length ^ 4)
      ((collectPts 0 fv).length *
        ((collectPts 0 fv).map (fun p : Nat × ℚ => (p.1 : ℚ) * (p.1 : ℚ))).sum) ∧
    Double.IsScaled 0 (2 * fv.length ^ 4)
      (covSum (fun p : Nat × ℚ => (p.1 : ℚ)) (fun p => (p.1 : ℚ)) (collectPts 0 fv)) := by
  set pts := collectPts 0 fv with hpts
  set N := fv.length with hNdef
  have hn : pts.length ≤ N := by
    rw [hpts, collectPts_length]
    exact countValid_le_length fv
  have hN1 : 1 ≤ N := by omega
  have hx : ∀ p ∈ pts, Double.IsScaled 0 N ((p.1 : ℕ) : ℚ) := fun p hp =>
    double_scaled_natCast p.1 N (double_pts_bound fv p hp).1.le
  have hy : ∀ p ∈ pts, Double.IsScaled s B p.2 := fun p hp =>
    hv p.2 (double_pts_bound fv p hp).2
  -- powers of `N`
  have q1 : N ≤ N ^ 2 := by nlinarith
  have q2 : N ^ 2 ≤ N ^ 3 := by nlinarith
  have q3 : N ^ 3 ≤ N ^ 4 := by nlinarith
  have r1 : B * N ≤ B * N ^ 3 := Nat.mul_le_mul_left _ (by omega)
  have r2 : B * N ^ 2 ≤ B * N ^ 3 := Nat.mul_le_mul_left _ q2
  have r0 : B ≤ B * N ^ 3 := Nat.le_mul_of_pos_right _ (by positivity)
  have c1 : pts.length * N ≤ N ^ 2 := by
    calc pts.length * N ≤ N * N := Nat.mul_le_mul_right _ hn
      _ = N ^ 2 := by ring
  have c2 : pts.length * (N * N) ≤ N ^ 3 := by
    calc pts.length * (N * N) ≤ N * (N * N) := Nat.mul_le_mul_right _ hn
      _ = N ^ 3 := by ring
  have c3 : pts.length * B ≤ B * N := by
    calc pts.length * B ≤ N * B := Nat.mul_le_mul_right _ hn
      _ = B * N := by ring
  have c4 : pts.length * (N * B) ≤ B * N ^ 2 := by
    calc pts.length * (N * B) ≤ N * (N * B) := Nat.mul_le_mul_right _ hn
      _ = B * N ^ 2 := by ring
  -- the four sums
  obtain ⟨sx, sxs⟩ := double_foldl_add 0 (by norm_num) (by norm_num) N pts
    (fun p => .fin ((p.1 : ℕ) : ℚ)) (fun p => ((p.1 : ℕ) : ℚ)) (fun p hp => ⟨rfl, hx p hp⟩)
    0 0 (double_scaled_zero 0 0) (by omega)
  obtain ⟨sy, sys⟩ := double_foldl_add s hs hs2 B pts
    (fun p => .fin p.2) (fun p => p.2) (fun p hp => ⟨rfl, hy p hp⟩)
    0 0 (double_scaled_zero s 0) (by omega)
  obtain ⟨sxx, sxxs⟩ := double_foldl_add 0 (by norm_num) (by norm_num) (N * N) pts
    (fun p => Double.mul (.fin ((p.1 : ℕ) : ℚ)) (.fin ((p.1 : ℕ) : ℚ)))
    (fun p => ((p.1 : ℕ) : ℚ) * ((p.1 : ℕ) : ℚ))
    (fun p hp => ⟨double_mul_scaled (hx p hp) (hx p hp) (by nlinarith) (by norm_num)
      (by norm_num), double_scaled_mul (hx p hp) (hx p hp)⟩)
    0 0 (double_scaled_zero 0 0) (by omega)
  obtain ⟨sxy, sxys⟩ := double_foldl_add s hs hs2 (N * B) pts
    (fun p => Double.mul (.fin ((p.1 : ℕ) : ℚ)) (.fin p.2))
    (fun p => ((p.1 : ℕ) : ℚ) * p.2)
    (fun p hp => ⟨double_mul_scaled (hx p hp) (hy p hp) (by nlinarith) hs hs2,
      double_scaled_mul (hx p hp) (hy p hp)⟩)
    0 0 (double_scaled_zero s 0) (by nlinarith)
  simp only [zero_add] at sx sxs sy sys sxx sxxs sxy sxys
  have sxs' := double_scaled_mono sxs c1
  have sys' := double_scaled_mono sys c3
  have sxxs' := double_scaled_mono sxxs c2
  have sxys' := double_scaled_mono sxys c4
  have hnn := double_scaled_natCast pts.length N hn
  -- the products
  have m1s := double_scaled_mul hnn sxxs'
  have m2s := double_scaled_mul sxs' sxs'
  have m3s := double_scaled_mul hnn sxys'
  have m4s := double_scaled_mul sxs' sys'
  have e1 : N * N ^ 3 = N ^ 4 := by ring
  have e2 : N ^ 2 * N ^ 2 = N ^ 4 := by ring
  have e3 : N * (B * N ^ 2) = B * N ^ 3 := by ring
  have e4 : N ^ 2 * (B * N) = B * N ^ 3 := by ring
  rw [e1] at m1s
  rw [e2] at m2s
  rw [e3] at m3s
  rw [e4] at m4s
  have m1 := double_ofRat_scaled m1s (by omega) (by norm_num) (by norm_num)
  have m2 := double_ofRat_scaled m2s (by omega) (by norm_num) (by norm_num)
  have m3 := double_ofRat_scaled m3s (by omega) hs hs2
  have m4 := double_ofRat_scaled m4s (by omega) hs hs2
  have d := double_sub_scaled m1s m2s (by omega) (by norm_num) (by norm_num)
  have nm := double_sub_scaled m3s m4s (by omega) hs hs2
  have nms := double_scaled_add m3s (double_scaled_neg m4s)
  rw [← sub_eq_add_neg, ← two_mul] at nms
  have dns := double_scaled_add m1s (double_scaled_neg m2s)
  rw [← sub_eq_add_neg, ← two_mul] at dns
  refine ⟨?_, ?_, nms, m1s, dns⟩
  · unfold Double.slopeDenom
    simp only
    rw [sx, sxx]
    show Double.sub (Double.ofRat _) (Double.ofRat _) = _
    rw [m1, m2, d]
    rfl
  · rw [sx, sy, sxy]
    show Double.sub (Double.ofRat _) (Double.ofRat _) = _
    rw [m3, m4, nm]
    rfl

theorem collectPts_eq_enumFrom (k : Nat) (l : List (Option α)) :
    collectPts k l = (l.enumFrom k).filterMap (fun p => p.2.map (fun v => (p.1, v))) := by
  induction l generalizing k with
  | nil => rfl
  | cons x l ih =>
    cases x with
    | none =>
      rw [collectPts, ih (k + 1), List.enumFrom_cons, List.filterMap_cons_none]
      rfl
    | some v =>
      rw [collectPts, ih (k + 1), List.enumFrom_cons, List.filterMap_cons_some]
      rfl

theorem collectPts_eq_validPairs (l : List (Option α)) : collectPts 0 l = validPairs l :=
  collectPts_eq_enumFrom 0 l

theorem double_mem_finite (values : List (Option Double)) (x : ℚ) :
    some x ∈ Double.finite values ↔ some (Double.fin x) ∈ values := by
  unfold Double.finite
  rw [List.mem_map]
  constructor
  · rintro ⟨v, hv, h⟩
    rcases v with _ | (q | b | _)
    · simp at h
    · simp only [Option.some.injEq] at h
      rw [← h]
      exact hv
    · simp at h
    · simp at h
  · intro h
    exact ⟨_, h, rfl⟩

theorem mem_filterNum_iff (l : List (Option α)) (x : α) : x ∈ filterNum l ↔ some x ∈ l := by
  simp [filterNum, List.mem_filterMap]

/-- On a series whose valid values are multiples of one power of two with
small multipliers, `slopePerDay` in doubles is the exact slope rounded once. -/
theorem double_slope_exact (values : List (Option Double)) (s : ℤ) (B : ℕ)
    (hs : -1074 ≤ s) (hs2 : s ≤ 970)
    (hN : values.length ^ 4 < 2 ^ 52) (hB : B * values.length ^ 3 < 2 ^ 52)
    (hv : ∀ v ∈ filterNum (Double.finite values), Double.IsScaled s B v) :
    Double.slopePerDay values = Double.ofRat (slopePerDay (Double.finite values)) := by
  rw [← double_finite_length] at hN hB
  by_cases hlen : (collectPts 0 (Double.finite values)).length < 2
  · rw [slopePerDay_eq, if_pos hlen, double_ofRat_zero]
    unfold Double.slopePerDay
    simp only
    rw [if_pos hlen]
  · have h2 : 2 ≤ (collectPts 0 (Double.finite values)).length := by omega
    obtain ⟨hd, hnum, -, -, -⟩ := double_slope_sums (Double.finite values) s B hs hs2 hN hB hv h2
    have hge := slope_denom_ge_one (Double.finite values)
      (by rw [← collectPts_length 0]; exact h2)
    have hsmall : ¬ |covSum (fun p : Nat × ℚ => (p.1 : ℚ)) (fun p => (p.1 : ℚ))
        (collectPts 0 (Double.finite values))| < 1e-8 := by
      rw [abs_of_nonneg (by linarith), not_lt]
      exact le_trans (by norm_num) hge
    have hne : covSum (fun p : Nat × ℚ => (p.1 : ℚ)) (fun p => (p.1 : ℚ))
        (collectPts 0 (Double.finite values)) ≠ 0 := by linarith
    rw [slopePerDay_eq, if_neg hlen, if_neg hsmall]
    unfold Double.slopePerDay
    simp only
    rw [if_neg hlen, hd, hnum, double_lit_1e8]
    have hlt : Double.lt (Double.abs (.fin (covSum (fun p : Nat × ℚ => (p.1 : ℚ))
        (fun p => (p.1 : ℚ)) (collectPts 0 (Double.finite values)))))
        (.fin (3022314549036573 / 302231454903657293676544)) = false := by
      show decide (_ < _) = false
      rw [decide_eq_false_iff_not, not_lt, abs_of_nonneg (by linarith)]
      exact le_trans (by norm_num) hge
    rw [hlt]
    simp only [Bool.false_eq_true, if_false]
    show (if _ = 0 then _ else Double.ofRat _) = _
    rw [if_neg hne]

/-! ## Least-squares slope in doubles -/

theorem double_scaled_pos_ge {s : ℤ} {M : ℕ} {q : ℚ} (h : Double.IsScaled s M q) (hq : 0 < q) :
    (2 : ℚ) ^ s ≤ q := by
  obtain ⟨k, hk, -⟩ := h
  have hp : (0 : ℚ) < (2 : ℚ) ^ s := by positivity
  rw [hk] at hq ⊢
  have hk0 : (0 : ℚ) < (k : ℚ) := by
    by_contra hneg
    have : (k : ℚ) * (2 : ℚ) ^ s ≤ 0 := mul_nonpos_of_nonpos_of_nonneg (not_lt.1 hneg) hp.le
    linarith
  have : (1 : ℤ) ≤ k := by
    have : (0 : ℤ) < k := by exact_mod_cast hk0
    omega
  have : (1 : ℚ) ≤ (k : ℚ) := by exact_mod_cast this
  nlinarith

theorem double_scaled_abs_lt {s : ℤ} {M : ℕ} {q : ℚ} (h : Double.IsScaled s M q)
    (hM : M < 2 ^ 53) : |q| < (2 : ℚ) ^ (53 + s) := by
  obtain ⟨k, hk, hkb⟩ := h
  have hp : (0 : ℚ) < (2 : ℚ) ^ s := by positivity
  have h53 : (2 : ℚ) ^ (53 : ℤ) = ((2 ^ 53 : ℤ) : ℚ) := by norm_num
  have hk2 : |(k : ℚ)| < (2 : ℚ) ^ (53 : ℤ) := by
    rw [h53, ← Int.cast_abs]
    have : (M : ℤ) < 2 ^ 53 := by exact_mod_cast hM
    exact_mod_cast lt_of_le_of_lt hkb this
  rw [hk, abs_mul, abs_of_pos hp, zpow_add₀ (by norm_num)]
  exact mul_lt_mul_of_pos_right hk2 hp

theorem double_scaled_le {M : ℕ} {q : ℚ} (h : Double.IsScaled 0 M q) : q ≤ (M : ℚ) := by
  obtain ⟨k, hk, hkb⟩ := h
  rw [hk, zpow_zero, mul_one]
  have : k ≤ (M : ℤ) := le_trans (le_abs_self k) hkb
  exact_mod_cast this

/-- The exact slope of a series with at least two valid points, as a quotient
of the covariance sums. -/
theorem slopePerDay_eq_div (values : List (Option α)) (h2 : 2 ≤ countValid values) :
    slopePerDay values =
      covSum (fun p : Nat × α => (p.1 : α)) Prod.snd (collectPts 0 values) /
        covSum (fun p : Nat × α => (p.1 : α)) (fun p => (p.1 : α)) (collectPts 0 values) := by
  have hd := slope_denom_ge_one values h2
  have hlen : ¬ (collectPts 0 values).length < 2 := by
    rw [collectPts_length]
    omega
  have hsmall : (1e-8 : α) ≤ 1 := by norm_num
  have habs : ¬ |covSum (fun p : Nat × α => (p.1 : α)) (fun p => (p.1 : α))
      (collectPts 0 values)| < 1e-8 := by
    rw [abs_of_nonneg (by linarith)]
    exact not_lt.2 (le_trans hsmall hd)
  rw [slopePerDay_eq, if_neg hlen, if_neg habs]

/-- C7 (amended): in doubles, a series with at least two valid points whose
valid values are strictly increasing in day index, all of them integer
multiples `k * 2 ^ s` of one power of two (`-1022 ≤ s ≤ 970`; `s = 0` for
integer values) with `|k| ≤ B`, in a window of `N` days with `N ^ 4 < 2 ^ 52`
and `B * N ^ 3 < 2 ^ 52`, has a finite `slopePerDay` strictly greater than
`0`. -/
theorem double_slope_pos (values : List (Option Double)) (s : ℤ) (B : ℕ)
    (hs : -1022 ≤ s) (hs2 : s ≤ 970)
    (hN : values.length ^ 4 < 2 ^ 52) (hB : B * values.length ^ 3 < 2 ^ 52)
    (hv : ∀ v ∈ filterNum (Double.finite values), Double.IsScaled s B v)
    (h2 : 2 ≤ countValid (Double.finite values))
    (hinc : (filterNum (Double.finite values)).Pairwise (fun x y => x < y)) :
    ∃ q, Double.slopePerDay values = .fin q ∧ 0 < q := by
  rw [double_slope_exact values s B (by omega) hs2 hN hB hv]
  rw [← double_finite_length] at hN hB
  have hlen2 : 2 ≤ (collectPts 0 (Double.finite values)).length := by
    rw [collectPts_length]
    exact h2
  obtain ⟨-, -, nms, m1s, -⟩ :=
    double_slope_sums (Double.finite values) s B (by omega) hs2 hN hB hv hlen2
  have hge := slope_denom_ge_one (Double.finite values) h2
  have hpos : 0 < covSum (fun p : Nat × ℚ => (p.1 : ℚ)) Prod.snd
      (collectPts 0 (Double.finite values)) :=
    covSum_pos _ _ _ (collectPts_pairwise_both (Double.finite values) hinc) hlen2
  rw [slopePerDay_eq_div _ h2]
  set num := covSum (fun p : Nat × ℚ => (p.1 : ℚ)) Prod.snd
    (collectPts 0 (Double.finite values)) with hnum
  set den := covSum (fun p : Nat × ℚ => (p.1 : ℚ)) (fun p => (p.1 : ℚ))
    (collectPts 0 (Double.finite values)) with hden
  have hdpos : 0 < den := by linarith
  have hden_le : den ≤ (2 : ℚ) ^ (52 : ℤ) := by
    have h1 := double_scaled_le m1s
    have h3 : den ≤ ((collectPts 0 (Double.finite values)).length : ℚ) *
        ((collectPts 0 (Double.finite values)).map
          (fun p : Nat × ℚ => (p.1 : ℚ) * (p.1 : ℚ))).sum := by
      rw [hden, covSum]
      have := mul_self_nonneg
        ((collectPts 0 (Double.finite values)).map (fun p : Nat × ℚ => (p.1 : ℚ))).sum
      linarith
    have h4 : (((Double.finite values).length ^ 4 : ℕ) : ℚ) ≤ ((2 ^ 52 : ℕ) : ℚ) := by
      exact_mod_cast hN.le
    have h5 : (2 : ℚ) ^ (52 : ℤ) = ((2 ^ 52 : ℕ) : ℚ) := by norm_num
    rw [h5]
    linarith
  have hnum_ge := double_scaled_pos_ge nms hpos
  have hnum_lt := double_scaled_abs_lt nms (by omega)
  rw [abs_of_pos hpos] at hnum_lt
  apply double_ofRat_pos
  · rw [le_div_iff₀ hdpos]
    have e : (2 : ℚ) ^ (-1074 : ℤ) * (2 : ℚ) ^ (52 : ℤ) = (2 : ℚ) ^ (-1022 : ℤ) := by
      rw [← zpow_add₀ (by norm_num)]
      norm_num
    have h6 : (2 : ℚ) ^ (-1022 : ℤ) ≤ (2 : ℚ) ^ s := zpow_le_zpow_right₀ (by norm_num) hs
    calc (2 : ℚ) ^ (-1074 : ℤ) * den ≤ (2 : ℚ) ^ (-1074 : ℤ) * (2 : ℚ) ^ (52 : ℤ) :=
          mul_le_mul_of_nonneg_left hden_le (by positivity)
      _ = (2 : ℚ) ^ (-1022 : ℤ) := e
      _ ≤ num := le_trans h6 hnum_ge
  · rw [div_lt_iff₀ hdpos]
    have h7 : (2 : ℚ) ^ (53 + s) ≤ (2 : ℚ) ^ (1023 : ℤ) :=
      zpow_le_zpow_right₀ (by norm_num) (by omega)
    have h8 : (0 : ℚ) < (2 : ℚ) ^ (1023 : ℤ) := by positivity
    nlinarith

/-- Witness of the amended C7: the series `[1, null, 3]`. -/
theorem double_slope_pos_witness :
    ∃ q, Double.slopePerDay [some (.fin 1), none, some (.fin 3)] = .fin q ∧ 0 < q :=
  double_slope_pos [some (.fin 1), none, some (.fin 3)] 0 3 (by norm_num) (by norm_num)
    (by norm_num) (by norm_num)
    (by
      intro v hv
      have hv2 : v = 1 ∨ v = 3 := by
        simpa [Double.finite, filterNum] using hv
      rcases hv2 with rfl | rfl
      · exact ⟨1, by norm_num, by norm_num⟩
      · exact ⟨3, by norm_num, by norm_num⟩)
    (by simp [countValid, filterNum, Double.finite])
    (by simp [filterNum, Double.finite])

/-- Counterexample to C7 as stated: the doubles nearest `0.3` and
`0.30000000000000004` are strictly increasing, and `slopePerDay` of the two
is `0`, not greater than `0`. -/
theorem double_slope_increasing_zero :
    Double.ofRat (3 / 10) = .fin (5404319552844595 / 18014398509481984) ∧
    Double.ofRat (30000000000000004 / 100000000000000000) =
      .fin (5404319552844596 / 18014398509481984) ∧
    (5404319552844595 / 18014398509481984 : ℚ) < 5404319552844596 / 18014398509481984 ∧
    Double.slopePerDay [some (.fin (5404319552844595 / 18014398509481984)),
      some (.fin (5404319552844596 / 18014398509481984))] = .fin 0 := by
  refine ⟨by decide!, by decide!, by norm_num, by decide!⟩

/-- C8 (amended): in doubles, a series whose valid values all equal one
constant `c = k * 2 ^ s` (`-1074 ≤ s ≤ 970`; `s = 0` for an integer) with
`|k| ≤ B`, in a window of `N` days with `N ^ 4 < 2 ^ 52` and
`B * N ^ 3 < 2 ^ 52`, has `slopePerDay` exactly `0`, and the trend per week
`slopePerDay * 7` is `0` too. -/
theorem double_slope_const (values : List (Option Double)) (s : ℤ) (B : ℕ) (c : ℚ)
    (hs : -1074 ≤ s) (hs2 : s ≤ 970)
    (hN : values.length ^ 4 < 2 ^ 52) (hB : B * values.length ^ 3 < 2 ^ 52)
    (hcs : Double.IsScaled s B c)
    (hc : ∀ x, some (Double.fin x) ∈ values → x = c) :
    Double.slopePerDay values = .fin 0 ∧
    Double.mul (Double.slopePerDay values) (.fin 7) = .fin 0 := by
  have hv : ∀ v ∈ filterNum (Double.finite values), Double.IsScaled s B v := by
    intro v hv
    rw [mem_filterNum_iff, double_mem_finite] at hv
    rw [hc v hv]
    exact hcs
  have h0 : slopePerDay (Double.finite values) = 0 :=
    slopePerDay_eq_zero_of_const (Double.finite values) c
      (fun x hx => hc x ((double_mem_finite values x).1 hx))
  have h1 : Double.slopePerDay values = .fin 0 := by
    rw [double_slope_exact values s B hs hs2 hN hB hv, h0, double_ofRat_zero]
  refine ⟨h1, ?_⟩
  rw [h1]
  show Double.ofRat (0 * 7) = _
  rw [zero_mul, double_ofRat_zero]

/-- Witness of the amended C8: the series `[70, null, 70, 70]`. -/
theorem double_slope_const_witness :
    Double.slopePerDay [some (.fin 70), none, some (.fin 70), some (.fin 70)] = .fin 0 ∧
    Double.mul (Double.slopePerDay [some (.fin 70), none, some (.fin 70), some (.fin 70)])
      (.fin 7) = .fin 0 :=
  double_slope_const [some (.fin 70), none, some (.fin 70), some (.fin 70)] 0 70 70
    (by norm_num) (by norm_num) (by norm_num) (by norm_num)
    ⟨70, by norm_num, by norm_num⟩
    (by
      intro x hx
      simpa using hx)

/-- Counterexample to C8 as stated: for fourteen days at the double nearest
`70.2` the program's `slopePerDay` is about `-4.57e-15` and the trend per week
about `-3.2e-14`, not `0`. -/
theorem double_slope_const_residue :
    Double.slopePerDay (List.replicate 14 (some (Double.ofRat (702 / 10)))) =
      .fin (-5791756381070503 / 1267650600228229401496703205376) ∧
    Double.mul (Double.slopePerDay (List.replicate 14 (some (Double.ofRat (702 / 10)))))
      (.fin 7) = .fin (-2533893416718345 / 79228162514264337593543950336) := by
  refine ⟨by decide!, by decide!⟩

/-- C23 (amended): in doubles, `slopePerDay` returns `0` when the series has
fewer than two valid points; when it has two or more, and the valid values
are integer multiples `k * 2 ^ s` of one power of two (`-1074 ≤ s ≤ 970`)
with `|k| ≤ B`, in a window of `N` days with `N ^ 4 < 2 ^ 52` and
`B * N ^ 3 < 2 ^ 52`, it returns the double nearest to the
ordinary-least-squares slope `Σ(xᵢ−x̄)(yᵢ−ȳ) / Σ(xᵢ−x̄)²` over the valid
`(index, value)` pairs, and the denominator it computes is the exact integer
`n·Σx² − (Σx)² ≥ 1`, so that the guard on a denominator below `1e-8` is not
taken. -/
theorem double_slope_ols (values : List (Option Double)) :
    (countValid (Double.finite values) < 2 → Double.slopePerDay values = .fin 0) ∧
    (∀ (s : ℤ) (B : ℕ), -1074 ≤ s → s ≤ 970 →
      values.length ^ 4 < 2 ^ 52 → B * values.length ^ 3 < 2 ^ 52 →
      (∀ v ∈ filterNum (Double.finite values), Double.IsScaled s B v) →
      2 ≤ countValid (Double.finite values) →
      Double.slopePerDay values =
        Double.ofRat (olsSlope (validPairs (Double.finite values))) ∧
      ∃ d : ℤ, 1 ≤ d ∧
        Double.slopeDenom (collectPts 0 (Double.finite values)) = .fin d ∧
        (d : ℚ) = ((validPairs (Double.finite values)).length : ℚ) *
            ((validPairs (Double.finite values)).map
              (fun p => (p.1 : ℚ) * (p.1 : ℚ))).sum -
          ((validPairs (Double.finite values)).map (fun p => (p.1 : ℚ))).sum *
            ((validPairs (Double.finite values)).map (fun p => (p.1 : ℚ))).sum) := by
  constructor
  · intro h
    unfold Double.slopePerDay
    simp only
    rw [if_pos (by rw [collectPts_length]; exact h)]
  · intro s B hs hs2 hN hB hv h2
    have hlen2 : 2 ≤ (collectPts 0 (Double.finite values)).length := by
      rw [collectPts_length]
      exact h2
    constructor
    · rw [double_slope_exact values s B hs hs2 hN hB hv, slopePerDay_eq_div _ h2,
        ← collectPts_eq_validPairs, olsSlope_eq _ (by omega)]
    · rw [← double_finite_length] at hN hB
      obtain ⟨hd, -, -, -, dns⟩ :=
        double_slope_sums (Double.finite values) s B hs hs2 hN hB hv hlen2
      have hge := slope_denom_ge_one (Double.finite values) h2
      obtain ⟨k, hk, -⟩ := dns
      rw [zpow_zero, mul_one] at hk
      refine ⟨k, ?_, ?_, ?_⟩
      · rw [hk] at hge
        exact_mod_cast hge
      · rw [hd, hk]
      · rw [← hk, ← collectPts_eq_validPairs]
        rfl

/-- Witness of the amended C23: the series `[1, null, 3]`. -/
theorem double_slope_ols_witness :
    Double.slopePerDay [some (.fin 1), none, some (.fin 3)] =
        Double.ofRat (olsSlope (validPairs (Double.finite
          [some (.fin 1), none, some (.fin 3)]))) ∧
      ∃ d : ℤ, 1 ≤ d ∧
        Double.slopeDenom (collectPts 0 (Double.finite
          [some (.fin 1), none, some (.fin 3)])) = .fin d ∧
        (d : ℚ) = ((validPairs (Double.finite
              [some (.fin 1), none, some (.fin 3)])).length : ℚ) *
            ((validPairs (Double.finite [some (.fin 1), none, some (.fin 3)])).map
              (fun p => (p.1 : ℚ) * (p.1 : ℚ))).sum -
          ((validPairs (Double.finite [some (.fin 1), none, some (.fin 3)])).map
              (fun p => (p.1 : ℚ))).sum *
            ((validPairs (Double.finite [some (.fin 1), none, some (.fin 3)])).map
              (fun p => (p.1 : ℚ))).sum :=
  (double_slope_ols [some (.fin 1), none, some (.fin 3)]).2 0 3 (by norm_num) (by norm_num)
    (by norm_num) (by norm_num)
    (by
      intro v hv
      have hv2 : v = 1 ∨ v = 3 := by
        simpa [Double.finite, filterNum] using hv
      rcases hv2 with rfl | rfl
      · exact ⟨1, by norm_num, by norm_num⟩
      · exact ⟨3, by norm_num, by norm_num⟩)
    (by simp [countValid, filterNum, Double.finite])

/-- Counterexample to C23 as stated: for fourteen days at the double nearest
`7.3` the ordinary-least-squares slope is `0` and the program returns about
`5.7e-16`; for the two doubles nearest `1e308` and `1.5e308` the sums overflow
and the program returns `NaN`. -/
theorem double_slope_not_ols :
    Double.slopePerDay (List.replicate 14 (some (Double.ofRat (73 / 10)))) =
      .fin (5791756381070503 / 10141204801825835211973625643008) ∧
    olsSlope (validPairs (Double.finite
      (List.replicate 14 (some (Double.ofRat (73 / 10)))))) = 0 ∧
    Double.slopePerDay [some (Double.ofRat (10 ^ 308)), some (Double.ofRat (15 * 10 ^ 307))] =
      .nan := by
  refine ⟨by decide!, by decide!, by decide!⟩

/-! ## Confidence estimator in doubles -/

theorem double_max_fin (a b : ℚ) : Double.max (.fin a) (.fin b) = .fin (max a b) := by
  show (if Double.lt (.fin a) (.fin b) then Double.fin b else Double.fin a) = _
  show (if decide (a < b) = true then Double.fin b else Double.fin a) = _
  by_cases h : a < b
  · rw [if_pos (decide_eq_true h), max_eq_right h.le]
  · rw [if_neg (by simpa using h), max_eq_left (not_lt.1 h)]

theorem double_min_fin (a b : ℚ) : Double.min (.fin a) (.fin b) = .fin (min a b) := by
  show (if Double.lt (.fin b) (.fin a) then Double.fin b else Double.fin a) = _
  show (if decide (b < a) = true then Double.fin b else Double.fin a) = _
  by_cases h : b < a
  · rw [if_pos (decide_eq_true h), min_eq_right h.le]
  · rw [if_neg (by simpa using h), min_eq_left (not_lt.1 h)]

theorem double_clamp_fin (x lo hi : ℚ) :
    Double.clamp (.fin x) (.fin lo) (.fin hi) = .fin (clamp x lo hi) := by
  rw [Double.clamp, double_max_fin, double_min_fin]
  rfl

theorem double_div_fin (a b : ℚ) (hb : b ≠ 0) :
    Double.div (.fin a) (.fin b) = Double.ofRat (a / b) := by
  simp [Double.div, hb]

theorem double_lit_012 : Double.ofRat (12 / 100) = .fin (1080863910568919 / 9007199254740992) := by
  decide!

theorem double_lit_025 : Double.ofRat (25 / 100) = .fin (1 / 4) := by
  decide!

theorem double_lit_01 : Double.ofRat (1 / 10) = .fin (3602879701896397 / 36028797018963968) := by
  decide!

theorem double_lit_04 : Double.ofRat (4 / 10) = .fin (3602879701896397 / 9007199254740992) := by
  decide!

/-- The width of `ci90` in doubles, for a missing fraction in `[0, 1]`: within
`2 ^ (-50)` of `0.12 + 0.25 m`. -/
theorem double_ci90_width (m : ℚ) (h0 : 0 ≤ m) (h1 : m ≤ 1) :
    ∃ w : ℚ, Double.clamp (Double.add (Double.ofRat (12 / 100))
        (Double.mul (Double.ofRat (25 / 100)) (.fin m)))
        (Double.ofRat (1 / 10)) (Double.ofRat (4 / 10)) = .fin w ∧
      |w - (3 / 25 + m / 4)| ≤ (2 : ℚ) ^ (-50 : ℤ) := by
  rw [double_lit_012, double_lit_025, double_lit_01, double_lit_04]
  obtain ⟨v1, e1, b1, n1⟩ := double_ofRat_err (1 / 4 * m) 0 (by norm_num) (by norm_num)
    (by rw [abs_of_nonneg (by positivity)]; norm_num; linarith)
  have hv1 := abs_le.1 b1
  have p53 : (2 : ℚ) ^ ((0 : ℤ) - 53) = 1 / 9007199254740992 := by norm_num
  have p50 : (2 : ℚ) ^ (-50 : ℤ) = 1 / 1125899906842624 := by norm_num
  rw [p53] at hv1 b1
  have hv1n := n1 (by positivity)
  obtain ⟨w0, e2, b2, -⟩ := double_ofRat_err (1080863910568919 / 9007199254740992 + v1) 0
    (by norm_num) (by norm_num)
    (by rw [abs_of_nonneg (by positivity)]; norm_num; linarith)
  rw [p53] at b2
  have hw0 := abs_le.1 b2
  have hmul : Double.mul (.fin (1 / 4)) (.fin m) = .fin v1 := e1
  have hadd : Double.add (.fin (1080863910568919 / 9007199254740992)) (.fin v1) = .fin w0 := e2
  rw [hmul, hadd, double_clamp_fin]
  refine ⟨_, rfl, ?_⟩
  rw [clamp_of_mem (by linarith) (by linarith), p50, abs_le]
  constructor <;> linarith

/-- The structure of `round2` in doubles on `[0, 1]`: the result is within
`2 ^ (-52)` of `R / 100` for an integer `R` within `1/2 + 2 ^ (-46)` of
`100 x`. -/
theorem double_round2_spec (x : ℚ) (h0 : 0 ≤ x) (h1 : x ≤ 1) :
    ∃ (R : ℤ) (z : ℚ), Double.round2 (.fin x) = .fin z ∧
      |z - (R : ℚ) / 100| ≤ (2 : ℚ) ^ (-52 : ℤ) ∧
      100 * x - 1 / 2 - (2 : ℚ) ^ (-46 : ℤ) < (R : ℚ) ∧
      (R : ℚ) ≤ 100 * x + 1 / 2 + (2 : ℚ) ^ (-46 : ℤ) ∧ 0 ≤ R ∧ R ≤ 100 := by
  have p46 : (2 : ℚ) ^ (-46 : ℤ) = 1 / 70368744177664 := by norm_num
  have p52 : (2 : ℚ) ^ (-52 : ℤ) = 1 / 4503599627370496 := by norm_num
  obtain ⟨y, e1, b1, n1⟩ := double_ofRat_err (x * 100) 7 (by norm_num) (by norm_num)
    (by rw [abs_of_nonneg (by positivity)]; norm_num; linarith)
  have hy := abs_le.1 b1
  have q46 : (2 : ℚ) ^ ((7 : ℤ) - 53) = 1 / 70368744177664 := by norm_num
  rw [q46] at hy
  have hfl1 := Int.floor_le (y + 1 / 2)
  have hfl2 := Int.lt_floor_add_one (y + 1 / 2)
  have hR0 : (0 : ℤ) ≤ ⌊y + 1 / 2⌋ := by
    apply Int.floor_nonneg.2
    have := n1 (by positivity)
    linarith
  have hR100 : ⌊y + 1 / 2⌋ ≤ 100 := by
    have : ⌊y + 1 / 2⌋ < 101 := by
      apply Int.floor_lt.2
      push_cast
      linarith
    omega
  have hR0q : (0 : ℚ) ≤ (⌊y + 1 / 2⌋ : ℚ) := by exact_mod_cast hR0
  have hR100q : (⌊y + 1 / 2⌋ : ℚ) ≤ 100 := by exact_mod_cast hR100
  obtain ⟨z, e2, b2, -⟩ := double_ofRat_err ((⌊y + 1 / 2⌋ : ℚ) / 100) 1 (by norm_num)
    (by norm_num)
    (by rw [abs_of_nonneg (by positivity)]; norm_num; linarith)
  have q52 : (2 : ℚ) ^ ((1 : ℤ) - 53) = 1 / 4503599627370496 := by norm_num
  rw [q52] at b2
  refine ⟨⌊y + 1 / 2⌋, z, ?_, ?_, ?_, ?_, hR0, hR100⟩
  · have hmul : Double.mul (.fin x) (.fin 100) = .fin y := e1
    unfold Double.round2
    rw [hmul]
    show Double.div (.fin ((⌊y + 1 / 2⌋ : ℤ) : ℚ)) (.fin 100) = _
    rw [double_div_fin _ _ (by norm_num)]
    exact e2
  · rw [p52]
    exact b2
  · rw [p46]
    linarith
  · rw [p46]
    linarith

/-- The structure of `ci90` in doubles for `prob` and a missing fraction in
`[0, 1]`: the unrounded bounds `L`, `H` are within `2 ^ (-49)` of
`prob ∓ (0.12 + 0.25 m)`, and each returned bound is within `2 ^ (-52)` of
`R / 100` for an integer `R` within `1/2 + 2 ^ (-46)` of a hundred times the
clamped unrounded bound. -/
theorem double_ci90_spec (p m : ℚ) (hp0 : 0 ≤ p) (hp1 : p ≤ 1) (hm0 : 0 ≤ m) (hm1 : m ≤ 1) :
    ∃ (L H : ℚ) (RL RH : ℤ) (lo hi : ℚ),
      Double.ci90 (.fin p) (.fin m) = (.fin lo, .fin hi) ∧
      (p - (3 / 25 + m / 4) - 1 / 562949953421312 ≤ L ∧
        L ≤ p - (3 / 25 + m / 4) + 1 / 562949953421312) ∧
      (p + (3 / 25 + m / 4) - 1 / 562949953421312 ≤ H ∧
        H ≤ p + (3 / 25 + m / 4) + 1 / 562949953421312) ∧
      (100 * clamp L 0 1 - 1 / 2 - 1 / 70368744177664 < (RL : ℚ) ∧
        (RL : ℚ) ≤ 100 * clamp L 0 1 + 1 / 2 + 1 / 70368744177664) ∧
      (100 * clamp H 0 1 - 1 / 2 - 1 / 70368744177664 < (RH : ℚ) ∧
        (RH : ℚ) ≤ 100 * clamp H 0 1 + 1 / 2 + 1 / 70368744177664) ∧
      ((RL : ℚ) / 100 - 1 / 4503599627370496 ≤ lo ∧
        lo ≤ (RL : ℚ) / 100 + 1 / 4503599627370496) ∧
      ((RH : ℚ) / 100 - 1 / 4503599627370496 ≤ hi ∧
        hi ≤ (RH : ℚ) / 100 + 1 / 4503599627370496) ∧
      (0 ≤ RL ∧ RL ≤ 100) ∧ (0 ≤ RH ∧ RH ≤ 100) := by
  have p46 : (2 : ℚ) ^ (-46 : ℤ) = 1 / 70368744177664 := by norm_num
  have p52 : (2 : ℚ) ^ (-52 : ℤ) = 1 / 4503599627370496 := by norm_num
  have p50 : (2 : ℚ) ^ (-50 : ℤ) = 1 / 1125899906842624 := by norm_num
  have q53 : (2 : ℚ) ^ ((0 : ℤ) - 53) = 1 / 9007199254740992 := by norm_num
  have q52 : (2 : ℚ) ^ ((1 : ℤ) - 53) = 1 / 4503599627370496 := by norm_num
  obtain ⟨w, ew, bw⟩ := double_ci90_width m hm0 hm1
  rw [p50] at bw
  have hw := abs_le.1 bw
  obtain ⟨L, eL, bL, -⟩ := double_ofRat_err (p + -w) 0 (by norm_num) (by norm_num)
    (by rw [abs_le]; constructor <;> norm_num <;> linarith)
  rw [q53] at bL
  have hL := abs_le.1 bL
  obtain ⟨H, eH, bH, -⟩ := double_ofRat_err (p + w) 1 (by norm_num) (by norm_num)
    (by rw [abs_le]; constructor <;> norm_num <;> linarith)
  rw [q52] at bH
  have hH := abs_le.1 bH
  have c0L : 0 ≤ clamp L 0 1 := clamp_ge L (by norm_num)
  have c1L : clamp L 0 1 ≤ 1 := clamp_le L 0 1
  have c0H : 0 ≤ clamp H 0 1 := clamp_ge H (by norm_num)
  have c1H : clamp H 0 1 ≤ 1 := clamp_le H 0 1
  obtain ⟨RL, lo, elo, blo, rl1, rl2, rl3, rl4⟩ := double_round2_spec (clamp L 0 1) c0L c1L
  obtain ⟨RH, hi, ehi, bhi, rh1, rh2, rh3, rh4⟩ := double_round2_spec (clamp H 0 1) c0H c1H
  rw [p52] at blo bhi
  rw [p46] at rl1 rl2 rh1 rh2
  have hlo := abs_le.1 blo
  have hhi := abs_le.1 bhi
  have hsub : Double.sub (.fin p) (.fin w) = .fin L := eL
  have hadd : Double.add (.fin p) (.fin w) = .fin H := eH
  refine ⟨L, H, RL, RH, lo, hi, ?_, ⟨by linarith, by linarith⟩, ⟨by linarith, by linarith⟩,
    ⟨rl1, rl2⟩, ⟨rh1, rh2⟩, ⟨by linarith, by linarith⟩, ⟨by linarith, by linarith⟩,
    ⟨rl3, rl4⟩, ⟨rh3, rh4⟩⟩
  unfold Double.ci90
  simp only
  rw [ew, hsub, hadd, double_clamp_fin, double_clamp_fin, elo, ehi]

theorem clamp_unit_of_nonpos {x : ℚ} (h : x ≤ 0) : clamp x 0 1 = 0 := by
  unfold clamp
  rw [max_eq_left h, min_eq_right (by norm_num)]

theorem clamp_unit_of_ge_one {x : ℚ} (h : 1 ≤ x) : clamp x 0 1 = 1 := by
  unfold clamp
  rw [max_eq_right (by linarith), min_eq_left h]

/-- C5 (amended): in doubles, for every `prob` in `[0, 1]` and every pair of
missing fractions `0 ≤ m1 < m2 ≤ 1` with `m2 − m1 ≥ 0.05`, the width `hi − lo`
of `ci90(prob, m2)` is strictly greater than the width of `ci90(prob, m1)`. -/
theorem double_ci90_widening (p m1 m2 : ℚ) (hp0 : 0 ≤ p) (hp1 : p ≤ 1)
    (hm1 : 0 ≤ m1) (hm2 : m2 ≤ 1) (hgap : m1 + 1 / 20 ≤ m2) :
    ∃ lo1 hi1 lo2 hi2 : ℚ,
      Double.ci90 (.fin p) (.fin m1) = (.fin lo1, .fin hi1) ∧
      Double.ci90 (.fin p) (.fin m2) = (.fin lo2, .fin hi2) ∧
      hi1 - lo1 < hi2 - lo2 := by
  obtain ⟨L1, H1, RL1, RH1, lo1, hi1, e1, ⟨l1a, l1b⟩, ⟨h1a, h1b⟩, ⟨rl1a, rl1b⟩, ⟨rh1a, rh1b⟩,
    ⟨lo1a, lo1b⟩, ⟨hi1a, hi1b⟩, ⟨rl1c, rl1d⟩, ⟨rh1c, rh1d⟩⟩ :=
    double_ci90_spec p m1 hp0 hp1 hm1 (by linarith)
  obtain ⟨L2, H2, RL2, RH2, lo2, hi2, e2, ⟨l2a, l2b⟩, ⟨h2a, h2b⟩, ⟨rl2a, rl2b⟩, ⟨rh2a, rh2b⟩,
    ⟨lo2a, lo2b⟩, ⟨hi2a, hi2b⟩, ⟨rl2c, rl2d⟩, ⟨rh2c, rh2d⟩⟩ :=
    double_ci90_spec p m2 hp0 hp1 (by linarith) hm2
  refine ⟨lo1, hi1, lo2, hi2, e1, e2, ?_⟩
  have key : ((RH1 : ℚ) + 1 ≤ RH2 ∧ (RL2 : ℚ) ≤ RL1) ∨
      ((RH1 : ℚ) ≤ RH2 ∧ (RL2 : ℚ) + 1 ≤ RL1) := by
    rcases le_total p (1 / 2) with hp | hp
    · left
      have cH1 : clamp H1 0 1 = H1 :=
        clamp_of_mem (by linarith only [h1a, hp0, hm1])
          (by linarith only [h1b, hp, hgap, hm2])
      have cH2 : clamp H2 0 1 = H2 :=
        clamp_of_mem (by linarith only [h2a, hp0, hm1, hgap])
          (by linarith only [h2b, hp, hm2])
      rw [cH1] at rh1a rh1b
      rw [cH2] at rh2a rh2b
      constructor
      · have : (RH1 : ℚ) < (RH2 : ℚ) := by linarith only [rh1b, rh2a, h1b, h2a, hgap]
        have : RH1 < RH2 := by exact_mod_cast this
        have : RH1 + 1 ≤ RH2 := by omega
        exact_mod_cast this
      · rcases le_total L2 0 with hL | hL
        · rw [clamp_unit_of_nonpos hL] at rl2b
          have : (RL2 : ℚ) < 1 := by linarith only [rl2b]
          have : RL2 < 1 := by exact_mod_cast this
          have : RL2 ≤ RL1 := by omega
          exact_mod_cast this
        · have cL1 : clamp L1 0 1 = L1 :=
            clamp_of_mem (by linarith only [l1a, l2b, hL, hgap])
              (by linarith only [l1b, hp1, hm1])
          have cL2 : clamp L2 0 1 = L2 :=
            clamp_of_mem hL (by linarith only [l2b, hp1, hm1, hgap])
          rw [cL1] at rl1a
          rw [cL2] at rl2b
          linarith only [rl2b, rl1a, l2b, l1a, hgap]
    · right
      have cL1 : clamp L1 0 1 = L1 :=
        clamp_of_mem (by linarith only [l1a, hp, hgap, hm2])
          (by linarith only [l1b, hp1, hm1])
      have cL2 : clamp L2 0 1 = L2 :=
        clamp_of_mem (by linarith only [l2a, hp, hm2])
          (by linarith only [l2b, hp1, hm1, hgap])
      rw [cL1] at rl1a rl1b
      rw [cL2] at rl2a rl2b
      constructor
      · rcases le_total 1 H2 with hH | hH
        · rw [clamp_unit_of_ge_one hH] at rh2a
          have : (99 : ℚ) < (RH2 : ℚ) := by linarith only [rh2a]
          have : 99 < RH2 := by exact_mod_cast this
          have : RH1 ≤ RH2 := by omega
          exact_mod_cast this
        · have cH1 : clamp H1 0 1 = H1 :=
            clamp_of_mem (by linarith only [h1a, hp0, hm1])
              (by linarith only [h1b, h2a, hH, hgap])
          have cH2 : clamp H2 0 1 = H2 :=
            clamp_of_mem (by linarith only [h2a, hp0, hm1, hgap]) hH
          rw [cH1] at rh1b
          rw [cH2] at rh2a
          linarith only [rh1b, rh2a, h1b, h2a, hgap]
      · have : (RL2 : ℚ) < (RL1 : ℚ) := by linarith only [rl2b, rl1a, l2b, l1a, hgap]
        have : RL2 < RL1 := by exact_mod_cast this
        have : RL2 + 1 ≤ RL1 := by omega
        exact_mod_cast this
  rcases key with ⟨k1, k2⟩ | ⟨k1, k2⟩
  · linarith only [k1, k2, lo1a, lo1b, hi1a, hi1b, lo2a, lo2b, hi2a, hi2b]
  · linarith only [k1, k2, lo1a, lo1b, hi1a, hi1b, lo2a, lo2b, hi2a, hi2b]

/-- Witness of the amended C5 at `prob = 0.5`, `m1 = 0`, `m2 = 0.5`. -/
theorem double_ci90_widening_witness :
    ∃ lo1 hi1 lo2 hi2 : ℚ,
      Double.ci90 (.fin (1 / 2)) (.fin 0) = (.fin lo1, .fin hi1) ∧
      Double.ci90 (.fin (1 / 2)) (.fin (1 / 2)) = (.fin lo2, .fin hi2) ∧
      hi1 - lo1 < hi2 - lo2 :=
  double_ci90_widening (1 / 2) 0 (1 / 2) (by norm_num) (by norm_num) (by norm_num)
    (by norm_num) (by norm_num)

/-- Counterexample to C5 as stated: at the doubles nearest `prob = 0.3`,
`m1 = 0.06` and `m2 = 0.1` (inside the clamp range, `m1 < m2`) the program
returns the same interval `[0.16, 0.44]`, so the width does not grow. -/
theorem double_ci90_same_interval :
    Double.ofRat (3 / 10) = .fin (5404319552844595 / 18014398509481984) ∧
    Double.ofRat (6 / 100) = .fin (1080863910568919 / 18014398509481984) ∧
    Double.ofRat (1 / 10) = .fin (3602879701896397 / 36028797018963968) ∧
    (1080863910568919 / 18014398509481984 : ℚ) < 3602879701896397 / 36028797018963968 ∧
    Double.ci90 (.fin (5404319552844595 / 18014398509481984))
        (.fin (1080863910568919 / 18014398509481984)) =
      (Double.ofRat (16 / 100), Double.ofRat (44 / 100)) ∧
    Double.ci90 (.fin (5404319552844595 / 18014398509481984))
        (.fin (3602879701896397 / 36028797018963968)) =
      (Double.ofRat (16 / 100), Double.ofRat (44 / 100)) := by
  refine ⟨by decide!, by decide!, by decide!, by norm_num, by decide!, by decide!⟩

end Detective
